import Mathlib

/-!
# Verification of the Planna catalog reconciliation and prerequisite engine

Shallow embedding of:
* `importCourses.js` (`importCoursesFromJson`, `shouldSkipTag`, `getSupabaseClient`)
* `src/lib/db/queries/courses.ts` (`checkPrerequisitesMet`)
* `src/lib/db/queries/admin.ts` (`updateRelationshipCourseCode`,
  `addCourseRelationshipByCode`)

Conventions of the embedding:
* Postgres `uuid` surrogate keys for courses are modelled as `Nat` drawn from a
  counter `nextId`; relationship-row uuids (used only as grouping fallback keys
  in the evaluator) are modelled as `String`.
* Nullable SQL columns are `Option _`; JavaScript falsiness of a nullable
  string (`null`, `undefined`, `""`) is captured by `jsFalsy`/`jsOr`.
* Numeric payload columns (`credits`, `gpa_weight`, ...) are only ever copied,
  never computed with, so they are modelled as `Option Int`.
* A Supabase table is a list of rows; `.limit(1)` with no `.order` returns the
  first row in list order; `UNIQUE` constraints from the migration
  (`external_course_code`, `(course_id, tag)`, `(course_id, grade, term_number)`
  with SQL `NULL`-distinctness, `variant_course_code`) make the corresponding
  inserts fail, which the importer swallows or (for variants, code `23505`)
  turns into an in-place update.
* The only `throw` sites inside the importer's per-entry `try` blocks are the
  course update/insert of Pass 1 (`if (error) throw error`); store errors there
  are modelled by an oracle `failWrite : Nat → Bool` indexed by entry position.
  Missing credentials (`getSupabaseClient`) are modelled by an absent `Config`.
-/

namespace Planna

/-- JS `x || d` for a nullable string `x`: `null`/`undefined`/`""` are falsy. -/
def jsOr (o : Option String) (d : String) : String :=
  match o with
  | none => d
  | some s => if s = "" then d else s

/-- JS falsiness test for a nullable string. -/
def jsFalsy (o : Option String) : Bool :=
  match o with
  | none => true
  | some s => s = ""

/-- JS `s || null` for a plain string (empty string becomes SQL `NULL`). -/
def jsOrNull (s : String) : Option String :=
  if s = "" then none else some s

/-! ## Snapshot entries (the external JSON shape consumed by the importer) -/

/-- One element of `c.tags`: `{ symbol, uuid }`. -/
structure TagEntry where
  symbol : String
  uuid : Option String
deriving DecidableEq, Repr

/-- One element of `gradeGroup.academic_term_offered`. -/
structure TermEntry where
  academic_term : Option Int
  name : Option String
  can_plan : Bool
deriving DecidableEq, Repr

/-- One element of `c.grades_eligible`; an absent `academic_term_offered`
behaves as `[]` (`gradeGroup.academic_term_offered || []`). -/
structure GradeGroup where
  grade : String
  academic_term_offered : List TermEntry
deriving DecidableEq, Repr

/-- One element of `c.variants`. -/
structure VariantEntry where
  variant_course_code : String
  delivery_mode : Option String
  is_virtual : Option Bool
  is_summer : Option Bool
  term : Option String
  length : Option Int
  credits : Option Int
deriving DecidableEq, Repr

/-- One alternative of a requirement group: `{ course_code, text }`. -/
structure Alt where
  course_code : Option String
  text : Option String
deriving DecidableEq, Repr

/-- One prerequisite/corequisite group: `{ requires_all, alternatives }`;
an absent `alternatives` behaves as `[]` (`prereqGroup.alternatives || []`). -/
structure ReqGroup where
  requires_all : Bool
  alternatives : List Alt
deriving DecidableEq, Repr

/-- One snapshot entry `c` of `coursesData`. `grades_eligible` keeps its
`Option` because `Array.isArray(c.grades_eligible)` distinguishes an absent
field (child rows left alone) from `[]` (child rows deleted, none inserted);
for `tags`/`variants`/`prerequisites`/`corequisites` the importer additionally
requires `length > 0`, so absent and `[]` coincide and a plain list suffices. -/
structure SnapshotEntry where
  course_id : String
  uuid : Option String
  name : String
  credits : Option Int
  length : Option Int
  gpa : Option Int
  subject : Option String
  elective : Bool
  tags : List TagEntry
  grades_eligible : Option (List GradeGroup)
  variants : List VariantEntry
  prerequisites : List ReqGroup
  corequisites : List ReqGroup
deriving DecidableEq, Repr

/-! ## Persisted store (tables of the migration) -/

/-- A row of `public.courses`. -/
structure Course where
  id : Nat
  external_course_code : String
  external_uuid : Option String
  name : String
  credits : Option Int
  length : Option Int
  gpa_weight : Option Int
  subject : Option String
  is_elective : Bool
  description : Option String
  notes : Option String
  is_offered : Bool
  raw_payload : Option SnapshotEntry
deriving DecidableEq, Repr

/-- A row of `public.course_tags` (surrogate id not modelled). -/
structure TagRow where
  course_id : Nat
  tag : String
  tag_uuid : Option String
deriving DecidableEq, Repr

/-- A row of `public.course_eligibility` (surrogate id not modelled). -/
structure EligRow where
  course_id : Nat
  grade : String
  term_number : Option Int
  term_name : Option String
  can_plan : Bool
deriving DecidableEq, Repr

/-- A row of `public.course_variants` (surrogate id not modelled). -/
structure VariantRow where
  course_id : Nat
  variant_course_code : String
  delivery_mode : Option String
  is_virtual : Bool
  is_summer : Bool
  term : Option String
  length : Option Int
  credits : Option Int
  is_offered : Bool
deriving DecidableEq, Repr

/-- A row of `public.course_relationships` as written by the importer
(surrogate uuid not modelled; `related_course_code` is the column read by the
admin queries, absent from the Pass-2 insert and therefore left `NULL`). -/
structure RelationshipRow where
  course_id : Nat
  related_course_id : Option Nat
  related_course_code : Option String
  relationship_type : String
  group_id : Option String
  logic_type : Option String
  description : Option String
deriving DecidableEq, Repr

/-- The persisted store state. -/
structure DB where
  courses : List Course
  course_tags : List TagRow
  course_eligibility : List EligRow
  course_variants : List VariantRow
  course_relationships : List RelationshipRow
  nextId : Nat
deriving DecidableEq, Repr

/-! ## `checkPrerequisitesMet` (courses.ts) -/

/-- A `course_relationships` row as selected by the reader queries: here the
surrogate uuid `id` matters (grouping fallback key), modelled as `String`. -/
structure RelQRow where
  id : String
  course_id : Nat
  related_course_id : Option Nat
  related_course_code : Option String
  relationship_type : String
  group_id : Option String
  logic_type : Option String
  description : Option String
deriving DecidableEq, Repr

/-- `rel.group_id || rel.id`: the grouping key of a row. -/
def groupKey (r : RelQRow) : String := jsOr r.group_id r.id

/-- `rel.logic_type || 'OR'`. -/
def rowLogic (r : RelQRow) : String := jsOr r.logic_type "OR"

/-- The alternatives accumulator: `(key, logicType from first row, rows)`.
JS object keys preserve first-insertion order for these non-numeric keys. -/
abbrev Groups := List (String × String × List RelQRow)

/-- Adding one row to the `groups` record. -/
def addToGroups (gs : Groups) (r : RelQRow) : Groups :=
  let k := groupKey r
  if gs.any (fun g => g.1 = k) then
    gs.map (fun g => if g.1 = k then (g.1, g.2.1, g.2.2 ++ [r]) else g)
  else
    gs ++ [(k, rowLogic r, [r])]

/-- The `groups` record built by the first loop of `checkPrerequisitesMet`. -/
def buildGroups (rows : List RelQRow) : Groups :=
  rows.foldl addToGroups []

/-- JS `s.startsWith(pre)`, via character lists (kernel-reducible). -/
def strStartsWith (s pre : String) : Bool :=
  pre.toList.isPrefixOf s.toList

/-- The `isSatisfied` helper: `if (!code) return false;
return completedCourseCodes.some(cc => cc.startsWith(code));`. -/
def isSatisfied (completed : List String) (r : RelQRow) : Bool :=
  match r.related_course_code with
  | none => false
  | some code =>
    if code = "" then false
    else completed.any (fun cc => strStartsWith cc code)

/-- `a.description || a.related_course_code || '?'`. -/
def altDesc (r : RelQRow) : String :=
  jsOr r.description (jsOr r.related_course_code "?")

/-- Whether one group of the record is satisfied, per the second loop. -/
def groupSat (completed : List String) (g : String × String × List RelQRow) : Bool :=
  if g.2.1 = "AND" then g.2.2.all (isSatisfied completed)
  else g.2.2.any (isSatisfied completed)

/-- The description pushed onto `unmet` for an unsatisfied group. -/
def groupDesc (g : String × String × List RelQRow) : String :=
  if g.2.1 = "AND" then String.intercalate " AND " (g.2.2.map altDesc)
  else String.intercalate " or " (g.2.2.map altDesc)

/-- The rows the DB query returns: `course_id = courseId` and
`relationship_type = 'prerequisite'`. -/
def prereqRows (table : List RelQRow) (courseId : Nat) : List RelQRow :=
  table.filter (fun r => r.course_id = courseId && r.relationship_type = "prerequisite")

/-- `checkPrerequisitesMet` (pure core, with the DB read inlined as a filter):
returns `(met, unmet)`. -/
def checkPrerequisitesMet (table : List RelQRow) (courseId : Nat)
    (completedCourseCodes : List String) : Bool × List String :=
  let data := prereqRows table courseId
  if data = [] then (true, [])
  else
    let groups := buildGroups data
    let unmet := groups.foldl
      (fun acc g => if groupSat completedCourseCodes g then acc else acc ++ [groupDesc g]) []
    (unmet.length = 0, unmet)

/-! ## Admin code resolver (admin.ts) -/

/-- `%`-step of SQL `LIKE`: does the continuation accept some suffix? -/
def likeStar (f : List Char → Bool) : List Char → Bool
  | [] => f []
  | c :: s => f (c :: s) || likeStar f s

/-- SQL `LIKE` matching over character lists: `%` matches any sequence,
`_` any single character, anything else itself. -/
def likeMatchL : List Char → List Char → Bool
  | [], s => s.isEmpty
  | p :: ps, s =>
    if p = '%' then likeStar (likeMatchL ps) s
    else if p = '_' then
      match s with
      | [] => false
      | _ :: s' => likeMatchL ps s'
    else
      match s with
      | [] => false
      | c :: s' => (p = c) && likeMatchL ps s'

/-- SQL `LIKE pattern` on strings. -/
def sqlLike (pattern s : String) : Bool :=
  likeMatchL pattern.toList s.toList

/-- The code-resolution steps of `updateRelationshipCourseCode`: exact
`.eq` match first, otherwise `.like(code + '%').limit(1)` — the first row of
the unordered query result, i.e. first in table order. -/
def resolveCourseCodeAdmin (courses : List Course) (courseCode : String) : Option Nat :=
  match courses.find? (fun c => c.external_course_code = courseCode) with
  | some c => some c.id
  | none =>
    match courses.find? (fun c => sqlLike (courseCode ++ "%") c.external_course_code) with
    | some c => some c.id
    | none => none

/-- `updateRelationshipCourseCode`: resolve, then update the targeted row's
`related_course_code` (`courseCode || null`) and `related_course_id`. -/
def updateRelationshipCourseCode (courses : List Course) (rels : List RelQRow)
    (relationshipId : String) (courseCode : String) : List RelQRow :=
  let resolvedId := resolveCourseCodeAdmin courses courseCode
  rels.map (fun r =>
    if r.id = relationshipId then
      { r with related_course_code := jsOrNull courseCode, related_course_id := resolvedId }
    else r)

/-- The code-resolution steps of `addCourseRelationshipByCode`: identical
except that the prefix step is guarded by `else if (relatedCourseCode)`. -/
def resolveCourseCodeAdd (courses : List Course) (relatedCourseCode : String) : Option Nat :=
  match courses.find? (fun c => c.external_course_code = relatedCourseCode) with
  | some c => some c.id
  | none =>
    if relatedCourseCode = "" then none
    else
      match courses.find? (fun c => sqlLike (relatedCourseCode ++ "%") c.external_course_code) with
      | some c => some c.id
      | none => none

/-! ## `importCoursesFromJson` (importCourses.js) -/

/-- `SKIP_TAGS`: tags to skip during import (case-insensitive). -/
def SKIP_TAGS : List String := ["CAN_TAKE_VIRTUAL", "CAN_TAKE_SUMMER", "science"]

/-- `shouldSkipTag`. -/
def shouldSkipTag (tagSymbol : String) : Bool :=
  SKIP_TAGS.any (fun s => s.toLower = tagSymbol.toLower)

/-- One element of `stats.errorDetails`; Pass 2 additionally tags its entries
with `type: 'relationships'`, kept in `errType`. -/
structure ErrorDetail where
  course_id : String
  error : String
  errType : Option String
deriving DecidableEq, Repr

/-- The aggregate statistics returned by the importer. -/
structure Stats where
  total : Nat
  coursesCreated : Nat
  coursesUpdated : Nat
  coursesMarkedNotOffered : Nat
  tagsCreated : Nat
  eligibilityCreated : Nat
  relationshipsCreated : Nat
  variantsCreated : Nat
  variantsUpdated : Nat
  errors : Nat
  errorDetails : List ErrorDetail
deriving DecidableEq, Repr

/-- The initial statistics record. -/
def initStats (total : Nat) : Stats :=
  { total := total, coursesCreated := 0, coursesUpdated := 0,
    coursesMarkedNotOffered := 0, tagsCreated := 0, eligibilityCreated := 0,
    relationshipsCreated := 0, variantsCreated := 0, variantsUpdated := 0,
    errors := 0, errorDetails := [] }

/-- The store configuration of `getSupabaseClient` (`SUPABASE_URL` and
`SUPABASE_SERVICE_ROLE_KEY`); it is only ever tested for presence. -/
structure Config where
  supabaseUrl : String
  serviceRoleKey : String
deriving DecidableEq, Repr

/-- `importedCourseCodes`: `new Set(coursesData.map(c => c.course_id).filter(Boolean))`. -/
def importedCourseCodes (coursesData : List SnapshotEntry) : List String :=
  (coursesData.map (fun c => c.course_id)).filter (fun s => s ≠ "")

/-- Pass 0: mark currently-offered courses missing from the import (and their
variants) as not offered, in one batched update keyed by course ids. -/
def pass0 (coursesData : List SnapshotEntry) (db : DB) (stats : Stats) : DB × Stats :=
  let codes := importedCourseCodes coursesData
  let toMarkNotOffered :=
    db.courses.filter (fun c => c.is_offered && !codes.contains c.external_course_code)
  if toMarkNotOffered.length > 0 then
    let idsToMark := toMarkNotOffered.map (fun c => c.id)
    let db :=
      { db with
        courses := db.courses.map (fun c =>
          if idsToMark.contains c.id then { c with is_offered := false } else c),
        course_variants := db.course_variants.map (fun v =>
          if idsToMark.contains v.course_id then { v with is_offered := false } else v) }
    (db, { stats with coursesMarkedNotOffered := toMarkNotOffered.length })
  else (db, stats)

/-- The `courseData` record of Pass 1 applied as an update to an existing row:
every core field is overwritten, `description`/`notes` are `undefined` in the
update payload and hence left untouched. -/
def applyCourseData (c : SnapshotEntry) (c0 : Course) : Course :=
  { c0 with
    external_course_code := c.course_id
    external_uuid := c.uuid
    name := c.name
    credits := c.credits
    length := c.length
    gpa_weight := c.gpa
    subject := c.subject
    is_elective := c.elective
    is_offered := true
    raw_payload := some c }

/-- The `courseData` record of Pass 1 as a fresh insert:
`description`/`notes` are explicitly `null`. -/
def freshCourse (c : SnapshotEntry) (id : Nat) : Course :=
  { id := id
    external_course_code := c.course_id
    external_uuid := c.uuid
    name := c.name
    credits := c.credits
    length := c.length
    gpa_weight := c.gpa
    subject := c.subject
    is_elective := c.elective
    description := none
    notes := none
    is_offered := true
    raw_payload := some c }

/-- The run-scoped `courseCodeToId` map (`Map.set` overwrites in place). -/
def mapSet (m : List (String × Nat)) (k : String) (v : Nat) : List (String × Nat) :=
  if m.any (fun p => p.1 = k) then
    m.map (fun p => if p.1 = k then (k, v) else p)
  else m ++ [(k, v)]

/-- `courseCodeToId.get` (uuid values are never falsy, so the `|| null` of
Pass 2 only converts a failed lookup). -/
def mapGet (m : List (String × Nat)) (k : String) : Option Nat :=
  (m.find? (fun p => p.1 = k)).map (fun p => p.2)

/-- Insert into `course_tags`; the `UNIQUE(course_id, tag)` constraint makes
a duplicate insert fail, which the importer swallows (`if (!error)`). -/
def insertTagRow (tags : List TagRow) (row : TagRow) : List TagRow × Bool :=
  if tags.any (fun t => t.course_id = row.course_id && t.tag = row.tag) then
    (tags, false)
  else (tags ++ [row], true)

/-- One iteration of the tag-insert loop: skip-listed tags are skipped, the
rest are inserted (collisions swallowed), counting the created rows. -/
def tagStep (courseId : Nat) (acc : List TagRow × Nat) (tag : TagEntry) :
    List TagRow × Nat :=
  if shouldSkipTag tag.symbol then acc
  else
    let r := insertTagRow acc.1
      { course_id := courseId, tag := tag.symbol, tag_uuid := tag.uuid }
    (r.1, if r.2 then acc.2 + 1 else acc.2)

/-- Tag sync for one course: only runs when the entry has a non-empty tag
list; deletes the course's tag rows, then inserts each non-skipped tag. -/
def syncTags (courseId : Nat) (entryTags : List TagEntry) (db : DB) (stats : Stats) :
    DB × Stats :=
  if entryTags.length > 0 then
    let tags0 := db.course_tags.filter (fun t => t.course_id ≠ courseId)
    let res := entryTags.foldl (tagStep courseId) (tags0, 0)
    ({ db with course_tags := res.1 },
     { stats with tagsCreated := stats.tagsCreated + res.2 })
  else (db, stats)

/-- Insert into `course_eligibility`; `UNIQUE(course_id, grade, term_number)`
with SQL semantics: rows with `NULL` `term_number` never conflict. -/
def insertEligRow (rows : List EligRow) (row : EligRow) : List EligRow × Bool :=
  match row.term_number with
  | none => (rows ++ [row], true)
  | some tn =>
    if rows.any (fun x =>
        x.course_id = row.course_id && x.grade = row.grade && x.term_number = some tn) then
      (rows, false)
    else (rows ++ [row], true)

/-- One eligibility insert attempt, counting created rows. -/
def eligInsertOne (acc : List EligRow × Nat) (row : EligRow) : List EligRow × Nat :=
  let r := insertEligRow acc.1 row
  (r.1, if r.2 then acc.2 + 1 else acc.2)

/-- One iteration of the grade-group loop: one row per listed term, or a
single null-term always-plannable row when no terms are listed. -/
def eligStep (courseId : Nat) (acc : List EligRow × Nat) (gradeGroup : GradeGroup) :
    List EligRow × Nat :=
  let terms := gradeGroup.academic_term_offered
  if terms.length > 0 then
    terms.foldl (fun acc term =>
      eligInsertOne acc
        { course_id := courseId, grade := gradeGroup.grade,
          term_number := term.academic_term, term_name := term.name,
          can_plan := term.can_plan }) acc
  else
    eligInsertOne acc
      { course_id := courseId, grade := gradeGroup.grade,
        term_number := none, term_name := none, can_plan := true }

/-- Eligibility sync for one course: runs whenever `grades_eligible` is an
array (even an empty one, which then only deletes). -/
def syncEligibility (courseId : Nat) (grades : Option (List GradeGroup))
    (db : DB) (stats : Stats) : DB × Stats :=
  match grades with
  | none => (db, stats)
  | some gradeGroups =>
    let rows0 := db.course_eligibility.filter (fun r => r.course_id ≠ courseId)
    let res := gradeGroups.foldl (eligStep courseId) (rows0, 0)
    ({ db with course_eligibility := res.1 },
     { stats with eligibilityCreated := stats.eligibilityCreated + res.2 })

/-- The `variantData` record of Pass 1. -/
def variantData (courseId : Nat) (variant : VariantEntry) : VariantRow :=
  { course_id := courseId
    variant_course_code := variant.variant_course_code
    delivery_mode := jsOrNull (jsOr variant.delivery_mode "")
    is_virtual := variant.is_virtual.getD false
    is_summer := variant.is_summer.getD false
    term := jsOrNull (jsOr variant.term "")
    length := variant.length
    credits := variant.credits
    is_offered := true }

/-- Insert into `course_variants`; on a `23505` duplicate of the globally
unique `variant_course_code` the importer updates the existing row (including
its parent association) in place instead. Returns `true` when created. -/
def insertVariantRow (vars : List VariantRow) (row : VariantRow) :
    List VariantRow × Bool :=
  if vars.any (fun v => v.variant_course_code = row.variant_course_code) then
    (vars.map (fun v =>
      if v.variant_course_code = row.variant_course_code then row else v), false)
  else (vars ++ [row], true)

/-- One iteration of the variant-insert loop, counting created and
taken-over (`23505`) rows. -/
def variantStep (courseId : Nat) (acc : List VariantRow × Nat × Nat)
    (variant : VariantEntry) : List VariantRow × Nat × Nat :=
  let r := insertVariantRow acc.1 (variantData courseId variant)
  (r.1, if r.2 then acc.2.1 + 1 else acc.2.1,
        if r.2 then acc.2.2 else acc.2.2 + 1)

/-- Variant sync for one course: only runs when the entry has a non-empty
variant list; deletes the course's variant rows, then inserts each variant. -/
def syncVariants (courseId : Nat) (entryVariants : List VariantEntry)
    (db : DB) (stats : Stats) : DB × Stats :=
  if entryVariants.length > 0 then
    let vars0 := db.course_variants.filter (fun v => v.course_id ≠ courseId)
    let res := entryVariants.foldl (variantStep courseId) (vars0, 0, 0)
    ({ db with course_variants := res.1 },
     { stats with variantsCreated := stats.variantsCreated + res.2.1,
                  variantsUpdated := stats.variantsUpdated + res.2.2 })
  else (db, stats)

/-- State threaded through Pass 1. -/
structure P1State where
  db : DB
  map : List (String × Nat)
  stats : Stats
deriving DecidableEq, Repr

/-- The course lookup and update/insert of Pass 1: update every core field of
the existing row found by `externalCode` (leaving `description`/`notes`
untouched), or insert a fresh row; returns the store, the course id for the
run map and child syncs, and the statistics. -/
def upsertCourse (c : SnapshotEntry) (db : DB) (stats : Stats) : DB × Nat × Stats :=
  match db.courses.find? (fun x => x.external_course_code = c.course_id) with
  | some c0 =>
    ({ db with courses := db.courses.map (fun x =>
        if x.id = c0.id then applyCourseData c x else x) },
     c0.id,
     { stats with coursesUpdated := stats.coursesUpdated + 1 })
  | none =>
    ({ db with
        courses := db.courses ++ [freshCourse c db.nextId],
        nextId := db.nextId + 1 },
     db.nextId,
     { stats with coursesCreated := stats.coursesCreated + 1 })

/-- The three child-collection syncs of Pass 1 for one course, in source
order: tags, eligibility, variants. -/
def childSync (courseId : Nat) (c : SnapshotEntry) (db : DB) (stats : Stats) :
    DB × Stats :=
  let r2 := syncTags courseId c.tags db stats
  let r3 := syncEligibility courseId c.grades_eligible r2.1 r2.2
  syncVariants courseId c.variants r3.1 r3.2

/-- One Pass-1 iteration for entry `c` at position `i`. The course
update/insert is the only `throw` site inside the `try`; `failWrite i` makes
it fail, in which case the `catch` records the error and the entry's children
and map registration are skipped. -/
def processEntryP1 (failWrite : Nat → Bool) (i : Nat) (c : SnapshotEntry)
    (st : P1State) : P1State :=
  if failWrite i then
    { st with stats :=
      { st.stats with
        errors := st.stats.errors + 1,
        errorDetails := st.stats.errorDetails ++
          [{ course_id := c.course_id, error := "write error", errType := none }] } }
  else
    let u := upsertCourse c st.db st.stats
    let r := childSync u.2.1 c u.1 u.2.2
    { db := r.1, map := mapSet st.map c.course_id u.2.1, stats := r.2 }

/-- Pass 1 over the whole snapshot. -/
def pass1 (failWrite : Nat → Bool) (coursesData : List SnapshotEntry)
    (db : DB) (stats : Stats) : P1State :=
  (coursesData.enum).foldl
    (fun st ic => processEntryP1 failWrite ic.1 ic.2 st)
    { db := db, map := [], stats := stats }

/-- The row inserted for one alternative of the requirement group carrying
`groupIndex` `gi`.  The insert names no `related_course_code` column, so that
column is `NULL`. -/
def mkRelRow (map : List (String × Nat)) (courseId : Nat)
    (relationshipType : String) (gidText : String) (gi : Nat) (requiresAll : Bool)
    (alt : Alt) : RelationshipRow :=
  { course_id := courseId
    related_course_id := alt.course_code.bind (mapGet map)
    related_course_code := none
    relationship_type := relationshipType
    group_id := some (gidText ++ toString gi)
    logic_type := some (if requiresAll then "AND" else "OR")
    description := alt.text }

/-- The relationship rows inserted for one requirement list, threading the
`groupIndex` counter of the source loop. -/
def mkRelRowsFrom (map : List (String × Nat)) (courseId : Nat)
    (relationshipType : String) (gidText : String) :
    Nat → List ReqGroup → List RelationshipRow
  | _, [] => []
  | gi, grp :: rest =>
    grp.alternatives.map (mkRelRow map courseId relationshipType gidText gi grp.requires_all) ++
      mkRelRowsFrom map courseId relationshipType gidText (gi + 1) rest

/-- The relationship rows inserted for one requirement list (`prerequisites`
with group-id text `prereq_group_` or `corequisites` with `coreq_group_`). -/
def mkRelRows (map : List (String × Nat)) (courseId : Nat)
    (relationshipType : String) (gidText : String) (groups : List ReqGroup) :
    List RelationshipRow :=
  mkRelRowsFrom map courseId relationshipType gidText 0 groups

/-- One Pass-2 iteration: skip entries missing from the run map, else delete
the course's relationship rows and insert one row per alternative. -/
def processEntryP2 (map : List (String × Nat)) (c : SnapshotEntry)
    (acc : DB × Stats) : DB × Stats :=
  match mapGet map c.course_id with
  | none => acc
  | some courseId =>
    let rels0 := acc.1.course_relationships.filter (fun r => r.course_id ≠ courseId)
    let newRels :=
      mkRelRows map courseId "prerequisite" "prereq_group_" c.prerequisites ++
      mkRelRows map courseId "corequisite" "coreq_group_" c.corequisites
    ({ acc.1 with course_relationships := rels0 ++ newRels },
     { acc.2 with relationshipsCreated := acc.2.relationshipsCreated + newRels.length })

/-- Pass 2 over the whole snapshot. -/
def pass2 (map : List (String × Nat)) (coursesData : List SnapshotEntry)
    (db : DB) (stats : Stats) : DB × Stats :=
  coursesData.foldl (fun acc c => processEntryP2 map c acc) (db, stats)

/-- `importCoursesFromJson`: `getSupabaseClient` throws when the credentials
are missing, before anything is read or written; otherwise the three passes
run and the statistics are returned. -/
def importCoursesFromJson (cfg : Option Config) (failWrite : Nat → Bool)
    (db : DB) (coursesData : List SnapshotEntry) : Except String (DB × Stats) :=
  match cfg with
  | none =>
    .error "SUPABASE_URL and SUPABASE_SERVICE_ROLE_KEY environment variables are required"
  | some _ =>
    let r0 := pass0 coursesData db (initStats coursesData.length)
    let st1 := pass1 failWrite coursesData r0.1 r0.2
    .ok (pass2 st1.map coursesData st1.db st1.stats)

/-- The no-failure oracle: every store write succeeds. -/
def noFail : Nat → Bool := fun _ => false

/-! ## Concrete fixtures used by witnesses and counterexamples -/

/-- A snapshot entry with only a course code set. -/
def mkEntry (code : String) : SnapshotEntry :=
  { course_id := code, uuid := none, name := "N", credits := none, length := none,
    gpa := none, subject := none, elective := false, tags := [],
    grades_eligible := none, variants := [], prerequisites := [], corequisites := [] }

/-- An empty store. -/
def emptyDB : DB :=
  { courses := [], course_tags := [], course_eligibility := [], course_variants := [],
    course_relationships := [], nextId := 1 }

/-- A present store configuration. -/
def cfg0 : Config := { supabaseUrl := "url", serviceRoleKey := "key" }

/-- A minimal persisted course row. -/
def mkCourse (id : Nat) (code : String) : Course :=
  { id := id, external_course_code := code, external_uuid := none, name := "N",
    credits := none, length := none, gpa_weight := none, subject := none,
    is_elective := false, description := none, notes := none, is_offered := true,
    raw_payload := none }

/-- A minimal relationship row as read by the evaluator, with a given
grouping key situation and related code. -/
def mkRelQ (id : String) (code : Option String) : RelQRow :=
  { id := id, course_id := 1, related_course_id := none, related_course_code := code,
    relationship_type := "prerequisite", group_id := none, logic_type := none,
    description := none }

/-- A stale offered variant row used by the C5 witness. -/
def c5var : VariantRow :=
  { course_id := 1, variant_course_code := "V", delivery_mode := none,
    is_virtual := false, is_summer := false, term := none, length := none,
    credits := none, is_offered := true }

/-- A store holding one stale offered course with one offered variant. -/
def c5db0 : DB :=
  { emptyDB with courses := [mkCourse 1 "OLD"], course_variants := [c5var], nextId := 2 }

/-- The store after importing `[mkEntry "NEW"]` into `c5db0`. -/
def c5run : DB :=
  match importCoursesFromJson (some cfg0) noFail c5db0 [mkEntry "NEW"] with
  | .ok (d, _) => d
  | .error _ => emptyDB

/-- The statistics of the same run. -/
def c5stats : Stats :=
  match importCoursesFromJson (some cfg0) noFail c5db0 [mkEntry "NEW"] with
  | .ok (_, s) => s
  | .error _ => initStats 0

/-- A store holding one curated course (non-empty description and notes). -/
def c6db0 : DB :=
  { emptyDB with
    courses := [{ mkCourse 1 "OLD" with
      description := some "curated", notes := some "keep" }],
    nextId := 2 }

/-- The store after importing `[mkEntry "OLD", mkEntry "NEW"]` into `c6db0`. -/
def c6run : DB :=
  match importCoursesFromJson (some cfg0) noFail c6db0 [mkEntry "OLD", mkEntry "NEW"] with
  | .ok (d, _) => d
  | .error _ => emptyDB

/-- The statistics of the same run. -/
def c6stats : Stats :=
  match importCoursesFromJson (some cfg0) noFail c6db0 [mkEntry "OLD", mkEntry "NEW"] with
  | .ok (_, s) => s
  | .error _ => initStats 0

/-! ## Store well-formedness

Invariants guaranteed by the schema (primary keys, `UNIQUE` columns, foreign
keys into `courses`) and preserved by the importer. -/

/-- Schema-level well-formedness of the store. -/
structure DBInv (db : DB) : Prop where
  idsNodup : (db.courses.map (fun c => c.id)).Nodup
  codesNodup : (db.courses.map (fun c => c.external_course_code)).Nodup
  idsBound : ∀ c ∈ db.courses, c.id < db.nextId
  tagsBound : ∀ t ∈ db.course_tags, t.course_id < db.nextId
  eligBound : ∀ e ∈ db.course_eligibility, e.course_id < db.nextId
  variantsBound : ∀ v ∈ db.course_variants, v.course_id < db.nextId
  relsBound : ∀ r ∈ db.course_relationships, r.course_id < db.nextId
  variantCodesNodup : (db.course_variants.map (fun v => v.variant_course_code)).Nodup

/-! ## Decomposing Pass 1 around one entry -/

/-- The Pass-1 step function. -/
def p1step (failWrite : Nat → Bool) : P1State → Nat × SnapshotEntry → P1State :=
  fun st ic => processEntryP1 failWrite ic.1 ic.2 st

/-! ## C5 — deactivation and reactivation -/

/-- The course with id `K` (whose code is `X`) is soft-retired: its row is
not offered, its variant rows are not offered. -/
def QdeactDB (K : Nat) (X : String) (db : DB) : Prop :=
  (∀ c' ∈ db.courses, c'.id = K →
    c'.is_offered = false ∧ c'.external_course_code = X) ∧
  (∀ v ∈ db.course_variants, v.course_id = K → v.is_offered = false) ∧
  K < db.nextId

/-- Every course row carrying code `X` is offered. -/
def QoffDB (X : String) (db : DB) : Prop :=
  ∀ c' ∈ db.courses, c'.external_course_code = X → c'.is_offered = true

/-! ## C6 — curated-field preservation and snapshot overwrite -/

/-- Before the target entry is processed: a row with the target course's id
exists, and every row with that id still carries the original curated fields
and code. -/
def Q6pre (c0 : Course) (db : DB) : Prop :=
  (∃ c' ∈ db.courses, c'.id = c0.id) ∧
  (∀ c' ∈ db.courses, c'.id = c0.id →
    c'.description = c0.description ∧ c'.notes = c0.notes ∧
    c'.external_course_code = c0.external_course_code) ∧
  c0.id < db.nextId

/-- After the target entry is processed: every row with the target course's
id keeps the curated fields and carries the entry's core fields. -/
def Q6post (c0 : Course) (e : SnapshotEntry) (db : DB) : Prop :=
  (∀ c' ∈ db.courses, c'.id = c0.id →
    c'.description = c0.description ∧ c'.notes = c0.notes ∧
    c'.external_course_code = e.course_id ∧ c'.name = e.name ∧
    c'.credits = e.credits ∧ c'.length = e.length ∧ c'.gpa_weight = e.gpa ∧
    c'.subject = e.subject ∧ c'.is_elective = e.elective ∧
    c'.external_uuid = e.uuid ∧ c'.is_offered = true ∧
    c'.raw_payload = some e) ∧
  c0.id < db.nextId

/-- Every row carrying code `X` has empty curated fields. -/
def Qfresh (X : String) (db : DB) : Prop :=
  ∀ c' ∈ db.courses, c'.external_course_code = X →
    c'.description = none ∧ c'.notes = none

/-! ## C3 — alternative satisfaction is a prefix test

The spec says an alternative is satisfied iff its `relatedCourseCode` is
non-null and some completed code starts with it.  The implementation guards
with JS falsiness (`if (!code) return false`), so a non-null **empty** code is
never satisfied although every completed code starts with `""`. -/

/-- The claim's satisfaction predicate, literally: non-null code and some
completed code starts with it. -/
def altSatisfiedClaim (completed : List String) (r : RelQRow) : Prop :=
  ∃ code, r.related_course_code = some code ∧ ∃ cc ∈ completed, strStartsWith cc code = true

/-! ## C2 — the shape of the prerequisite evaluation

Specification-side definitions following the claim's words: rows are grouped
by `groupId`, a row with no group forms its own OR singleton, a group is
satisfied per its AND/OR logic, the result is met iff every group is
satisfied, and one description is reported per unsatisfied group. -/

/-- The rows grouped under key `k`. -/
def classOf (rows : List RelQRow) (k : String) : List RelQRow :=
  rows.filter (fun r => groupKey r = k)

/-- Claim-side satisfaction of one group of rows: a class headed by a row
with no (JS-truthy) `group_id` is an OR singleton; otherwise the group's
logic (`logicType`, defaulting to OR) decides between all/any. -/
def specClassSat (completed : List String) (cls : List RelQRow) : Bool :=
  match cls with
  | [] => true
  | r :: _ =>
    if jsFalsy r.group_id then cls.any (isSatisfied completed)
    else if rowLogic r = "AND" then cls.all (isSatisfied completed)
    else cls.any (isSatisfied completed)

/-- The distinct grouping keys of the rows, in first-occurrence order. -/
def specKeys (rows : List RelQRow) : List String := (rows.map groupKey).dedup

/-- Claim-side overall result: met iff every group is satisfied. -/
def specMet (rows : List RelQRow) (completed : List String) : Bool :=
  (specKeys rows).all (fun k => specClassSat completed (classOf rows k))

/-- Claim-side number of unmet clauses: one per unsatisfied group. -/
def specUnmetCount (rows : List RelQRow) (completed : List String) : Nat :=
  (specKeys rows).countP (fun k => !specClassSat completed (classOf rows k))

/-- The invariant tying the evaluator's incrementally built `groups` record
to the key-indexed classes of the processed rows. -/
def GroupsInv (processed : List RelQRow) (gs : Groups) : Prop :=
  (∀ g ∈ gs, ∃ r ∈ processed, groupKey r = g.1) ∧
  (∀ r ∈ processed, ∃ g ∈ gs, g.1 = groupKey r) ∧
  (∀ g ∈ gs, g.2.2 = classOf processed g.1) ∧
  (∀ g ∈ gs, ∃ h t, g.2.2 = h :: t ∧ g.2.1 = rowLogic h) ∧
  (gs.map (fun g => g.1)).Nodup

/-! ## C7 — resolver precedence and the choice among prefix matches

Exact match does take precedence and an unmatched reference resolves to
`none`, but the prefix fallback is `.like(ref + '%').limit(1)` with **no**
ordering clause: it returns the first row in store order, which is not a
deterministic function of the catalog contents (and not the lexicographically
smallest match). -/

/-- Two single-course catalogs differing only in row order. -/
def c7t1 : List Course := [mkCourse 1 "0075A", mkCourse 2 "0075B"]

/-- The same catalog as `c7t1` with the rows swapped. -/
def c7t2 : List Course := [mkCourse 2 "0075B", mkCourse 1 "0075A"]

/-- References free of the SQL `LIKE` metacharacters. -/
def noLikeWildcards (ref : String) : Bool :=
  ref.toList.all (fun ch => ch ≠ '%' && ch ≠ '_' && ch ≠ '\\')

/-! ## C1 — what Pass 2 stores on a relationship row

Pass 2 does insert one row per alternative even when the code is unresolved,
preserving the free-text description and leaving `related_course_id` null —
but the insert does **not** name the `related_course_code` column at all, so
the raw course-code reference is never stored by the importer (it stays
`NULL`; only the admin repair actions ever populate it). -/

/-- A snapshot entry with one prerequisite alternative whose raw reference is
`"X"` (matching no course) and whose description is `"desc"`. -/
def c1entry : SnapshotEntry :=
  { mkEntry "A" with
    prerequisites :=
      [{ requires_all := true,
         alternatives := [{ course_code := some "X", text := some "desc" }] }] }

/-- The store produced by importing `[c1entry]` into the empty store. -/
def c1resultDB : DB :=
  match importCoursesFromJson (some cfg0) noFail emptyDB [c1entry] with
  | .ok (db, _) => db
  | .error _ => emptyDB

/-! ## C8 — failure semantics

A per-course Pass-1 write error is caught: the error counter is bumped, a
detail record carrying the offending entry's code is appended, and the loop
moves on to the next entry.  Missing store credentials abort the cycle before
any pass runs. -/

/-- The detail record appended for a failed Pass-1 write on entry `e`. -/
def p1ErrorDetail (e : SnapshotEntry) : ErrorDetail :=
  { course_id := e.course_id, error := "write error", errType := none }

/-- A store used by the C8 witness: one persisted course. -/
def c8db0 : DB :=
  { emptyDB with courses := [mkCourse 1 "A"], nextId := 2 }

/-- A failure oracle making the second write fail. -/
def failAt1 : Nat → Bool := fun i => i = 1

/-- The C8 run: entry "A" succeeds, entry "B" hits a write error. -/
def c8run : DB × Stats :=
  match importCoursesFromJson (some cfg0) failAt1 c8db0 [mkEntry "A", mkEntry "B"] with
  | .ok p => p
  | .error _ => (emptyDB, initStats 0)

/-! ## C4 — what the tag sync leaves behind

The tag-insert loop of Pass 1 only runs when the entry carries at least one
tag (`if (Array.isArray(c.tags) && c.tags.length > 0)`); the delete of the
course's previous tag rows happens inside that guard, so an entry with zero
tags leaves stale tag rows untouched. -/

/-- The tag rows the insert loop produces for course `cid` when starting
from a table without rows for `cid`. -/
def tagBlock (cid : Nat) (ents : List TagEntry) : List TagRow :=
  (ents.foldl (tagStep cid) (([] : List TagRow), 0)).1

/-- Exactly the course rows carrying code `X` have id `cid`, and one such
row exists. -/
def Q4course (cid : Nat) (X : String) (db : DB) : Prop :=
  (∀ c' ∈ db.courses, c'.external_course_code = X → c'.id = cid) ∧
  (∃ c' ∈ db.courses, c'.id = cid ∧ c'.external_course_code = X) ∧
  cid < db.nextId

/-- The tag rows of course `cid` are exactly `L`. -/
def Q4tags (cid : Nat) (L : List TagRow) (db : DB) : Prop :=
  db.course_tags.filter (fun r => r.course_id = cid) = L

/-- A store with one course carrying a stale tag row, for C4. -/
def c4db0 : DB :=
  { courses := [mkCourse 1 "X"],
    course_tags := [{ course_id := 1, tag := "OLD", tag_uuid := none }],
    course_eligibility := [], course_variants := [], course_relationships := [],
    nextId := 2 }

/-- Importing an entry for "X" with zero tags over `c4db0`. -/
def c4run : DB × Stats :=
  match importCoursesFromJson (some cfg0) noFail c4db0 [mkEntry "X"] with
  | .ok p => p
  | .error _ => (emptyDB, initStats 0)

/-- A snapshot entry carrying one skip-listed and one ordinary tag. -/
def c4tagsEntry : SnapshotEntry :=
  { mkEntry "T" with
    tags := [{ symbol := "science", uuid := none }, { symbol := "AP", uuid := some "u1" }] }

/-- Importing `c4tagsEntry` over `c4db0`. -/
def c4wrun : DB × Stats :=
  match importCoursesFromJson (some cfg0) noFail c4db0 [c4tagsEntry] with
  | .ok p => p
  | .error _ => (emptyDB, initStats 0)

/-- The eligibility rows the grade-group loop produces for course `cid` when
starting from a table without rows for `cid`. -/
def eligBlock (cid : Nat) (gs : List GradeGroup) : List EligRow :=
  (gs.foldl (eligStep cid) (([] : List EligRow), 0)).1

/-- The per-entry postcondition of one clean Pass-1 iteration, as visible in
any later state of the run: the entry's course row is pinned (unique id,
registered in the run map), the update payload is a fixed point on it, and
the child tables hold exactly the entry's synced rows. -/
def PostE (e : SnapshotEntry) (db : DB) (m : List (String × Nat)) : Prop :=
  ∃ cid, Q4course cid e.course_id db ∧
    mapGet m e.course_id = some cid ∧
    (∀ c' ∈ db.courses, c'.external_course_code = e.course_id →
      applyCourseData e c' = c') ∧
    (e.tags ≠ [] → Q4tags cid (tagBlock cid e.tags) db) ∧
    (∀ gs, e.grades_eligible = some gs →
      db.course_eligibility.filter (fun r => r.course_id = cid) = eligBlock cid gs)

/-- The relationship rows Pass 2 inserts for one entry. -/
def relBlock (m : List (String × Nat)) (cid : Nat) (c : SnapshotEntry) :
    List RelationshipRow :=
  mkRelRows m cid "prerequisite" "prereq_group_" c.prerequisites ++
    mkRelRows m cid "corequisite" "coreq_group_" c.corequisites

/-- One clean reconciliation cycle, as the state after its three passes. -/
def p1run (db : DB) (snap : List SnapshotEntry) : P1State :=
  pass1 noFail snap (pass0 snap db (initStats snap.length)).1
    (pass0 snap db (initStats snap.length)).2

/-- The cycle's resulting store and statistics. -/
def importRun (db : DB) (snap : List SnapshotEntry) : DB × Stats :=
  pass2 (p1run db snap).map snap (p1run db snap).db (p1run db snap).stats

/-- A store holding a not-offered course with the empty course code and an
offered variant row attached to it. -/
def c9db0 : DB :=
  { courses := [{ mkCourse 1 "" with is_offered := false }],
    course_tags := [], course_eligibility := [],
    course_variants := [
      { course_id := 1, variant_course_code := "V1", delivery_mode := none,
        is_virtual := false, is_summer := false, term := none, length := none,
        credits := none, is_offered := true }],
    course_relationships := [], nextId := 2 }

/-- First run of the empty-code snapshot over `c9db0`. -/
def c9S1 : DB × Stats :=
  match importCoursesFromJson (some cfg0) noFail c9db0 [mkEntry ""] with
  | .ok p => p
  | .error _ => (emptyDB, initStats 0)

/-- Second run over the first run's result. -/
def c9S2 : DB × Stats :=
  match importCoursesFromJson (some cfg0) noFail (c9S1).1 [mkEntry ""] with
  | .ok p => p
  | .error _ => (emptyDB, initStats 0)

/-- A snapshot entry carrying a tag, an eligibility group and a variant. -/
def c9wEntry : SnapshotEntry :=
  { mkEntry "W" with
    tags := [{ symbol := "AP", uuid := none }],
    grades_eligible := some [{ grade := "10", academic_term_offered := [] }],
    variants := [
      { variant_course_code := "W1", delivery_mode := none, is_virtual := none,
        is_summer := none, term := none, length := none, credits := none }] }

/-- A store whose course 1 (code "OLD") already owns variant code "W1", so
the witness snapshot's insert of "W1" exercises the `23505` takeover. -/
def c9wdb0 : DB :=
  { courses := [mkCourse 1 "OLD"],
    course_tags := [], course_eligibility := [],
    course_variants := [
      { course_id := 1, variant_course_code := "W1", delivery_mode := none,
        is_virtual := false, is_summer := false, term := none, length := none,
        credits := none, is_offered := true }],
    course_relationships := [], nextId := 2 }

/-- First clean run of the witness snapshot, taking variant "W1" over. -/
def c9w1 : DB × Stats :=
  match importCoursesFromJson (some cfg0) noFail c9wdb0 [c9wEntry] with
  | .ok p => p
  | .error _ => (emptyDB, initStats 0)

/-- Second clean run over the first run's result. -/
def c9w2 : DB × Stats :=
  match importCoursesFromJson (some cfg0) noFail (c9w1).1 [c9wEntry] with
  | .ok p => p
  | .error _ => (emptyDB, initStats 0)

/-- One variant-loop iteration projected onto the table: insert, with the
`23505` takeover keyed by the globally unique variant code. -/
def insRow (cid : Nat) (acc : List VariantRow) (u : VariantEntry) : List VariantRow :=
  (insertVariantRow acc (variantData cid u)).1

/-- The whole variant sync of one Pass-1 entry, projected onto the table:
when the entry lists variants, delete the course's rows and run the insert
loop (each insert either appends or takes an existing code's row over). -/
def varOp (cid : Nat) (vs : List VariantEntry) (V : List VariantRow) : List VariantRow :=
  if vs.length > 0 then
    vs.foldl (insRow cid) (V.filter (fun v => v.course_id ≠ cid))
  else V

/-- The variant table across a whole Pass 1, as the per-entry jobs
(assigned course id, listed variants) folded over the starting table. -/
def varFold (jobs : List (Nat × List VariantEntry)) (V : List VariantRow) :
    List VariantRow :=
  jobs.foldl (fun acc j => varOp j.1 j.2 acc) V

/-- The last variant payload carrying code `c` in one entry's list (the last
insert of a code within one loop wins). -/
def lastPayload (c : String) : List VariantEntry → Option VariantEntry
  | [] => none
  | u :: vs =>
    match lastPayload c vs with
    | some w => some w
    | none => if u.variant_course_code = c then some u else none

/-- How one entry's variant sync transforms the (at most one, by the UNIQUE
constraint) row carrying code `c`: a listing entry rewrites it to its own
payload; a non-listing entry with variants deletes it when it owns it; an
entry without variants leaves it alone. -/
def rowForStep (c : String) (own : Option VariantRow) (j : Nat × List VariantEntry) :
    Option VariantRow :=
  if j.2.length > 0 then
    match lastPayload c j.2 with
    | some u => some (variantData j.1 u)
    | none =>
      match own with
      | some r => if r.course_id = j.1 then none else some r
      | none => none
  else own

/-- The code-`c` row across a whole Pass 1. -/
def varScan (c : String) (jobs : List (Nat × List VariantEntry))
    (x : Option VariantRow) : Option VariantRow :=
  jobs.foldl (rowForStep c) x

/-- The unique row carrying variant code `c`, when present. -/
def look (c : String) (V : List VariantRow) : Option VariantRow :=
  V.find? (fun v => v.variant_course_code = c)

/-- The per-entry variant jobs of a run, read off the run map. -/
def jobsOf (m : List (String × Nat)) (snap : List SnapshotEntry) :
    List (Nat × List VariantEntry) :=
  snap.map (fun e => ((mapGet m e.course_id).getD 0, e.variants))

theorem jsOr_eq_of_not_falsy (o : Option String) (d : String) (h : jsFalsy o = false) :
    jsOr o d = o.getD "" := by
  cases o with
  | none => simp [jsFalsy] at h
  | some s =>
    simp [jsFalsy] at h
    simp [jsOr, h]

/-! ## Basic facts about the Pass-1 building blocks -/

theorem syncTags_courses (cid : Nat) (ents : List TagEntry) (db : DB) (stats : Stats) :
    (syncTags cid ents db stats).1.courses = db.courses := by
  rw [syncTags]; split <;> rfl

theorem syncTags_elig (cid : Nat) (ents : List TagEntry) (db : DB) (stats : Stats) :
    (syncTags cid ents db stats).1.course_eligibility = db.course_eligibility := by
  rw [syncTags]; split <;> rfl

theorem syncTags_variants (cid : Nat) (ents : List TagEntry) (db : DB) (stats : Stats) :
    (syncTags cid ents db stats).1.course_variants = db.course_variants := by
  rw [syncTags]; split <;> rfl

theorem syncTags_rels (cid : Nat) (ents : List TagEntry) (db : DB) (stats : Stats) :
    (syncTags cid ents db stats).1.course_relationships = db.course_relationships := by
  rw [syncTags]; split <;> rfl

theorem syncTags_nextId (cid : Nat) (ents : List TagEntry) (db : DB) (stats : Stats) :
    (syncTags cid ents db stats).1.nextId = db.nextId := by
  rw [syncTags]; split <;> rfl

theorem syncElig_courses (cid : Nat) (gs : Option (List GradeGroup)) (db : DB) (stats : Stats) :
    (syncEligibility cid gs db stats).1.courses = db.courses := by
  cases gs <;> rfl

theorem syncElig_tags (cid : Nat) (gs : Option (List GradeGroup)) (db : DB) (stats : Stats) :
    (syncEligibility cid gs db stats).1.course_tags = db.course_tags := by
  cases gs <;> rfl

theorem syncElig_variants (cid : Nat) (gs : Option (List GradeGroup)) (db : DB) (stats : Stats) :
    (syncEligibility cid gs db stats).1.course_variants = db.course_variants := by
  cases gs <;> rfl

theorem syncElig_rels (cid : Nat) (gs : Option (List GradeGroup)) (db : DB) (stats : Stats) :
    (syncEligibility cid gs db stats).1.course_relationships = db.course_relationships := by
  cases gs <;> rfl

theorem syncElig_nextId (cid : Nat) (gs : Option (List GradeGroup)) (db : DB) (stats : Stats) :
    (syncEligibility cid gs db stats).1.nextId = db.nextId := by
  cases gs <;> rfl

theorem syncVariants_courses (cid : Nat) (ents : List VariantEntry) (db : DB) (stats : Stats) :
    (syncVariants cid ents db stats).1.courses = db.courses := by
  rw [syncVariants]; split <;> rfl

theorem syncVariants_tags (cid : Nat) (ents : List VariantEntry) (db : DB) (stats : Stats) :
    (syncVariants cid ents db stats).1.course_tags = db.course_tags := by
  rw [syncVariants]; split <;> rfl

theorem syncVariants_elig (cid : Nat) (ents : List VariantEntry) (db : DB) (stats : Stats) :
    (syncVariants cid ents db stats).1.course_eligibility = db.course_eligibility := by
  rw [syncVariants]; split <;> rfl

theorem syncVariants_rels (cid : Nat) (ents : List VariantEntry) (db : DB) (stats : Stats) :
    (syncVariants cid ents db stats).1.course_relationships = db.course_relationships := by
  rw [syncVariants]; split <;> rfl

theorem syncVariants_nextId (cid : Nat) (ents : List VariantEntry) (db : DB) (stats : Stats) :
    (syncVariants cid ents db stats).1.nextId = db.nextId := by
  rw [syncVariants]; split <;> rfl

theorem upsertCourse_tags (c : SnapshotEntry) (db : DB) (stats : Stats) :
    (upsertCourse c db stats).1.course_tags = db.course_tags := by
  rw [upsertCourse]
  cases db.courses.find? (fun x => x.external_course_code = c.course_id) <;> rfl

theorem upsertCourse_elig (c : SnapshotEntry) (db : DB) (stats : Stats) :
    (upsertCourse c db stats).1.course_eligibility = db.course_eligibility := by
  rw [upsertCourse]
  cases db.courses.find? (fun x => x.external_course_code = c.course_id) <;> rfl

theorem upsertCourse_variants (c : SnapshotEntry) (db : DB) (stats : Stats) :
    (upsertCourse c db stats).1.course_variants = db.course_variants := by
  rw [upsertCourse]
  cases db.courses.find? (fun x => x.external_course_code = c.course_id) <;> rfl

theorem upsertCourse_rels (c : SnapshotEntry) (db : DB) (stats : Stats) :
    (upsertCourse c db stats).1.course_relationships = db.course_relationships := by
  rw [upsertCourse]
  cases db.courses.find? (fun x => x.external_course_code = c.course_id) <;> rfl

/-- Stats fields `errors`/`errorDetails` are only touched by the Pass-1 catch. -/
theorem syncTags_stats_errors (cid : Nat) (ents : List TagEntry) (db : DB) (stats : Stats) :
    (syncTags cid ents db stats).2.errors = stats.errors ∧
    (syncTags cid ents db stats).2.errorDetails = stats.errorDetails := by
  rw [syncTags]; split <;> exact ⟨rfl, rfl⟩

theorem syncElig_stats_errors (cid : Nat) (gs : Option (List GradeGroup)) (db : DB)
    (stats : Stats) :
    (syncEligibility cid gs db stats).2.errors = stats.errors ∧
    (syncEligibility cid gs db stats).2.errorDetails = stats.errorDetails := by
  cases gs <;> exact ⟨rfl, rfl⟩

theorem syncVariants_stats_errors (cid : Nat) (ents : List VariantEntry) (db : DB)
    (stats : Stats) :
    (syncVariants cid ents db stats).2.errors = stats.errors ∧
    (syncVariants cid ents db stats).2.errorDetails = stats.errorDetails := by
  rw [syncVariants]; split <;> exact ⟨rfl, rfl⟩

theorem upsertCourse_stats_errors (c : SnapshotEntry) (db : DB) (stats : Stats) :
    (upsertCourse c db stats).2.2.errors = stats.errors ∧
    (upsertCourse c db stats).2.2.errorDetails = stats.errorDetails := by
  rw [upsertCourse]
  cases db.courses.find? (fun x => x.external_course_code = c.course_id) <;> exact ⟨rfl, rfl⟩

/-- Generic preservation of a predicate along a left fold. -/
theorem foldl_pres {α β : Type _} (f : β → α → β) (Q : β → Prop) :
    ∀ (l : List α) (b : β), Q b → (∀ b' a, a ∈ l → Q b' → Q (f b' a)) → Q (l.foldl f b) := by
  intro l
  induction l with
  | nil => intro b hb _; exact hb
  | cons a t ih =>
    intro b hb hstep
    exact ih (f b a) (hstep b a (List.mem_cons_self _ _) hb)
      (fun b' a' ha' => hstep b' a' (List.mem_cons_of_mem _ ha'))

/-- Rows present after the tag-insert loop are new rows for this course or
rows already present. -/
theorem tagFold_mem (cid : Nat) (P : TagRow → Prop)
    (hnew : ∀ row : TagRow, row.course_id = cid → P row) :
    ∀ (ents : List TagEntry) (acc : List TagRow × Nat),
      (∀ t ∈ acc.1, P t) → ∀ t ∈ (ents.foldl (tagStep cid) acc).1, P t := by
  intro ents
  induction ents with
  | nil => intro acc hacc; exact hacc
  | cons tg rest ih =>
    intro acc hacc
    rw [List.foldl_cons]
    refine ih _ ?_
    rw [tagStep]
    split
    · exact hacc
    · intro t ht
      show P t
      rw [insertTagRow] at ht
      split at ht
      · exact hacc t ht
      · rcases List.mem_append.mp ht with ht | ht
        · exact hacc t ht
        · have : t = { course_id := cid, tag := tg.symbol, tag_uuid := tg.uuid } := by
            simpa using ht
          subst this
          exact hnew _ rfl

theorem syncTags_mem (cid : Nat) (ents : List TagEntry) (db : DB) (stats : Stats) :
    ∀ t ∈ (syncTags cid ents db stats).1.course_tags,
      t.course_id = cid ∨ t ∈ db.course_tags := by
  rw [syncTags]
  split
  · intro t ht
    refine tagFold_mem cid _ (fun row h => Or.inl h) ents _ ?_ t ht
    intro t' ht'
    exact Or.inr (List.mem_of_mem_filter ht')
  · intro t ht
    exact Or.inr ht

/-- Rows present after one eligibility insert attempt. -/
theorem eligInsertOne_mem (P : EligRow → Prop) (acc : List EligRow × Nat) (row : EligRow)
    (hacc : ∀ t ∈ acc.1, P t) (hrow : P row) :
    ∀ t ∈ (eligInsertOne acc row).1, P t := by
  intro t ht
  rw [eligInsertOne, insertEligRow] at ht
  split at ht
  · rcases List.mem_append.mp ht with ht | ht
    · exact hacc t ht
    · have : t = row := by simpa using ht
      subst this; exact hrow
  · split at ht
    · exact hacc t ht
    · rcases List.mem_append.mp ht with ht | ht
      · exact hacc t ht
      · have : t = row := by simpa using ht
        subst this; exact hrow

theorem eligFold_mem (cid : Nat) (P : EligRow → Prop)
    (hnew : ∀ row : EligRow, row.course_id = cid → P row) :
    ∀ (gs : List GradeGroup) (acc : List EligRow × Nat),
      (∀ t ∈ acc.1, P t) → ∀ t ∈ (gs.foldl (eligStep cid) acc).1, P t := by
  intro gs
  induction gs with
  | nil => intro acc hacc; exact hacc
  | cons g rest ih =>
    intro acc hacc
    rw [List.foldl_cons]
    refine ih _ ?_
    rw [eligStep]
    split
    · refine foldl_pres _ (fun acc' => ∀ t ∈ (acc' : List EligRow × Nat).1, P t) _ _ hacc ?_
      intro acc' term _ hacc'
      exact eligInsertOne_mem P acc' _ hacc' (hnew _ rfl)
    · exact eligInsertOne_mem P acc _ hacc (hnew _ rfl)

theorem syncElig_mem (cid : Nat) (gs : Option (List GradeGroup)) (db : DB) (stats : Stats) :
    ∀ t ∈ (syncEligibility cid gs db stats).1.course_eligibility,
      t.course_id = cid ∨ t ∈ db.course_eligibility := by
  cases gs with
  | none => intro t ht; exact Or.inr ht
  | some gradeGroups =>
    intro t ht
    rw [syncEligibility] at ht
    refine eligFold_mem cid _ (fun row h => Or.inl h) gradeGroups _ ?_ t ht
    intro t' ht'
    exact Or.inr (List.mem_of_mem_filter ht')

theorem variantFold_mem (cid : Nat) (P : VariantRow → Prop)
    (hnew : ∀ row : VariantRow, row.course_id = cid → P row) :
    ∀ (ents : List VariantEntry) (acc : List VariantRow × Nat × Nat),
      (∀ t ∈ acc.1, P t) → ∀ t ∈ (ents.foldl (variantStep cid) acc).1, P t := by
  intro ents
  induction ents with
  | nil => intro acc hacc; exact hacc
  | cons v rest ih =>
    intro acc hacc
    rw [List.foldl_cons]
    refine ih _ ?_
    rw [variantStep, insertVariantRow]
    split
    · intro t ht
      obtain ⟨t0, ht0, hteq⟩ := List.mem_map.mp ht
      by_cases hc : t0.variant_course_code = (variantData cid v).variant_course_code
      · rw [if_pos hc] at hteq
        subst hteq
        exact hnew _ rfl
      · rw [if_neg hc] at hteq
        subst hteq
        exact hacc t0 ht0
    · intro t ht
      rcases List.mem_append.mp ht with ht | ht
      · exact hacc t ht
      · have : t = variantData cid v := by simpa using ht
        subst this
        exact hnew _ rfl

theorem syncVariants_mem (cid : Nat) (ents : List VariantEntry) (db : DB) (stats : Stats) :
    ∀ t ∈ (syncVariants cid ents db stats).1.course_variants,
      t.course_id = cid ∨ t ∈ db.course_variants := by
  rw [syncVariants]
  split
  · intro t ht
    refine variantFold_mem cid _ (fun row h => Or.inl h) ents _ ?_ t ht
    intro t' ht'
    exact Or.inr (List.mem_of_mem_filter ht')
  · intro t ht
    exact Or.inr ht

theorem applyCourseData_id (c : SnapshotEntry) (x : Course) :
    (applyCourseData c x).id = x.id := rfl

theorem find?_code_eq (db : DB) (code : String) (c0 : Course)
    (h : db.courses.find? (fun x => x.external_course_code = code) = some c0) :
    c0 ∈ db.courses ∧ c0.external_course_code = code := by
  refine ⟨List.mem_of_find?_eq_some h, ?_⟩
  have := List.find?_some h
  simpa using this

theorem upsertCourse_inv (c : SnapshotEntry) (db : DB) (stats : Stats)
    (h : DBInv db) :
    DBInv (upsertCourse c db stats).1 ∧
    (upsertCourse c db stats).2.1 < (upsertCourse c db stats).1.nextId ∧
    db.nextId ≤ (upsertCourse c db stats).1.nextId := by
  rw [upsertCourse]
  cases hf : db.courses.find? (fun x => x.external_course_code = c.course_id) with
  | some c0 =>
    obtain ⟨hc0mem, hc0code⟩ := find?_code_eq db c.course_id c0 hf
    have hidmap : (db.courses.map (fun x =>
        if x.id = c0.id then applyCourseData c x else x)).map (fun x => x.id) =
        db.courses.map (fun x => x.id) := by
      rw [List.map_map]
      refine List.map_congr_left ?_
      intro x _
      by_cases hx : x.id = c0.id <;> simp [hx, applyCourseData_id]
    have hcodemap : (db.courses.map (fun x =>
        if x.id = c0.id then applyCourseData c x else x)).map
          (fun x => x.external_course_code) =
        db.courses.map (fun x => x.external_course_code) := by
      rw [List.map_map]
      refine List.map_congr_left ?_
      intro x hx
      by_cases hxi : x.id = c0.id
      · have hxc0 : x = c0 := List.inj_on_of_nodup_map h.idsNodup hx hc0mem hxi
        subst hxc0
        simp [hxi, applyCourseData, hc0code]
      · simp [hxi]
    refine ⟨⟨?_, ?_, ?_, h.tagsBound, h.eligBound, h.variantsBound, h.relsBound,
      h.variantCodesNodup⟩, ?_, le_refl _⟩
    · rw [hidmap]; exact h.idsNodup
    · rw [hcodemap]; exact h.codesNodup
    · intro x hx
      obtain ⟨y, hy, hyx⟩ := List.mem_map.mp hx
      by_cases hyi : y.id = c0.id
      · rw [if_pos hyi] at hyx
        rw [← hyx, applyCourseData_id]
        exact h.idsBound y hy
      · rw [if_neg hyi] at hyx
        rw [← hyx]
        exact h.idsBound y hy
    · exact h.idsBound c0 hc0mem
  | none =>
    have hnocode : ∀ x ∈ db.courses, x.external_course_code ≠ c.course_id := by
      intro x hx
      have := List.find?_eq_none.mp hf x hx
      simpa using this
    refine ⟨⟨?_, ?_, ?_, ?_, ?_, ?_, ?_, h.variantCodesNodup⟩, ?_, ?_⟩
    · rw [List.map_append, List.nodup_append]
      refine ⟨h.idsNodup, by simp, ?_⟩
      intro k hk hk'
      have hkid : k = db.nextId := by simpa [freshCourse] using hk'
      subst hkid
      obtain ⟨y, hy, hyk⟩ := List.mem_map.mp hk
      exact absurd hyk (Nat.ne_of_lt (h.idsBound y hy))
    · rw [List.map_append, List.nodup_append]
      refine ⟨h.codesNodup, by simp, ?_⟩
      intro k hk hk'
      have hkc : k = c.course_id := by simpa [freshCourse] using hk'
      subst hkc
      obtain ⟨y, hy, hyk⟩ := List.mem_map.mp hk
      exact absurd hyk (hnocode y hy)
    · intro x hx
      rcases List.mem_append.mp hx with hx | hx
      · exact Nat.lt_succ_of_lt (h.idsBound x hx)
      · have : x = freshCourse c db.nextId := by simpa using hx
        subst this
        exact Nat.lt_succ_self _
    · exact fun t ht => Nat.lt_succ_of_lt (h.tagsBound t ht)
    · exact fun t ht => Nat.lt_succ_of_lt (h.eligBound t ht)
    · exact fun t ht => Nat.lt_succ_of_lt (h.variantsBound t ht)
    · exact fun t ht => Nat.lt_succ_of_lt (h.relsBound t ht)
    · exact Nat.lt_succ_self _
    · exact Nat.le_succ _

theorem syncTags_dbinv (cid : Nat) (ents : List TagEntry) (db : DB) (stats : Stats)
    (h : DBInv db) (hcid : cid < db.nextId) : DBInv (syncTags cid ents db stats).1 := by
  refine ⟨?_, ?_, ?_, ?_, ?_, ?_, ?_, ?_⟩
  · rw [syncTags_courses]; exact h.idsNodup
  · rw [syncTags_courses]; exact h.codesNodup
  · rw [syncTags_courses, syncTags_nextId]; exact h.idsBound
  · rw [syncTags_nextId]
    intro t ht
    rcases syncTags_mem cid ents db stats t ht with h1 | h1
    · rw [h1]; exact hcid
    · exact h.tagsBound t h1
  · rw [syncTags_elig, syncTags_nextId]; exact h.eligBound
  · rw [syncTags_variants, syncTags_nextId]; exact h.variantsBound
  · rw [syncTags_rels, syncTags_nextId]; exact h.relsBound
  · rw [syncTags_variants]; exact h.variantCodesNodup

theorem syncElig_dbinv (cid : Nat) (gs : Option (List GradeGroup)) (db : DB) (stats : Stats)
    (h : DBInv db) (hcid : cid < db.nextId) : DBInv (syncEligibility cid gs db stats).1 := by
  refine ⟨?_, ?_, ?_, ?_, ?_, ?_, ?_, ?_⟩
  · rw [syncElig_courses]; exact h.idsNodup
  · rw [syncElig_courses]; exact h.codesNodup
  · rw [syncElig_courses, syncElig_nextId]; exact h.idsBound
  · rw [syncElig_tags, syncElig_nextId]; exact h.tagsBound
  · rw [syncElig_nextId]
    intro t ht
    rcases syncElig_mem cid gs db stats t ht with h1 | h1
    · rw [h1]; exact hcid
    · exact h.eligBound t h1
  · rw [syncElig_variants, syncElig_nextId]; exact h.variantsBound
  · rw [syncElig_rels, syncElig_nextId]; exact h.relsBound
  · rw [syncElig_variants]; exact h.variantCodesNodup

theorem variantFold_codes (cid : Nat) :
    ∀ (ents : List VariantEntry) (acc : List VariantRow × Nat × Nat),
      ((acc.1.map (fun v => v.variant_course_code)).Nodup) →
      (((ents.foldl (variantStep cid) acc).1.map (fun v => v.variant_course_code)).Nodup) := by
  intro ents
  induction ents with
  | nil => intro acc h; exact h
  | cons v rest ih =>
    intro acc h
    rw [List.foldl_cons]
    refine ih _ ?_
    rw [variantStep, insertVariantRow]
    split
    · have heq : ((acc.1.map (fun x =>
          if x.variant_course_code = (variantData cid v).variant_course_code
          then variantData cid v else x)).map (fun x => x.variant_course_code)) =
          acc.1.map (fun x => x.variant_course_code) := by
        rw [List.map_map]
        refine List.map_congr_left ?_
        intro x _
        by_cases hx : x.variant_course_code = (variantData cid v).variant_course_code <;>
          simp [hx]
      have hh := h
      rw [← heq] at hh
      exact hh
    · next hnot =>
      show (((acc.1 ++ [variantData cid v]).map (fun v => v.variant_course_code)).Nodup)
      rw [List.map_append, List.nodup_append]
      refine ⟨h, by simp, ?_⟩
      intro k hk hk'
      have hkc : k = (variantData cid v).variant_course_code := by simpa using hk'
      subst hkc
      obtain ⟨y, hy, hyk⟩ := List.mem_map.mp hk
      exact hnot (List.any_eq_true.mpr ⟨y, hy, by simp [hyk]⟩)

theorem syncVariants_dbinv (cid : Nat) (ents : List VariantEntry) (db : DB) (stats : Stats)
    (h : DBInv db) (hcid : cid < db.nextId) : DBInv (syncVariants cid ents db stats).1 := by
  refine ⟨?_, ?_, ?_, ?_, ?_, ?_, ?_, ?_⟩
  · rw [syncVariants_courses]; exact h.idsNodup
  · rw [syncVariants_courses]; exact h.codesNodup
  · rw [syncVariants_courses, syncVariants_nextId]; exact h.idsBound
  · rw [syncVariants_tags, syncVariants_nextId]; exact h.tagsBound
  · rw [syncVariants_elig, syncVariants_nextId]; exact h.eligBound
  · rw [syncVariants_nextId]
    intro t ht
    rcases syncVariants_mem cid ents db stats t ht with h1 | h1
    · rw [h1]; exact hcid
    · exact h.variantsBound t h1
  · rw [syncVariants_rels, syncVariants_nextId]; exact h.relsBound
  · rw [syncVariants]
    split
    · refine variantFold_codes cid ents _ ?_
      exact ((List.filter_sublist _).map _).nodup h.variantCodesNodup
    · exact h.variantCodesNodup

theorem childSync_nextId (cid : Nat) (c : SnapshotEntry) (db : DB) (stats : Stats) :
    (childSync cid c db stats).1.nextId = db.nextId := by
  rw [childSync]
  rw [syncVariants_nextId, syncElig_nextId, syncTags_nextId]

theorem childSync_courses (cid : Nat) (c : SnapshotEntry) (db : DB) (stats : Stats) :
    (childSync cid c db stats).1.courses = db.courses := by
  rw [childSync]
  rw [syncVariants_courses, syncElig_courses, syncTags_courses]

theorem childSync_rels (cid : Nat) (c : SnapshotEntry) (db : DB) (stats : Stats) :
    (childSync cid c db stats).1.course_relationships = db.course_relationships := by
  rw [childSync]
  rw [syncVariants_rels, syncElig_rels, syncTags_rels]

theorem childSync_stats_errors (cid : Nat) (c : SnapshotEntry) (db : DB) (stats : Stats) :
    (childSync cid c db stats).2.errors = stats.errors ∧
    (childSync cid c db stats).2.errorDetails = stats.errorDetails := by
  rw [childSync]
  rw [(syncVariants_stats_errors ..).1, (syncElig_stats_errors ..).1,
    (syncTags_stats_errors ..).1, (syncVariants_stats_errors ..).2,
    (syncElig_stats_errors ..).2, (syncTags_stats_errors ..).2]
  exact ⟨rfl, rfl⟩

theorem childSync_dbinv (cid : Nat) (c : SnapshotEntry) (db : DB) (stats : Stats)
    (h : DBInv db) (hcid : cid < db.nextId) : DBInv (childSync cid c db stats).1 := by
  rw [childSync]
  refine syncVariants_dbinv _ _ _ _ (syncElig_dbinv _ _ _ _ (syncTags_dbinv _ _ _ _ h hcid) ?_) ?_
  · rw [syncTags_nextId]; exact hcid
  · rw [syncElig_nextId, syncTags_nextId]; exact hcid

theorem processEntryP1_fail_eq (failWrite : Nat → Bool) (i : Nat) (c : SnapshotEntry)
    (st : P1State) (h : failWrite i = true) :
    processEntryP1 failWrite i c st =
      { st with stats :=
        { st.stats with
          errors := st.stats.errors + 1,
          errorDetails := st.stats.errorDetails ++
            [{ course_id := c.course_id, error := "write error", errType := none }] } } := by
  rw [processEntryP1, if_pos h]

theorem processEntryP1_noFail_eq (failWrite : Nat → Bool) (i : Nat) (c : SnapshotEntry)
    (st : P1State) (h : failWrite i = false) :
    processEntryP1 failWrite i c st =
      { db := (childSync (upsertCourse c st.db st.stats).2.1 c
          (upsertCourse c st.db st.stats).1 (upsertCourse c st.db st.stats).2.2).1,
        map := mapSet st.map c.course_id (upsertCourse c st.db st.stats).2.1,
        stats := (childSync (upsertCourse c st.db st.stats).2.1 c
          (upsertCourse c st.db st.stats).1 (upsertCourse c st.db st.stats).2.2).2 } := by
  rw [processEntryP1, if_neg (by rw [h]; exact Bool.false_ne_true)]

theorem processEntryP1_dbinv (failWrite : Nat → Bool) (i : Nat) (c : SnapshotEntry)
    (st : P1State) (h : DBInv st.db) :
    DBInv (processEntryP1 failWrite i c st).db ∧
    st.db.nextId ≤ (processEntryP1 failWrite i c st).db.nextId := by
  cases hfw : failWrite i with
  | true =>
    rw [processEntryP1_fail_eq failWrite i c st hfw]
    exact ⟨h, le_refl _⟩
  | false =>
    rw [processEntryP1_noFail_eq failWrite i c st hfw]
    obtain ⟨hinv, hcid, hmono⟩ := upsertCourse_inv c st.db st.stats h
    refine ⟨childSync_dbinv _ _ _ _ hinv hcid, ?_⟩
    show st.db.nextId ≤ (childSync _ c _ _).1.nextId
    rw [childSync_nextId]
    exact hmono

/-! ## Pass-0 and Pass-2 framing -/

theorem pass0_nextId (data : List SnapshotEntry) (db : DB) (stats : Stats) :
    (pass0 data db stats).1.nextId = db.nextId := by
  rw [pass0]; split <;> rfl

theorem pass0_tags (data : List SnapshotEntry) (db : DB) (stats : Stats) :
    (pass0 data db stats).1.course_tags = db.course_tags := by
  rw [pass0]; split <;> rfl

theorem pass0_elig (data : List SnapshotEntry) (db : DB) (stats : Stats) :
    (pass0 data db stats).1.course_eligibility = db.course_eligibility := by
  rw [pass0]; split <;> rfl

theorem pass0_rels (data : List SnapshotEntry) (db : DB) (stats : Stats) :
    (pass0 data db stats).1.course_relationships = db.course_relationships := by
  rw [pass0]; split <;> rfl

theorem pass0_stats_errors (data : List SnapshotEntry) (db : DB) (stats : Stats) :
    (pass0 data db stats).2.errors = stats.errors ∧
    (pass0 data db stats).2.errorDetails = stats.errorDetails := by
  rw [pass0]; split <;> exact ⟨rfl, rfl⟩

/-- Pass 0 only flips `is_offered` flags: course ids and codes are kept,
variant rows keep everything except possibly `is_offered`. -/
theorem pass0_courses_shape (data : List SnapshotEntry) (db : DB) (stats : Stats) :
    ∀ x ∈ (pass0 data db stats).1.courses,
      ∃ y ∈ db.courses, x = y ∨ x = { y with is_offered := false } := by
  rw [pass0]
  split
  · intro x hx
    obtain ⟨y, hy, hyx⟩ := List.mem_map.mp hx
    refine ⟨y, hy, ?_⟩
    by_cases hm : (db.courses.filter (fun c =>
        c.is_offered && !(importedCourseCodes data).contains c.external_course_code)).map
          (fun c => c.id) |>.contains y.id
    · rw [if_pos hm] at hyx
      exact Or.inr hyx.symm
    · rw [if_neg hm] at hyx
      exact Or.inl hyx.symm
  · intro x hx
    exact ⟨x, hx, Or.inl rfl⟩

theorem pass0_variants_shape (data : List SnapshotEntry) (db : DB) (stats : Stats) :
    ∀ x ∈ (pass0 data db stats).1.course_variants,
      ∃ y ∈ db.course_variants, x = y ∨ x = { y with is_offered := false } := by
  rw [pass0]
  split
  · intro x hx
    obtain ⟨y, hy, hyx⟩ := List.mem_map.mp hx
    refine ⟨y, hy, ?_⟩
    by_cases hm : (db.courses.filter (fun c =>
        c.is_offered && !(importedCourseCodes data).contains c.external_course_code)).map
          (fun c => c.id) |>.contains y.course_id
    · rw [if_pos hm] at hyx
      exact Or.inr hyx.symm
    · rw [if_neg hm] at hyx
      exact Or.inl hyx.symm
  · intro x hx
    exact ⟨x, hx, Or.inl rfl⟩

theorem pass0_dbinv (data : List SnapshotEntry) (db : DB) (stats : Stats)
    (h : DBInv db) : DBInv (pass0 data db stats).1 := by
  have hcourses : ((pass0 data db stats).1.courses.map (fun c => c.id) =
      db.courses.map (fun c => c.id)) ∧
      ((pass0 data db stats).1.courses.map (fun c => c.external_course_code) =
      db.courses.map (fun c => c.external_course_code)) := by
    rw [pass0]
    split
    · constructor <;>
      · rw [List.map_map]
        refine List.map_congr_left ?_
        intro x _
        simp only [Function.comp]
        by_cases hm : (db.courses.filter (fun c =>
            c.is_offered && !(importedCourseCodes data).contains c.external_course_code)).map
              (fun c => c.id) |>.contains x.id
        · rw [if_pos hm]
        · rw [if_neg hm]
    · exact ⟨rfl, rfl⟩
  have hvcodes : (pass0 data db stats).1.course_variants.map
      (fun v => v.variant_course_code) = db.course_variants.map
      (fun v => v.variant_course_code) := by
    rw [pass0]
    split
    · rw [List.map_map]
      refine List.map_congr_left ?_
      intro x _
      simp only [Function.comp]
      by_cases hm : (db.courses.filter (fun c =>
          c.is_offered && !(importedCourseCodes data).contains c.external_course_code)).map
            (fun c => c.id) |>.contains x.course_id
      · rw [if_pos hm]
      · rw [if_neg hm]
    · rfl
  refine ⟨?_, ?_, ?_, ?_, ?_, ?_, ?_, ?_⟩
  · rw [hcourses.1]; exact h.idsNodup
  · rw [hcourses.2]; exact h.codesNodup
  · rw [pass0_nextId]
    intro x hx
    obtain ⟨y, hy, hyx⟩ := pass0_courses_shape data db stats x hx
    rcases hyx with h1 | h1
    · rw [h1]; exact h.idsBound y hy
    · rw [h1]; exact h.idsBound y hy
  · rw [pass0_nextId, pass0_tags]; exact h.tagsBound
  · rw [pass0_nextId, pass0_elig]; exact h.eligBound
  · rw [pass0_nextId]
    intro x hx
    obtain ⟨y, hy, hyx⟩ := pass0_variants_shape data db stats x hx
    rcases hyx with h1 | h1
    · rw [h1]; exact h.variantsBound y hy
    · rw [h1]; exact h.variantsBound y hy
  · rw [pass0_nextId, pass0_rels]; exact h.relsBound
  · rw [hvcodes]; exact h.variantCodesNodup

theorem processEntryP2_courses (map : List (String × Nat)) (c : SnapshotEntry)
    (acc : DB × Stats) : (processEntryP2 map c acc).1.courses = acc.1.courses := by
  rw [processEntryP2]; cases mapGet map c.course_id <;> rfl

theorem processEntryP2_tags (map : List (String × Nat)) (c : SnapshotEntry)
    (acc : DB × Stats) : (processEntryP2 map c acc).1.course_tags = acc.1.course_tags := by
  rw [processEntryP2]; cases mapGet map c.course_id <;> rfl

theorem processEntryP2_elig (map : List (String × Nat)) (c : SnapshotEntry)
    (acc : DB × Stats) :
    (processEntryP2 map c acc).1.course_eligibility = acc.1.course_eligibility := by
  rw [processEntryP2]; cases mapGet map c.course_id <;> rfl

theorem processEntryP2_variants (map : List (String × Nat)) (c : SnapshotEntry)
    (acc : DB × Stats) :
    (processEntryP2 map c acc).1.course_variants = acc.1.course_variants := by
  rw [processEntryP2]; cases mapGet map c.course_id <;> rfl

theorem processEntryP2_nextId (map : List (String × Nat)) (c : SnapshotEntry)
    (acc : DB × Stats) : (processEntryP2 map c acc).1.nextId = acc.1.nextId := by
  rw [processEntryP2]; cases mapGet map c.course_id <;> rfl

theorem processEntryP2_stats_errors (map : List (String × Nat)) (c : SnapshotEntry)
    (acc : DB × Stats) :
    (processEntryP2 map c acc).2.errors = acc.2.errors ∧
    (processEntryP2 map c acc).2.errorDetails = acc.2.errorDetails := by
  rw [processEntryP2]; cases mapGet map c.course_id <;> exact ⟨rfl, rfl⟩

theorem pass2_courses (map : List (String × Nat)) (data : List SnapshotEntry)
    (db : DB) (stats : Stats) : (pass2 map data db stats).1.courses = db.courses := by
  rw [pass2]
  refine foldl_pres _ (fun acc => acc.1.courses = db.courses) data (db, stats) rfl ?_
  intro acc c _ hacc
  rw [processEntryP2_courses, hacc]

theorem pass2_tags (map : List (String × Nat)) (data : List SnapshotEntry)
    (db : DB) (stats : Stats) : (pass2 map data db stats).1.course_tags = db.course_tags := by
  rw [pass2]
  refine foldl_pres _ (fun acc => acc.1.course_tags = db.course_tags) data (db, stats) rfl ?_
  intro acc c _ hacc
  rw [processEntryP2_tags, hacc]

theorem pass2_elig (map : List (String × Nat)) (data : List SnapshotEntry)
    (db : DB) (stats : Stats) :
    (pass2 map data db stats).1.course_eligibility = db.course_eligibility := by
  rw [pass2]
  refine foldl_pres _ (fun acc => acc.1.course_eligibility = db.course_eligibility)
    data (db, stats) rfl ?_
  intro acc c _ hacc
  rw [processEntryP2_elig, hacc]

theorem pass2_variants (map : List (String × Nat)) (data : List SnapshotEntry)
    (db : DB) (stats : Stats) :
    (pass2 map data db stats).1.course_variants = db.course_variants := by
  rw [pass2]
  refine foldl_pres _ (fun acc => acc.1.course_variants = db.course_variants)
    data (db, stats) rfl ?_
  intro acc c _ hacc
  rw [processEntryP2_variants, hacc]

theorem pass2_nextId (map : List (String × Nat)) (data : List SnapshotEntry)
    (db : DB) (stats : Stats) : (pass2 map data db stats).1.nextId = db.nextId := by
  rw [pass2]
  refine foldl_pres _ (fun acc => acc.1.nextId = db.nextId) data (db, stats) rfl ?_
  intro acc c _ hacc
  rw [processEntryP2_nextId, hacc]

theorem pass2_stats_errors (map : List (String × Nat)) (data : List SnapshotEntry)
    (db : DB) (stats : Stats) :
    (pass2 map data db stats).2.errors = stats.errors ∧
    (pass2 map data db stats).2.errorDetails = stats.errorDetails := by
  rw [pass2]
  refine foldl_pres _
    (fun acc => acc.2.errors = stats.errors ∧ acc.2.errorDetails = stats.errorDetails)
    data (db, stats) ⟨rfl, rfl⟩ ?_
  intro acc c _ hacc
  rw [(processEntryP2_stats_errors ..).1, (processEntryP2_stats_errors ..).2]
  exact hacc

theorem pass1_eq_foldl (failWrite : Nat → Bool) (data : List SnapshotEntry)
    (db : DB) (stats : Stats) :
    pass1 failWrite data db stats =
      (data.enum).foldl (p1step failWrite) { db := db, map := [], stats := stats } := rfl

theorem pass1_decompose (failWrite : Nat → Bool) (data : List SnapshotEntry)
    (db : DB) (stats : Stats) {i : Nat} {e : SnapshotEntry}
    (h : (i, e) ∈ data.enum) :
    ∃ pre suf, data.enum = pre ++ (i, e) :: suf ∧
      pass1 failWrite data db stats =
        suf.foldl (p1step failWrite)
          (processEntryP1 failWrite i e
            (pre.foldl (p1step failWrite) { db := db, map := [], stats := stats })) := by
  obtain ⟨pre, suf, hsplit⟩ := List.append_of_mem h
  refine ⟨pre, suf, hsplit, ?_⟩
  rw [pass1_eq_foldl, hsplit, List.foldl_append, List.foldl_cons]
  rfl

/-- Entries after a given entry in the enumeration carry different codes when
the snapshot's codes are distinct. -/
theorem suffix_codes_ne (data : List SnapshotEntry)
    (hsnap : (data.map (fun e => e.course_id)).Nodup)
    {i : Nat} {e : SnapshotEntry} {pre suf : List (Nat × SnapshotEntry)}
    (hsplit : data.enum = pre ++ (i, e) :: suf) :
    ∀ p ∈ suf, p.2.course_id ≠ e.course_id := by
  have hd : data = pre.map Prod.snd ++ (e :: suf.map Prod.snd) := by
    rw [show data = data.enum.map Prod.snd from (List.enumFrom_map_snd 0 data).symm, hsplit]
    simp
  rw [hd] at hsnap
  simp only [List.map_append, List.map_cons, List.map_map] at hsnap
  rw [List.nodup_append] at hsnap
  obtain ⟨-, hcons, -⟩ := hsnap
  rw [List.nodup_cons] at hcons
  intro p hp hpe
  refine hcons.1 ?_
  rw [← hpe]
  exact List.mem_map_of_mem _ hp

theorem upsertCourse_nextId_le (c : SnapshotEntry) (db : DB) (stats : Stats) :
    db.nextId ≤ (upsertCourse c db stats).1.nextId := by
  rw [upsertCourse]
  cases db.courses.find? (fun x => x.external_course_code = c.course_id)
  · exact Nat.le_succ _
  · exact le_refl _

theorem childSync_variants_mem (cid : Nat) (c : SnapshotEntry) (db : DB) (stats : Stats) :
    ∀ v ∈ (childSync cid c db stats).1.course_variants,
      v.course_id = cid ∨ v ∈ db.course_variants := by
  rw [childSync]
  intro v hv
  rcases syncVariants_mem cid c.variants _ _ v hv with h1 | h1
  · exact Or.inl h1
  · rw [syncElig_variants, syncTags_variants] at h1
    exact Or.inr h1

theorem childSync_tags_mem (cid : Nat) (c : SnapshotEntry) (db : DB) (stats : Stats) :
    ∀ t ∈ (childSync cid c db stats).1.course_tags,
      t.course_id = cid ∨ t ∈ db.course_tags := by
  rw [childSync]
  intro t ht
  rw [syncVariants_tags, syncElig_tags] at ht
  exact syncTags_mem cid c.tags db stats t ht

theorem processEntryP1_pres_deact (failWrite : Nat → Bool) (i : Nat) (e : SnapshotEntry)
    (st : P1State) (K : Nat) (X : String)
    (hcode : e.course_id ≠ X) (h : QdeactDB K X st.db) :
    QdeactDB K X (processEntryP1 failWrite i e st).db := by
  cases hfw : failWrite i with
  | true => rw [processEntryP1_fail_eq failWrite i e st hfw]; exact h
  | false =>
    rw [processEntryP1_noFail_eq failWrite i e st hfw]
    obtain ⟨h1, h2, h3⟩ := h
    have hcid : (upsertCourse e st.db st.stats).2.1 ≠ K := by
      rw [upsertCourse]
      cases hf : st.db.courses.find? (fun x => x.external_course_code = e.course_id) with
      | some c0 =>
        obtain ⟨hc0mem, hc0code⟩ := find?_code_eq st.db e.course_id c0 hf
        intro hK
        exact hcode (hc0code ▸ (h1 c0 hc0mem hK).2)
      | none =>
        exact Nat.ne_of_gt h3
    have hu1 : ∀ c' ∈ (upsertCourse e st.db st.stats).1.courses, c'.id = K →
        c'.is_offered = false ∧ c'.external_course_code = X := by
      rw [upsertCourse]
      cases hf : st.db.courses.find? (fun x => x.external_course_code = e.course_id) with
      | some c0 =>
        obtain ⟨hc0mem, hc0code⟩ := find?_code_eq st.db e.course_id c0 hf
        intro c' hc' hK
        obtain ⟨y, hy, hyc'⟩ := List.mem_map.mp hc'
        by_cases hyi : y.id = c0.id
        · rw [if_pos hyi] at hyc'
          exfalso
          have : c0.id = K := by
            rw [← hyi, ← applyCourseData_id e y, hyc', hK]
          have := (h1 c0 hc0mem this).2
          exact hcode (hc0code ▸ this)
        · rw [if_neg hyi] at hyc'
          rw [← hyc'] at hK ⊢
          exact h1 y hy hK
      | none =>
        intro c' hc' hK
        rcases List.mem_append.mp hc' with hc' | hc'
        · exact h1 c' hc' hK
        · exfalso
          have : c' = freshCourse e st.db.nextId := by simpa using hc'
          rw [this] at hK
          exact Nat.ne_of_gt h3 hK
    have huvar : (upsertCourse e st.db st.stats).1.course_variants =
        st.db.course_variants := upsertCourse_variants ..
    refine ⟨?_, ?_, ?_⟩
    · intro c' hc' hK
      rw [childSync_courses] at hc'
      exact hu1 c' hc' hK
    · intro v hv hK
      rcases childSync_variants_mem _ e _ _ v hv with hcol | hold
      · exact absurd (hcol ▸ hK.symm).symm hcid
      · rw [huvar] at hold
        exact h2 v hold hK
    · show K < (childSync _ e _ _).1.nextId
      rw [childSync_nextId]
      exact Nat.lt_of_lt_of_le h3 (upsertCourse_nextId_le ..)

theorem processEntryP1_pres_off (failWrite : Nat → Bool) (i : Nat) (e : SnapshotEntry)
    (st : P1State) (X : String) (h : QoffDB X st.db) :
    QoffDB X (processEntryP1 failWrite i e st).db := by
  cases hfw : failWrite i with
  | true => rw [processEntryP1_fail_eq failWrite i e st hfw]; exact h
  | false =>
    rw [processEntryP1_noFail_eq failWrite i e st hfw]
    intro c' hc' hX
    rw [childSync_courses] at hc'
    rw [upsertCourse] at hc'
    revert hc'
    cases hf : st.db.courses.find? (fun x => x.external_course_code = e.course_id) with
    | some c0 =>
      intro hc'
      obtain ⟨y, hy, hyc'⟩ := List.mem_map.mp hc'
      by_cases hyi : y.id = c0.id
      · rw [if_pos hyi] at hyc'
        rw [← hyc']
        rfl
      · rw [if_neg hyi] at hyc'
        rw [← hyc'] at hX ⊢
        exact h y hy hX
    | none =>
      intro hc'
      rcases List.mem_append.mp hc' with hc' | hc'
      · exact h c' hc' hX
      · have : c' = freshCourse e st.db.nextId := by simpa using hc'
        rw [this]
        rfl

/-- Processing an entry without a store error leaves every course row
carrying the entry's code offered. -/
theorem processEntryP1_off_effect (failWrite : Nat → Bool) (i : Nat) (e : SnapshotEntry)
    (st : P1State) (hfw : failWrite i = false) (hinv : DBInv st.db) :
    QoffDB e.course_id (processEntryP1 failWrite i e st).db := by
  rw [processEntryP1_noFail_eq failWrite i e st hfw]
  intro c' hc' hX
  rw [childSync_courses] at hc'
  rw [upsertCourse] at hc'
  revert hc'
  cases hf : st.db.courses.find? (fun x => x.external_course_code = e.course_id) with
  | some c0 =>
    intro hc'
    obtain ⟨hc0mem, hc0code⟩ := find?_code_eq st.db e.course_id c0 hf
    obtain ⟨y, hy, hyc'⟩ := List.mem_map.mp hc'
    by_cases hyi : y.id = c0.id
    · rw [if_pos hyi] at hyc'
      rw [← hyc']
      rfl
    · rw [if_neg hyi] at hyc'
      exfalso
      have hyx : y.external_course_code = e.course_id := by rw [← hyc'] at hX; exact hX
      have : y = c0 :=
        List.inj_on_of_nodup_map hinv.codesNodup hy hc0mem (hyx.trans hc0code.symm)
      exact hyi (by rw [this])
  | none =>
    intro hc'
    rcases List.mem_append.mp hc' with hc' | hc'
    · exfalso
      have := List.find?_eq_none.mp hf c' hc'
      simp only [decide_eq_true_eq] at this
      exact this hX
    · have : c' = freshCourse e st.db.nextId := by simpa using hc'
      rw [this]
      rfl

theorem enum_snd_mem {α : Type _} (l : List α) : ∀ p ∈ l.enum, p.2 ∈ l := by
  intro p hp
  have h2 := List.mem_map_of_mem Prod.snd hp
  rwa [show l.enum.map Prod.snd = l from List.enumFrom_map_snd 0 l] at h2

theorem pass0_deact_effect (data : List SnapshotEntry) (db : DB) (stats : Stats)
    (c : Course) (hc : c ∈ db.courses) (hoff : c.is_offered = true)
    (habs : ∀ e ∈ data, e.course_id ≠ c.external_course_code)
    (hinv : DBInv db) :
    QdeactDB c.id c.external_course_code (pass0 data db stats).1 := by
  have hnotin : (importedCourseCodes data).contains c.external_course_code = false := by
    by_cases hct : (importedCourseCodes data).contains c.external_course_code
    · exfalso
      have hmem : c.external_course_code ∈ importedCourseCodes data := by simpa using hct
      rw [importedCourseCodes] at hmem
      obtain ⟨e, he, hee⟩ := List.mem_map.mp (List.mem_of_mem_filter hmem)
      exact habs e he hee
    · simpa using hct
  have hcmem : c ∈ db.courses.filter (fun c =>
      c.is_offered && !(importedCourseCodes data).contains c.external_course_code) := by
    rw [List.mem_filter]
    refine ⟨hc, ?_⟩
    rw [hoff, hnotin]
    rfl
  rw [pass0]
  split
  next hlen =>
    refine ⟨?_, ?_, ?_⟩
    · intro c' hc' hK
      obtain ⟨y, hy, hyc'⟩ := List.mem_map.mp hc'
      have hyidpres : c'.id = y.id := by
        rw [← hyc']
        by_cases hh : ((db.courses.filter (fun c =>
            c.is_offered && !(importedCourseCodes data).contains c.external_course_code)).map
              (fun c => c.id)).contains y.id
        · rw [if_pos hh]
        · rw [if_neg hh]
      have hyc : y = c :=
        List.inj_on_of_nodup_map hinv.idsNodup hy hc (by rw [← hyidpres, hK])
      subst hyc
      have hcontains : ((db.courses.filter (fun c =>
          c.is_offered && !(importedCourseCodes data).contains c.external_course_code)).map
            (fun c => c.id)).contains y.id := by
        have : y.id ∈ (db.courses.filter (fun c =>
            c.is_offered && !(importedCourseCodes data).contains c.external_course_code)).map
              (fun c => c.id) := List.mem_map_of_mem _ hcmem
        simpa using this
      rw [if_pos hcontains] at hyc'
      rw [← hyc']
      exact ⟨rfl, rfl⟩
    · intro v hv hK
      obtain ⟨y, hy, hyv⟩ := List.mem_map.mp hv
      have hycid : y.course_id = c.id := by
        rw [← hK, ← hyv]
        by_cases hh : ((db.courses.filter (fun c =>
            c.is_offered && !(importedCourseCodes data).contains c.external_course_code)).map
              (fun c => c.id)).contains y.course_id
        · rw [if_pos hh]
        · rw [if_neg hh]
      have hcontains : ((db.courses.filter (fun c =>
          c.is_offered && !(importedCourseCodes data).contains c.external_course_code)).map
            (fun c => c.id)).contains y.course_id := by
        rw [hycid]
        have : c.id ∈ (db.courses.filter (fun c =>
            c.is_offered && !(importedCourseCodes data).contains c.external_course_code)).map
              (fun c => c.id) := List.mem_map_of_mem _ hcmem
        simpa using this
      rw [if_pos hcontains] at hyv
      rw [← hyv]
    · exact hinv.idsBound c hc
  next hlen =>
    exact absurd (List.length_pos.mpr (List.ne_nil_of_mem hcmem)) hlen

theorem import_ok_eq (cfg : Config) (failWrite : Nat → Bool) (db : DB)
    (data : List SnapshotEntry) :
    importCoursesFromJson (some cfg) failWrite db data =
      .ok (pass2 (pass1 failWrite data (pass0 data db (initStats data.length)).1
            (pass0 data db (initStats data.length)).2).map data
          (pass1 failWrite data (pass0 data db (initStats data.length)).1
            (pass0 data db (initStats data.length)).2).db
          (pass1 failWrite data (pass0 data db (initStats data.length)).1
            (pass0 data db (initStats data.length)).2).stats) := rfl

/-- C5: after a reconciliation cycle, every persisted course that was offered
and whose `externalCode` appears in no snapshot entry is not offered, and all
of its variant rows are not offered; every course whose `externalCode` is
that of a snapshot entry processed without error is offered. -/
theorem c5_deactivation_and_reactivation (cfg : Config) (failWrite : Nat → Bool)
    (db : DB) (snap : List SnapshotEntry) (db' : DB) (stats' : Stats)
    (hinv : DBInv db)
    (hrun : importCoursesFromJson (some cfg) failWrite db snap = .ok (db', stats')) :
    (∀ c ∈ db.courses, c.is_offered = true →
      (∀ e ∈ snap, e.course_id ≠ c.external_course_code) →
      (∀ c' ∈ db'.courses, c'.id = c.id → c'.is_offered = false) ∧
      (∀ v ∈ db'.course_variants, v.course_id = c.id → v.is_offered = false)) ∧
    (∀ i e, (i, e) ∈ snap.enum → failWrite i = false →
      ∀ c' ∈ db'.courses, c'.external_course_code = e.course_id →
        c'.is_offered = true) := by
  have h := hrun
  rw [import_ok_eq] at h
  have hp : (pass2 (pass1 failWrite snap (pass0 snap db (initStats snap.length)).1
        (pass0 snap db (initStats snap.length)).2).map snap
      (pass1 failWrite snap (pass0 snap db (initStats snap.length)).1
        (pass0 snap db (initStats snap.length)).2).db
      (pass1 failWrite snap (pass0 snap db (initStats snap.length)).1
        (pass0 snap db (initStats snap.length)).2).stats) = (db', stats') := by
    injection h
  have hdb' : db' = (pass2 (pass1 failWrite snap (pass0 snap db (initStats snap.length)).1
        (pass0 snap db (initStats snap.length)).2).map snap
      (pass1 failWrite snap (pass0 snap db (initStats snap.length)).1
        (pass0 snap db (initStats snap.length)).2).db
      (pass1 failWrite snap (pass0 snap db (initStats snap.length)).1
        (pass0 snap db (initStats snap.length)).2).stats).1 := by
    rw [hp]
  have hinv0 : DBInv (pass0 snap db (initStats snap.length)).1 :=
    pass0_dbinv snap db (initStats snap.length) hinv
  constructor
  · intro c hc hoff habs
    have h0 : QdeactDB c.id c.external_course_code
        (pass0 snap db (initStats snap.length)).1 :=
      pass0_deact_effect snap db (initStats snap.length) c hc hoff habs hinv
    have h1 : QdeactDB c.id c.external_course_code
        (pass1 failWrite snap (pass0 snap db (initStats snap.length)).1
          (pass0 snap db (initStats snap.length)).2).db := by
      rw [pass1_eq_foldl]
      refine foldl_pres _ (fun st : P1State => QdeactDB c.id c.external_course_code st.db) _ _ h0 ?_
      intro st p hpmem hq
      exact processEntryP1_pres_deact failWrite p.1 p.2 st c.id c.external_course_code
        (habs p.2 (enum_snd_mem snap p hpmem)) hq
    obtain ⟨hc1, hc2, _⟩ := h1
    rw [hdb']
    constructor
    · intro c' hc' hK
      rw [pass2_courses] at hc'
      exact (hc1 c' hc' hK).1
    · intro v hv hK
      rw [pass2_variants] at hv
      exact hc2 v hv hK
  · intro i e hie hfw
    obtain ⟨pre, suf, hsplit, heq⟩ :=
      pass1_decompose failWrite snap (pass0 snap db (initStats snap.length)).1
        (pass0 snap db (initStats snap.length)).2 hie
    have hinvmid : DBInv (pre.foldl (p1step failWrite)
        { db := (pass0 snap db (initStats snap.length)).1, map := [],
          stats := (pass0 snap db (initStats snap.length)).2 }).db := by
      refine foldl_pres _ (fun st : P1State => DBInv st.db) _ _ hinv0 ?_
      intro st p _ hq
      exact (processEntryP1_dbinv failWrite p.1 p.2 st hq).1
    have heff : QoffDB e.course_id (processEntryP1 failWrite i e
        (pre.foldl (p1step failWrite)
          { db := (pass0 snap db (initStats snap.length)).1, map := [],
            stats := (pass0 snap db (initStats snap.length)).2 })).db :=
      processEntryP1_off_effect failWrite i e _ hfw hinvmid
    have hfin : QoffDB e.course_id (pass1 failWrite snap
        (pass0 snap db (initStats snap.length)).1
        (pass0 snap db (initStats snap.length)).2).db := by
      rw [heq]
      refine foldl_pres _ (fun st : P1State => QoffDB e.course_id st.db) _ _ heff ?_
      intro st p _ hq
      exact processEntryP1_pres_off failWrite p.1 p.2 st e.course_id hq
    intro c' hc' hX
    rw [hdb', pass2_courses] at hc'
    exact hfin c' hc' hX

/-- Witness for `c5_deactivation_and_reactivation`: importing one course into
a store holding a stale offered course retires the stale course and its
variant while the imported course is offered. -/
theorem c5_deactivation_and_reactivation_witness :
    (∀ c ∈ (c5db0 : DB).courses, c.is_offered = true →
      (∀ e ∈ [mkEntry "NEW"], e.course_id ≠ c.external_course_code) →
      (∀ c' ∈ (c5run : DB).courses, c'.id = c.id → c'.is_offered = false) ∧
      (∀ v ∈ (c5run : DB).course_variants, v.course_id = c.id →
        v.is_offered = false)) ∧
    (∀ i e, (i, e) ∈ ([mkEntry "NEW"] : List SnapshotEntry).enum → noFail i = false →
      ∀ c' ∈ (c5run : DB).courses, c'.external_course_code = e.course_id →
        c'.is_offered = true) :=
  c5_deactivation_and_reactivation cfg0 noFail c5db0 [mkEntry "NEW"] c5run c5stats
    (by refine ⟨?_, ?_, ?_, ?_, ?_, ?_, ?_, ?_⟩ <;> decide)
    rfl

theorem prefix_codes_ne (data : List SnapshotEntry)
    (hsnap : (data.map (fun e => e.course_id)).Nodup)
    {i : Nat} {e : SnapshotEntry} {pre suf : List (Nat × SnapshotEntry)}
    (hsplit : data.enum = pre ++ (i, e) :: suf) :
    ∀ p ∈ pre, p.2.course_id ≠ e.course_id := by
  have hd : data = pre.map Prod.snd ++ (e :: suf.map Prod.snd) := by
    rw [show data = data.enum.map Prod.snd from (List.enumFrom_map_snd 0 data).symm, hsplit]
    simp
  rw [hd] at hsnap
  simp only [List.map_append, List.map_cons, List.map_map] at hsnap
  rw [List.nodup_append] at hsnap
  obtain ⟨-, -, hdisj⟩ := hsnap
  intro p hp hpe
  refine hdisj (a := e.course_id) ?_ ?_
  · rw [← hpe]
    exact List.mem_map_of_mem _ hp
  · exact List.mem_cons_self _ _

theorem processEntryP1_pres_q6pre (failWrite : Nat → Bool) (i : Nat) (e : SnapshotEntry)
    (st : P1State) (c0 : Course)
    (hcode : e.course_id ≠ c0.external_course_code) (h : Q6pre c0 st.db) :
    Q6pre c0 (processEntryP1 failWrite i e st).db := by
  obtain ⟨⟨cw, hcw, hcwid⟩, h2, h3⟩ := h
  cases hfw : failWrite i with
  | true => rw [processEntryP1_fail_eq failWrite i e st hfw]; exact ⟨⟨cw, hcw, hcwid⟩, h2, h3⟩
  | false =>
    rw [processEntryP1_noFail_eq failWrite i e st hfw]
    show Q6pre c0 (childSync (upsertCourse e st.db st.stats).2.1 e
        (upsertCourse e st.db st.stats).1 (upsertCourse e st.db st.stats).2.2).1
    have hnid : c0.id < (upsertCourse e st.db st.stats).1.nextId :=
      Nat.lt_of_lt_of_le h3 (upsertCourse_nextId_le ..)
    rw [Q6pre, childSync_courses, childSync_nextId]
    revert hnid
    rw [upsertCourse]
    cases hf : st.db.courses.find? (fun x => x.external_course_code = e.course_id) with
    | some cF =>
      intro hnid
      obtain ⟨hcFmem, hcFcode⟩ := find?_code_eq st.db e.course_id cF hf
      have hcFid : cF.id ≠ c0.id := fun hid =>
        hcode (hcFcode.symm.trans (h2 cF hcFmem hid).2.2)
      refine ⟨⟨if cw.id = cF.id then applyCourseData e cw else cw,
        List.mem_map_of_mem _ hcw, ?_⟩, ?_, hnid⟩
      · by_cases hcwf : cw.id = cF.id
        · rw [if_pos hcwf, applyCourseData_id]; exact hcwid
        · rw [if_neg hcwf]; exact hcwid
      · intro c' hc' hK
        obtain ⟨y, hy, hyc'⟩ := List.mem_map.mp hc'
        by_cases hyi : y.id = cF.id
        · exfalso
          rw [if_pos hyi] at hyc'
          exact hcFid (by rw [← hyi, ← applyCourseData_id e y, hyc', hK])
        · rw [if_neg hyi] at hyc'
          rw [← hyc'] at hK ⊢
          exact h2 y hy hK
    | none =>
      intro hnid
      refine ⟨⟨cw, List.mem_append_left _ hcw, hcwid⟩, ?_, hnid⟩
      intro c' hc' hK
      rcases List.mem_append.mp hc' with hc' | hc'
      · exact h2 c' hc' hK
      · exfalso
        have hfc : c' = freshCourse e st.db.nextId := by simpa using hc'
        rw [hfc] at hK
        exact Nat.ne_of_gt h3 hK

theorem processEntryP1_pres_q6post (failWrite : Nat → Bool) (i : Nat) (e' : SnapshotEntry)
    (st : P1State) (c0 : Course) (e : SnapshotEntry)
    (hcode : e'.course_id ≠ e.course_id) (h : Q6post c0 e st.db) :
    Q6post c0 e (processEntryP1 failWrite i e' st).db := by
  obtain ⟨h2, h3⟩ := h
  cases hfw : failWrite i with
  | true => rw [processEntryP1_fail_eq failWrite i e' st hfw]; exact ⟨h2, h3⟩
  | false =>
    rw [processEntryP1_noFail_eq failWrite i e' st hfw]
    show Q6post c0 e (childSync (upsertCourse e' st.db st.stats).2.1 e'
        (upsertCourse e' st.db st.stats).1 (upsertCourse e' st.db st.stats).2.2).1
    have hnid : c0.id < (upsertCourse e' st.db st.stats).1.nextId :=
      Nat.lt_of_lt_of_le h3 (upsertCourse_nextId_le ..)
    rw [Q6post, childSync_courses, childSync_nextId]
    revert hnid
    rw [upsertCourse]
    cases hf : st.db.courses.find? (fun x => x.external_course_code = e'.course_id) with
    | some cF =>
      intro hnid
      obtain ⟨hcFmem, hcFcode⟩ := find?_code_eq st.db e'.course_id cF hf
      have hcFid : cF.id ≠ c0.id := fun hid =>
        hcode (hcFcode.symm.trans (h2 cF hcFmem hid).2.2.1)
      refine ⟨?_, hnid⟩
      intro c' hc' hK
      obtain ⟨y, hy, hyc'⟩ := List.mem_map.mp hc'
      by_cases hyi : y.id = cF.id
      · exfalso
        rw [if_pos hyi] at hyc'
        exact hcFid (by rw [← hyi, ← applyCourseData_id e' y, hyc', hK])
      · rw [if_neg hyi] at hyc'
        rw [← hyc'] at hK ⊢
        exact h2 y hy hK
    | none =>
      intro hnid
      refine ⟨?_, hnid⟩
      intro c' hc' hK
      rcases List.mem_append.mp hc' with hc' | hc'
      · exact h2 c' hc' hK
      · exfalso
        have hfc : c' = freshCourse e' st.db.nextId := by simpa using hc'
        rw [hfc] at hK
        exact Nat.ne_of_gt h3 hK

theorem processEntryP1_q6_effect (failWrite : Nat → Bool) (i : Nat) (e : SnapshotEntry)
    (st : P1State) (c0 : Course)
    (hfw : failWrite i = false) (hinv : DBInv st.db)
    (hc0code : c0.external_course_code = e.course_id) (h : Q6pre c0 st.db) :
    Q6post c0 e (processEntryP1 failWrite i e st).db := by
  obtain ⟨⟨cw, hcw, hcwid⟩, h2, h3⟩ := h
  rw [processEntryP1_noFail_eq failWrite i e st hfw]
  show Q6post c0 e (childSync (upsertCourse e st.db st.stats).2.1 e
      (upsertCourse e st.db st.stats).1 (upsertCourse e st.db st.stats).2.2).1
  have hnid : c0.id < (upsertCourse e st.db st.stats).1.nextId :=
    Nat.lt_of_lt_of_le h3 (upsertCourse_nextId_le ..)
  have hcwcode : cw.external_course_code = e.course_id := by
    rw [(h2 cw hcw hcwid).2.2, hc0code]
  rw [Q6post, childSync_courses, childSync_nextId]
  revert hnid
  rw [upsertCourse]
  cases hf : st.db.courses.find? (fun x => x.external_course_code = e.course_id) with
  | some cF =>
    intro hnid
    obtain ⟨hcFmem, hcFcode⟩ := find?_code_eq st.db e.course_id cF hf
    have hcFcw : cF = cw :=
      List.inj_on_of_nodup_map hinv.codesNodup hcFmem hcw (hcFcode.trans hcwcode.symm)
    have hcFid : cF.id = c0.id := by rw [hcFcw, hcwid]
    refine ⟨?_, hnid⟩
    intro c' hc' hK
    obtain ⟨y, hy, hyc'⟩ := List.mem_map.mp hc'
    by_cases hyi : y.id = cF.id
    · rw [if_pos hyi] at hyc'
      have hyprops := h2 y hy (by rw [hyi, hcFid])
      rw [← hyc']
      exact ⟨hyprops.1, hyprops.2.1, rfl, rfl, rfl, rfl, rfl, rfl, rfl, rfl, rfl, rfl⟩
    · exfalso
      rw [if_neg hyi] at hyc'
      rw [← hyc'] at hK
      exact hyi (by rw [hK, ← hcFid])
  | none =>
    intro hnid
    exfalso
    have := List.find?_eq_none.mp hf cw hcw
    simp only [decide_eq_true_eq] at this
    exact this hcwcode

theorem processEntryP1_pres_qfresh (failWrite : Nat → Bool) (i : Nat) (e : SnapshotEntry)
    (st : P1State) (X : String) (hinv : DBInv st.db) (h : Qfresh X st.db) :
    Qfresh X (processEntryP1 failWrite i e st).db := by
  cases hfw : failWrite i with
  | true => rw [processEntryP1_fail_eq failWrite i e st hfw]; exact h
  | false =>
    rw [processEntryP1_noFail_eq failWrite i e st hfw]
    intro c' hc' hX
    rw [childSync_courses] at hc'
    rw [upsertCourse] at hc'
    revert hc'
    cases hf : st.db.courses.find? (fun x => x.external_course_code = e.course_id) with
    | some cF =>
      intro hc'
      obtain ⟨hcFmem, hcFcode⟩ := find?_code_eq st.db e.course_id cF hf
      obtain ⟨y, hy, hyc'⟩ := List.mem_map.mp hc'
      by_cases hyi : y.id = cF.id
      · rw [if_pos hyi] at hyc'
        have hycF : y = cF := List.inj_on_of_nodup_map hinv.idsNodup hy hcFmem hyi
        have hXe : X = e.course_id := by
          rw [← hX, ← hyc']
          rfl
        have hycode : y.external_course_code = X := by
          rw [hycF, hcFcode, hXe]
        have := h y hy hycode
        rw [← hyc']
        exact ⟨this.1, this.2⟩
      · rw [if_neg hyi] at hyc'
        rw [← hyc'] at hX ⊢
        exact h y hy hX
    | none =>
      intro hc'
      rcases List.mem_append.mp hc' with hc' | hc'
      · exact h c' hc' hX
      · have : c' = freshCourse e st.db.nextId := by simpa using hc'
        rw [this]
        exact ⟨rfl, rfl⟩

theorem pass0_q6pre_effect (data : List SnapshotEntry) (db : DB) (stats : Stats)
    (c0 : Course) (hc0 : c0 ∈ db.courses) (hinv : DBInv db) :
    Q6pre c0 (pass0 data db stats).1 := by
  refine ⟨?_, ?_, ?_⟩
  · rw [pass0]
    split
    · refine ⟨_, List.mem_map_of_mem _ hc0, ?_⟩
      by_cases hh : ((db.courses.filter (fun c =>
          c.is_offered && !(importedCourseCodes data).contains c.external_course_code)).map
            (fun c => c.id)).contains c0.id
      · rw [if_pos hh]
      · rw [if_neg hh]
    · exact ⟨c0, hc0, rfl⟩
  · intro c' hc' hK
    obtain ⟨y, hy, hyx⟩ := pass0_courses_shape data db stats c' hc'
    have hyid : y.id = c0.id := by
      rcases hyx with h1 | h1 <;> rw [h1] at hK <;> exact hK
    have hyc0 : y = c0 := List.inj_on_of_nodup_map hinv.idsNodup hy hc0 hyid
    subst hyc0
    rcases hyx with h1 | h1 <;> rw [h1] <;> exact ⟨rfl, rfl, rfl⟩
  · rw [pass0_nextId]
    exact hinv.idsBound c0 hc0

theorem pass0_qfresh_effect (data : List SnapshotEntry) (db : DB) (stats : Stats)
    (X : String) (hno : ∀ c0 ∈ db.courses, c0.external_course_code ≠ X) :
    Qfresh X (pass0 data db stats).1 := by
  intro c' hc' hX
  obtain ⟨y, hy, hyx⟩ := pass0_courses_shape data db stats c' hc'
  exfalso
  have : y.external_course_code = X := by
    rcases hyx with h1 | h1 <;> rw [h1] at hX <;> exact hX
  exact hno y hy this

/-- C6: for every existing course updated during Pass 1 without error, the
curator-owned `description`/`notes` are identical before and after the cycle
while the other core fields are overwritten from the snapshot entry; a newly
inserted course gets `description` and `notes` defaulted to empty (`NULL`). -/
theorem c6_curated_fields (cfg : Config) (failWrite : Nat → Bool)
    (db : DB) (snap : List SnapshotEntry) (db' : DB) (stats' : Stats)
    (hinv : DBInv db)
    (hsnap : (snap.map (fun e => e.course_id)).Nodup)
    (hrun : importCoursesFromJson (some cfg) failWrite db snap = .ok (db', stats')) :
    (∀ i e, (i, e) ∈ snap.enum → failWrite i = false →
      ∀ c0 ∈ db.courses, c0.external_course_code = e.course_id →
        ∀ c' ∈ db'.courses, c'.id = c0.id →
          c'.description = c0.description ∧ c'.notes = c0.notes ∧
          c'.external_course_code = e.course_id ∧ c'.name = e.name ∧
          c'.credits = e.credits ∧ c'.length = e.length ∧ c'.gpa_weight = e.gpa ∧
          c'.subject = e.subject ∧ c'.is_elective = e.elective ∧
          c'.external_uuid = e.uuid ∧ c'.is_offered = true ∧
          c'.raw_payload = some e) ∧
    (∀ e ∈ snap, (∀ c0 ∈ db.courses, c0.external_course_code ≠ e.course_id) →
      ∀ c' ∈ db'.courses, c'.external_course_code = e.course_id →
        c'.description = none ∧ c'.notes = none) := by
  have h := hrun
  rw [import_ok_eq] at h
  have hp : (pass2 (pass1 failWrite snap (pass0 snap db (initStats snap.length)).1
        (pass0 snap db (initStats snap.length)).2).map snap
      (pass1 failWrite snap (pass0 snap db (initStats snap.length)).1
        (pass0 snap db (initStats snap.length)).2).db
      (pass1 failWrite snap (pass0 snap db (initStats snap.length)).1
        (pass0 snap db (initStats snap.length)).2).stats) = (db', stats') := by
    injection h
  have hdb' : db' = (pass2 (pass1 failWrite snap (pass0 snap db (initStats snap.length)).1
        (pass0 snap db (initStats snap.length)).2).map snap
      (pass1 failWrite snap (pass0 snap db (initStats snap.length)).1
        (pass0 snap db (initStats snap.length)).2).db
      (pass1 failWrite snap (pass0 snap db (initStats snap.length)).1
        (pass0 snap db (initStats snap.length)).2).stats).1 := by
    rw [hp]
  have hinv0 : DBInv (pass0 snap db (initStats snap.length)).1 :=
    pass0_dbinv snap db (initStats snap.length) hinv
  constructor
  · intro i e hie hfw c0 hc0 hc0code
    obtain ⟨pre, suf, hsplit, heq⟩ :=
      pass1_decompose failWrite snap (pass0 snap db (initStats snap.length)).1
        (pass0 snap db (initStats snap.length)).2 hie
    have hprecodes := prefix_codes_ne snap hsnap hsplit
    have hsufcodes := suffix_codes_ne snap hsnap hsplit
    have hmid : DBInv (pre.foldl (p1step failWrite)
        { db := (pass0 snap db (initStats snap.length)).1, map := [],
          stats := (pass0 snap db (initStats snap.length)).2 }).db ∧
        Q6pre c0 (pre.foldl (p1step failWrite)
        { db := (pass0 snap db (initStats snap.length)).1, map := [],
          stats := (pass0 snap db (initStats snap.length)).2 }).db := by
      refine foldl_pres _ (fun st : P1State => DBInv st.db ∧ Q6pre c0 st.db) _ _
        ⟨hinv0, pass0_q6pre_effect snap db (initStats snap.length) c0 hc0 hinv⟩ ?_
      intro st p hpmem hq
      refine ⟨(processEntryP1_dbinv failWrite p.1 p.2 st hq.1).1, ?_⟩
      refine processEntryP1_pres_q6pre failWrite p.1 p.2 st c0 ?_ hq.2
      rw [hc0code]
      exact hprecodes p hpmem
    have heff : Q6post c0 e (processEntryP1 failWrite i e
        (pre.foldl (p1step failWrite)
          { db := (pass0 snap db (initStats snap.length)).1, map := [],
            stats := (pass0 snap db (initStats snap.length)).2 })).db :=
      processEntryP1_q6_effect failWrite i e _ c0 hfw hmid.1 hc0code hmid.2
    have hfin : Q6post c0 e (pass1 failWrite snap
        (pass0 snap db (initStats snap.length)).1
        (pass0 snap db (initStats snap.length)).2).db := by
      rw [heq]
      refine foldl_pres _ (fun st : P1State => Q6post c0 e st.db) _ _ heff ?_
      intro st p hpmem hq
      exact processEntryP1_pres_q6post failWrite p.1 p.2 st c0 e (hsufcodes p hpmem) hq
    intro c' hc' hK
    rw [hdb', pass2_courses] at hc'
    exact hfin.1 c' hc' hK
  · intro e hemem hno
    have hfin : DBInv (pass1 failWrite snap
        (pass0 snap db (initStats snap.length)).1
        (pass0 snap db (initStats snap.length)).2).db ∧
        Qfresh e.course_id (pass1 failWrite snap
        (pass0 snap db (initStats snap.length)).1
        (pass0 snap db (initStats snap.length)).2).db := by
      rw [pass1_eq_foldl]
      refine foldl_pres _ (fun st : P1State => DBInv st.db ∧ Qfresh e.course_id st.db) _ _
        ⟨hinv0, pass0_qfresh_effect snap db (initStats snap.length) e.course_id hno⟩ ?_
      intro st p _ hq
      exact ⟨(processEntryP1_dbinv failWrite p.1 p.2 st hq.1).1,
        processEntryP1_pres_qfresh failWrite p.1 p.2 st e.course_id hq.1 hq.2⟩
    intro c' hc' hX
    rw [hdb', pass2_courses] at hc'
    exact hfin.2 c' hc' hX

/-- Witness for `c6_curated_fields`: a store with one curated course updated
by a matching entry and one new code inserted fresh. -/
theorem c6_curated_fields_witness :
    (∀ i e, (i, e) ∈ ([mkEntry "OLD", mkEntry "NEW"] : List SnapshotEntry).enum →
      noFail i = false →
      ∀ c0 ∈ (c6db0 : DB).courses, c0.external_course_code = e.course_id →
        ∀ c' ∈ (c6run : DB).courses, c'.id = c0.id →
          c'.description = c0.description ∧ c'.notes = c0.notes ∧
          c'.external_course_code = e.course_id ∧ c'.name = e.name ∧
          c'.credits = e.credits ∧ c'.length = e.length ∧ c'.gpa_weight = e.gpa ∧
          c'.subject = e.subject ∧ c'.is_elective = e.elective ∧
          c'.external_uuid = e.uuid ∧ c'.is_offered = true ∧
          c'.raw_payload = some e) ∧
    (∀ e ∈ ([mkEntry "OLD", mkEntry "NEW"] : List SnapshotEntry),
      (∀ c0 ∈ (c6db0 : DB).courses, c0.external_course_code ≠ e.course_id) →
      ∀ c' ∈ (c6run : DB).courses, c'.external_course_code = e.course_id →
        c'.description = none ∧ c'.notes = none) :=
  c6_curated_fields cfg0 noFail c6db0 [mkEntry "OLD", mkEntry "NEW"] c6run c6stats
    (by refine ⟨?_, ?_, ?_, ?_, ?_, ?_, ?_, ?_⟩ <;> decide)
    (by decide) rfl

/-- C3 counterexample: the alternative whose `related_course_code` is the
non-null empty string is not satisfied by the implementation, although the
claim's predicate holds for it (every code starts with `""`). -/
theorem c3_counterexample :
    isSatisfied ["A"] (mkRelQ "r1" (some "")) = false ∧
    altSatisfiedClaim ["A"] (mkRelQ "r1" (some "")) := by
  refine ⟨by decide, ⟨"", rfl, "A", by simp, by decide⟩⟩

/-- C3 amended: an alternative is satisfied iff its `related_course_code` is
non-null **and non-empty** and at least one completed code starts with it
(one-directional prefix test); in particular completed `"0075B"` satisfies
alternative code `"0075"`, completed `"075"` does not, and an alternative
with no code is never satisfied. -/
theorem c3_amended_prefix_satisfaction (completed : List String) (r : RelQRow) :
    (isSatisfied completed r = true ↔
      ∃ code, r.related_course_code = some code ∧ code ≠ "" ∧
        ∃ cc ∈ completed, strStartsWith cc code = true) ∧
    isSatisfied ["0075B"] (mkRelQ "r1" (some "0075")) = true ∧
    isSatisfied ["075"] (mkRelQ "r1" (some "0075")) = false ∧
    (∀ cs, isSatisfied cs (mkRelQ "r1" none) = false) := by
  refine ⟨?_, by decide, by decide, fun cs => by simp [isSatisfied, mkRelQ]⟩
  cases h : r.related_course_code with
  | none => simp [isSatisfied, h]
  | some code =>
    by_cases hc : code = ""
    · subst hc
      simp [isSatisfied, h]
    · simp [isSatisfied, h, hc, List.any_eq_true]

theorem foldl_invariant {α β : Type _} (f : β → α → β) (P : List α → β → Prop)
    (b0 : β) (h0 : P [] b0)
    (hstep : ∀ pre b a, P pre b → P (pre ++ [a]) (f b a)) (l : List α) :
    P l (l.foldl f b0) := by
  suffices h : ∀ l' pre b, P pre b → P (pre ++ l') (l'.foldl f b) by
    simpa using h l [] b0 h0
  intro l'
  induction l' with
  | nil => intro pre b hb; simpa using hb
  | cons a t ih =>
    intro pre b hb
    have := ih (pre ++ [a]) (f b a) (hstep pre b a hb)
    simpa [List.append_assoc] using this

theorem jsOr_falsy (o : Option String) (d : String) (h : jsFalsy o = true) :
    jsOr o d = d := by
  cases o with
  | none => rfl
  | some s =>
    simp only [jsFalsy, decide_eq_true_eq] at h
    simp [jsOr, h]

theorem filter_key_singleton_ne (r : RelQRow) (k : String) (h : ¬groupKey r = k) :
    List.filter (fun x => decide (groupKey x = k)) [r] = [] := by
  simp [List.filter_cons, h]

theorem addToGroups_inv (pre : List RelQRow) (gs : Groups) (r : RelQRow)
    (h : GroupsInv pre gs) : GroupsInv (pre ++ [r]) (addToGroups gs r) := by
  obtain ⟨hkeys, hcover, halts, hlogic, hnodup⟩ := h
  rw [addToGroups]
  by_cases hany : gs.any (fun g => g.1 = groupKey r) = true
  · rw [if_pos hany]
    set u := fun g : String × String × List RelQRow =>
      if g.1 = groupKey r then (g.1, g.2.1, g.2.2 ++ [r]) else g with hu
    have hfst : ∀ g : String × String × List RelQRow, (u g).1 = g.1 := by
      intro g
      by_cases hg : g.1 = groupKey r <;> simp [hu, hg]
    refine ⟨?_, ?_, ?_, ?_, ?_⟩
    · intro g' hg'
      obtain ⟨g, hg, rfl⟩ := List.mem_map.mp hg'
      obtain ⟨r', hr', hkey⟩ := hkeys g hg
      exact ⟨r', List.mem_append_left _ hr', by rw [hfst]; exact hkey⟩
    · intro r' hr'
      rcases List.mem_append.mp hr' with hr' | hr'
      · obtain ⟨g, hg, hkey⟩ := hcover r' hr'
        exact ⟨u g, List.mem_map_of_mem u hg, by rw [hfst]; exact hkey⟩
      · obtain ⟨g, hg, hgk⟩ := List.any_eq_true.mp hany
        simp only [decide_eq_true_eq] at hgk
        have : r' = r := by simpa using hr'
        subst this
        exact ⟨u g, List.mem_map_of_mem u hg, by rw [hfst, hgk]⟩
    · intro g' hg'
      obtain ⟨g, hg, rfl⟩ := List.mem_map.mp hg'
      by_cases hgk : g.1 = groupKey r
      · have : u g = (g.1, g.2.1, g.2.2 ++ [r]) := by simp [hu, hgk]
        rw [this]
        show g.2.2 ++ [r] = classOf (pre ++ [r]) g.1
        rw [halts g hg, classOf, classOf, List.filter_append]
        congr 1
        simp [hgk]
      · have : u g = g := by simp [hu, hgk]
        rw [this, halts g hg, classOf, classOf, List.filter_append,
          filter_key_singleton_ne r g.1 (fun hh => hgk hh.symm), List.append_nil]
    · intro g' hg'
      obtain ⟨g, hg, rfl⟩ := List.mem_map.mp hg'
      obtain ⟨hd, tl, hht, hlg⟩ := hlogic g hg
      by_cases hgk : g.1 = groupKey r
      · have : u g = (g.1, g.2.1, g.2.2 ++ [r]) := by simp [hu, hgk]
        rw [this]
        exact ⟨hd, tl ++ [r], by rw [hht]; simp, hlg⟩
      · have : u g = g := by simp [hu, hgk]
        rw [this]
        exact ⟨hd, tl, hht, hlg⟩
    · have : (gs.map u).map (fun g => g.1) = gs.map (fun g => g.1) := by
        rw [List.map_map]
        exact List.map_congr_left (fun g _ => hfst g)
      rw [this]
      exact hnodup
  · rw [if_neg hany]
    have hnone : ∀ g ∈ gs, g.1 ≠ groupKey r := by
      intro g hg
      rw [Bool.not_eq_true, List.any_eq_false] at hany
      simpa using hany g hg
    refine ⟨?_, ?_, ?_, ?_, ?_⟩
    · intro g' hg'
      rcases List.mem_append.mp hg' with hg' | hg'
      · obtain ⟨r', hr', hkey⟩ := hkeys g' hg'
        exact ⟨r', List.mem_append_left _ hr', hkey⟩
      · have : g' = (groupKey r, rowLogic r, [r]) := by simpa using hg'
        subst this
        exact ⟨r, List.mem_append_right _ (by simp), rfl⟩
    · intro r' hr'
      rcases List.mem_append.mp hr' with hr' | hr'
      · obtain ⟨g, hg, hkey⟩ := hcover r' hr'
        exact ⟨g, List.mem_append_left _ hg, hkey⟩
      · have hrr : r' = r := by simpa using hr'
        rw [hrr]
        exact ⟨(groupKey r, rowLogic r, [r]), List.mem_append_right _ (by simp), rfl⟩
    · intro g' hg'
      rcases List.mem_append.mp hg' with hg' | hg'
      · rw [halts g' hg', classOf, classOf, List.filter_append,
          filter_key_singleton_ne r g'.1 (fun hh => hnone g' hg' hh.symm), List.append_nil]
      · have : g' = (groupKey r, rowLogic r, [r]) := by simpa using hg'
        subst this
        show [r] = classOf (pre ++ [r]) (groupKey r)
        have hpre : List.filter (fun x => decide (groupKey x = groupKey r)) pre = [] := by
          rw [List.filter_eq_nil_iff]
          intro x hx
          simp only [decide_eq_true_eq]
          intro hxk
          obtain ⟨g, hg, hgk⟩ := hcover x hx
          exact hnone g hg (hgk.trans hxk)
        rw [classOf, List.filter_append, hpre]
        simp
    · intro g' hg'
      rcases List.mem_append.mp hg' with hg' | hg'
      · exact hlogic g' hg'
      · have : g' = (groupKey r, rowLogic r, [r]) := by simpa using hg'
        subst this
        exact ⟨r, [], rfl, rfl⟩
    · rw [List.map_append]
      simp only [List.map_cons, List.map_nil]
      rw [List.nodup_append]
      refine ⟨hnodup, List.nodup_singleton _, ?_⟩
      intro k hk hk'
      have : k = groupKey r := by simpa using hk'
      subst this
      obtain ⟨g, hg, hgk⟩ := List.mem_map.mp hk
      exact hnone g hg hgk

theorem buildGroups_inv (rows : List RelQRow) : GroupsInv rows (buildGroups rows) := by
  rw [buildGroups]
  exact foldl_invariant addToGroups GroupsInv []
    ⟨by simp, by simp, by simp, by simp, by simp⟩
    addToGroups_inv rows

theorem unmetFold_eq (completed : List String) (gs : Groups) (acc : List String) :
    gs.foldl (fun acc g =>
        if groupSat completed g then acc else acc ++ [groupDesc g]) acc =
      acc ++ (gs.filter (fun g => !groupSat completed g)).map groupDesc := by
  induction gs generalizing acc with
  | nil => simp
  | cons g gs ih =>
    by_cases h : groupSat completed g
    · simp [List.foldl_cons, h, ih]
    · simp [List.foldl_cons, h, ih]

theorem classOf_subset (rows : List RelQRow) (k : String) :
    ∀ x ∈ classOf rows k, x ∈ rows ∧ groupKey x = k := by
  intro x hx
  rw [classOf, List.mem_filter] at hx
  exact ⟨hx.1, by simpa using hx.2⟩

theorem classSat_bridge (rows : List RelQRow) (completed : List String)
    (hids : (rows.map (fun r => r.id)).Nodup)
    (hdisj : ∀ r ∈ rows, ∀ s ∈ rows, jsFalsy s.group_id = false → groupKey s ≠ r.id) :
    ∀ g ∈ buildGroups rows, specClassSat completed g.2.2 = groupSat completed g := by
  obtain ⟨hkeys, hcover, halts, hlogic, hnodup⟩ := buildGroups_inv rows
  intro g hg
  obtain ⟨hd, tl, hht, hlg⟩ := hlogic g hg
  have halt := halts g hg
  have hdmem : hd ∈ classOf rows g.1 := by
    rw [← halt, hht]; exact List.mem_cons_self _ _
  obtain ⟨hdrows, hdkey⟩ := classOf_subset rows g.1 hd hdmem
  by_cases hf : jsFalsy hd.group_id = true
  · have hkid : g.1 = hd.id := by
      rw [← hdkey, groupKey, jsOr_falsy _ _ hf]
    have hsingle : tl = [] := by
      have hrownodup : rows.Nodup := List.Nodup.of_map _ hids
      have hclsnodup : (classOf rows g.1).Nodup :=
        List.Sublist.nodup (List.filter_sublist _) hrownodup
      cases htl : tl with
      | nil => rfl
      | cons x tl' =>
        exfalso
        have hxmem : x ∈ classOf rows g.1 := by
          rw [← halt, hht, htl]
          exact List.mem_cons_of_mem _ (List.mem_cons_self _ _)
        obtain ⟨hxrows, hxkey⟩ := classOf_subset rows g.1 x hxmem
        have hxhd : x = hd := by
          by_cases hxf : jsFalsy x.group_id = true
          · have : groupKey x = x.id := by rw [groupKey, jsOr_falsy _ _ hxf]
            have hxid : x.id = hd.id := by rw [← this, hxkey, hkid]
            exact List.inj_on_of_nodup_map hids hxrows hdrows hxid
          · exact absurd (hxkey.trans hkid)
              (hdisj hd hdrows x hxrows (Bool.not_eq_true _ ▸ hxf))
        have : (hd :: x :: tl').Nodup := by
          rw [← htl, ← hht, halt]; exact hclsnodup
        rw [List.nodup_cons] at this
        exact this.1 (hxhd ▸ List.mem_cons_self _ _)
    subst hsingle
    by_cases hA : g.2.1 = "AND" <;>
      simp [specClassSat, groupSat, hht, hf, hA]
  · rw [Bool.not_eq_true] at hf
    by_cases hA : rowLogic hd = "AND"
    · simp [specClassSat, groupSat, hht, hlg, hf, hA]
    · simp [specClassSat, groupSat, hht, hlg, hf, hA]

theorem checkPrerequisitesMet_eq (table : List RelQRow) (courseId : Nat)
    (completed : List String) :
    checkPrerequisitesMet table courseId completed =
      if prereqRows table courseId = [] then (true, [])
      else
        ((((buildGroups (prereqRows table courseId)).filter
            (fun g => !groupSat completed g)).map groupDesc).length = 0,
          ((buildGroups (prereqRows table courseId)).filter
            (fun g => !groupSat completed g)).map groupDesc) := by
  rw [checkPrerequisitesMet]
  by_cases h : prereqRows table courseId = []
  · simp [h]
  · simp only [h, if_neg, ite_false]
    rw [unmetFold_eq]
    simp

/-- C2: the Prerequisite Evaluator returns `met=true, unmet=[]` when the
course has zero prerequisite relationship rows; otherwise it groups rows by
`groupId` (a row with no group forming its own OR singleton), a group is
satisfied per its AND/OR logic (all/at least one alternative satisfied), the
result is met iff every group is satisfied, and one description string is
appended to `unmet` per unsatisfied group.  The well-formedness hypotheses
(distinct row uuids — a primary key — and no `groupId` colliding with a row
uuid) tie the evaluator's uuid-fallback grouping to the claim's reading. -/
theorem c2_prerequisite_evaluation (table : List RelQRow) (courseId : Nat)
    (completed : List String)
    (hids : ((prereqRows table courseId).map (fun r => r.id)).Nodup)
    (hdisj : ∀ r ∈ prereqRows table courseId, ∀ s ∈ prereqRows table courseId,
      jsFalsy s.group_id = false → groupKey s ≠ r.id) :
    (prereqRows table courseId = [] →
      checkPrerequisitesMet table courseId completed = (true, [])) ∧
    (checkPrerequisitesMet table courseId completed).1 =
      specMet (prereqRows table courseId) completed ∧
    (checkPrerequisitesMet table courseId completed).2.length =
      specUnmetCount (prereqRows table courseId) completed := by
  obtain ⟨hkeys, hcover, halts, hlogic, hnodup⟩ :=
    buildGroups_inv (prereqRows table courseId)
  have hbridge := classSat_bridge (prereqRows table courseId) completed hids hdisj
  have hcount : ((buildGroups (prereqRows table courseId)).filter
      (fun g => !groupSat completed g)).length =
      specUnmetCount (prereqRows table courseId) completed := by
    rw [← List.countP_eq_length_filter]
    have h1 : (buildGroups (prereqRows table courseId)).countP
        (fun g => !groupSat completed g) =
        (buildGroups (prereqRows table courseId)).countP
        (fun g => !specClassSat completed (classOf (prereqRows table courseId) g.1)) := by
      refine List.countP_congr ?_
      intro g hg
      rw [← hbridge g hg, halts g hg]
    have h2 : (buildGroups (prereqRows table courseId)).countP
        (fun g => !specClassSat completed (classOf (prereqRows table courseId) g.1)) =
        ((buildGroups (prereqRows table courseId)).map (fun g => g.1)).countP
        (fun k => !specClassSat completed (classOf (prereqRows table courseId) k)) := by
      rw [List.countP_map]
      rfl
    have hperm : ((buildGroups (prereqRows table courseId)).map (fun g => g.1)).Perm
        (specKeys (prereqRows table courseId)) := by
      refine (List.perm_ext_iff_of_nodup hnodup (List.nodup_dedup _)).mpr ?_
      intro k
      constructor
      · intro hk
        obtain ⟨g, hg, rfl⟩ := List.mem_map.mp hk
        obtain ⟨r, hr, hkey⟩ := hkeys g hg
        simp only [specKeys, List.mem_dedup]
        exact List.mem_map.mpr ⟨r, hr, hkey⟩
      · intro hk
        simp only [specKeys, List.mem_dedup] at hk
        obtain ⟨r, hr, rfl⟩ := List.mem_map.mp hk
        obtain ⟨g, hg, hgk⟩ := hcover r hr
        exact List.mem_map.mpr ⟨g, hg, hgk⟩
    rw [h1, h2, hperm.countP_eq]
    rfl
  by_cases hnil : prereqRows table courseId = []
  · refine ⟨fun _ => ?_, ?_, ?_⟩
    · rw [checkPrerequisitesMet_eq, if_pos hnil]
    · rw [checkPrerequisitesMet_eq, if_pos hnil]
      simp [specMet, specKeys, hnil]
    · rw [checkPrerequisitesMet_eq, if_pos hnil]
      simp [specUnmetCount, specKeys, hnil]
  · refine ⟨fun h => absurd h hnil, ?_, ?_⟩
    · rw [checkPrerequisitesMet_eq, if_neg hnil]
      show decide _ = _
      rw [List.length_map, hcount]
      rw [specUnmetCount, specMet]
      cases hall : (specKeys (prereqRows table courseId)).all
          (fun k => specClassSat completed (classOf (prereqRows table courseId) k)) with
      | true =>
        rw [decide_eq_true_eq.mpr]
        rw [List.countP_eq_zero]
        intro k hk
        simp only [Bool.not_eq_true']
        rw [Bool.not_eq_false]
        exact List.all_eq_true.mp hall k hk
      | false =>
        rw [decide_eq_false]
        intro hzero
        rw [List.countP_eq_zero] at hzero
        rw [← Bool.not_eq_true, List.all_eq_true] at hall
        refine hall ?_
        intro k hk
        have := hzero k hk
        simpa using this
    · rw [checkPrerequisitesMet_eq, if_neg hnil]
      show (List.map groupDesc _).length = _
      rw [List.length_map, hcount]

/-- Witness for `c2_prerequisite_evaluation` on a concrete two-group table:
an AND group `{A, B}` with only `A` completed is unmet, while a no-group row
forms its own OR singleton. -/
theorem c2_prerequisite_evaluation_witness :
    (prereqRows
        [{ mkRelQ "u1" (some "A") with group_id := some "g1", logic_type := some "AND" },
         { mkRelQ "u2" (some "B") with group_id := some "g1", logic_type := some "AND" },
         mkRelQ "u3" (some "C")] 1 = [] →
      checkPrerequisitesMet
        [{ mkRelQ "u1" (some "A") with group_id := some "g1", logic_type := some "AND" },
         { mkRelQ "u2" (some "B") with group_id := some "g1", logic_type := some "AND" },
         mkRelQ "u3" (some "C")] 1 ["A", "C"] = (true, [])) ∧
    (checkPrerequisitesMet
        [{ mkRelQ "u1" (some "A") with group_id := some "g1", logic_type := some "AND" },
         { mkRelQ "u2" (some "B") with group_id := some "g1", logic_type := some "AND" },
         mkRelQ "u3" (some "C")] 1 ["A", "C"]).1 =
      specMet (prereqRows
        [{ mkRelQ "u1" (some "A") with group_id := some "g1", logic_type := some "AND" },
         { mkRelQ "u2" (some "B") with group_id := some "g1", logic_type := some "AND" },
         mkRelQ "u3" (some "C")] 1) ["A", "C"] ∧
    (checkPrerequisitesMet
        [{ mkRelQ "u1" (some "A") with group_id := some "g1", logic_type := some "AND" },
         { mkRelQ "u2" (some "B") with group_id := some "g1", logic_type := some "AND" },
         mkRelQ "u3" (some "C")] 1 ["A", "C"]).2.length =
      specUnmetCount (prereqRows
        [{ mkRelQ "u1" (some "A") with group_id := some "g1", logic_type := some "AND" },
         { mkRelQ "u2" (some "B") with group_id := some "g1", logic_type := some "AND" },
         mkRelQ "u3" (some "C")] 1) ["A", "C"] :=
  c2_prerequisite_evaluation _ 1 ["A", "C"] (by decide) (by decide)

/-- C7 counterexample: the two catalogs hold exactly the same rows, yet the
reference `"007"` resolves to course 1 in one and course 2 in the other
(the latter also not being the lexicographically smallest match), so the
prefix fallback does not pick its result in a stable, deterministic order. -/
theorem c7_counterexample :
    (∀ c : Course, c ∈ c7t1 ↔ c ∈ c7t2) ∧
    resolveCourseCodeAdmin c7t1 "007" = some 1 ∧
    resolveCourseCodeAdmin c7t2 "007" = some 2 := by
  refine ⟨fun c => ?_, by decide, by decide⟩
  simp only [c7t1, c7t2, List.mem_cons, List.not_mem_nil, or_false]
  tauto

theorem likeStar_of_nilMatch (f : List Char → Bool) (hf : f [] = true) :
    ∀ l : List Char, likeStar f l = true := by
  intro l
  induction l with
  | nil => simpa [likeStar] using hf
  | cons c s ih => simp [likeStar, ih]

theorem likeMatchL_append_percent (ps l : List Char)
    (h : ps.all (fun ch => ch ≠ '%' && ch ≠ '_') = true) :
    likeMatchL (ps ++ ['%']) l = ps.isPrefixOf l := by
  induction ps generalizing l with
  | nil =>
    simp only [List.nil_append, likeMatchL, List.isPrefixOf, if_true]
    exact likeStar_of_nilMatch _ rfl l
  | cons p ps ih =>
    rw [List.all_cons, Bool.and_eq_true] at h
    obtain ⟨hp2, hps⟩ := h
    simp only [Bool.and_eq_true, decide_eq_true_eq] at hp2
    obtain ⟨hp, hu⟩ := hp2
    cases l with
    | nil =>
      simp [likeMatchL, List.isPrefixOf, hp, hu]
    | cons c s =>
      by_cases hc : p = c
      · subst hc
        simp [likeMatchL, List.isPrefixOf, hp, hu, ih s hps]
      · simp [likeMatchL, List.isPrefixOf, hp, hu, hc, Ne.symm hc]

theorem sqlLike_percent_startsWith (ref code : String)
    (h : noLikeWildcards ref = true) :
    sqlLike (ref ++ "%") code = strStartsWith code ref := by
  have hl : (ref ++ "%").toList = ref.toList ++ ['%'] := by
    simp [String.toList]
  rw [sqlLike, hl, strStartsWith]
  apply likeMatchL_append_percent
  simp only [noLikeWildcards, List.all_eq_true] at h ⊢
  intro ch hch
  have := h ch hch
  simp only [Bool.and_eq_true] at this ⊢
  exact ⟨this.1.1, this.1.2⟩

/-- C7 amended: (1) exact, case-sensitive equality on `externalCode` takes
precedence; (2) otherwise the fallback is a SQL `LIKE ref%` match — which for
references free of `LIKE` metacharacters is exactly "code starts with the
reference" — returning the **first matching row in store order**, not a
choice made in a specified deterministic order; (3) if nothing matches the
resolution is `none`; and with codes `{"0075", "0075A"}` persisted, reference
`"0075"` always resolves to the `"0075"` row, in either store order. -/
theorem c7_amended_resolver_precedence (courses : List Course) (ref : String) :
    (∀ c, courses.find? (fun x => x.external_course_code = ref) = some c →
      resolveCourseCodeAdmin courses ref = some c.id) ∧
    (courses.find? (fun x => x.external_course_code = ref) = none →
      ∀ c, courses.find? (fun x => sqlLike (ref ++ "%") x.external_course_code) = some c →
        resolveCourseCodeAdmin courses ref = some c.id) ∧
    ((∀ c ∈ courses, c.external_course_code ≠ ref ∧
        sqlLike (ref ++ "%") c.external_course_code = false) →
      resolveCourseCodeAdmin courses ref = none) ∧
    (noLikeWildcards ref = true →
      ∀ code, sqlLike (ref ++ "%") code = strStartsWith code ref) ∧
    (∀ i j : Nat,
      resolveCourseCodeAdmin [mkCourse i "0075", mkCourse j "0075A"] "0075" = some i ∧
      resolveCourseCodeAdmin [mkCourse j "0075A", mkCourse i "0075"] "0075" = some i) := by
  refine ⟨?_, ?_, ?_, fun h code => sqlLike_percent_startsWith ref code h, ?_⟩
  · intro c hc
    simp [resolveCourseCodeAdmin, hc]
  · intro hnone c hc
    simp [resolveCourseCodeAdmin, hnone, hc]
  · intro hnomatch
    have h1 : courses.find? (fun x => x.external_course_code = ref) = none := by
      rw [List.find?_eq_none]
      intro c hc
      simp [(hnomatch c hc).1]
    have h2 : courses.find? (fun x => sqlLike (ref ++ "%") x.external_course_code) = none := by
      rw [List.find?_eq_none]
      intro c hc
      simp [(hnomatch c hc).2]
    simp [resolveCourseCodeAdmin, h1, h2]
  · intro i j
    constructor <;> simp [resolveCourseCodeAdmin, mkCourse, List.find?]

/-- Witness for `c7_amended_resolver_precedence`: the exact-match branch on a
concrete catalog and the no-match branch on the empty catalog. -/
theorem c7_amended_resolver_precedence_witness :
    resolveCourseCodeAdmin c7t1 "0075A" = some 1 ∧
    resolveCourseCodeAdmin [] "X" = none :=
  ⟨(c7_amended_resolver_precedence c7t1 "0075A").1 (mkCourse 1 "0075A") (by decide),
   (c7_amended_resolver_precedence [] "X").2.2.1 (by simp)⟩

/-! ## C10 — degenerate empty reference and `LIKE` metacharacters -/

/-- C10: with a non-empty catalog of non-empty codes, repairing a
relationship with the empty-string reference resolves through the pattern
`'%'` to the first course in store order — the row's `related_course_id` is
set to that course's id (not left null) while `related_course_code` is stored
as `NULL` (`courseCode || null`); and a reference containing `LIKE`
metacharacters can resolve to a course whose code does not start with it
(`"0_75"` resolves to the course with code `"0975A"`). -/
theorem c10_empty_reference_wildcards (courses : List Course) (rels : List RelQRow)
    (relationshipId : String) :
    (courses ≠ [] → (∀ c ∈ courses, c.external_course_code ≠ "") →
      ∃ cid, resolveCourseCodeAdmin courses "" = some cid ∧
        (∃ c ∈ courses, c.id = cid) ∧
        ∀ r ∈ updateRelationshipCourseCode courses rels relationshipId "",
          r.id = relationshipId →
            r.related_course_id = some cid ∧ r.related_course_code = none) ∧
    (resolveCourseCodeAdmin [mkCourse 1 "0975A"] "0_75" = some 1 ∧
      strStartsWith "0975A" "0_75" = false) := by
  constructor
  · intro hne hcodes
    cases courses with
    | nil => exact absurd rfl hne
    | cons c0 cs =>
      have hlike : ∀ s : String, sqlLike "%" s = true := by
        intro s
        have hToL : ("%" : String).toList = ['%'] := by decide
        rw [sqlLike, hToL]
        simp only [likeMatchL, if_true]
        exact likeStar_of_nilMatch _ rfl _
      have h1 : List.find? (fun c => decide (c.external_course_code = "")) cs = none := by
        rw [List.find?_eq_none]
        intro c hc
        simp [hcodes c (List.mem_cons_of_mem _ hc)]
      have hres : resolveCourseCodeAdmin (c0 :: cs) "" = some c0.id := by
        simp [resolveCourseCodeAdmin, List.find?, hlike,
          hcodes c0 (List.mem_cons_self _ _), h1]
      refine ⟨c0.id, hres, ⟨c0, List.mem_cons_self c0 cs, rfl⟩, ?_⟩
      intro r hr hid
      rw [updateRelationshipCourseCode] at hr
      obtain ⟨r0, _, hr0⟩ := List.mem_map.mp hr
      by_cases h : r0.id = relationshipId
      · rw [if_pos h] at hr0
        rw [← hr0]
        simp [jsOrNull, hres]
      · rw [if_neg h] at hr0
        rw [← hr0] at hid
        exact absurd hid h
  · exact ⟨by decide, by decide⟩

/-- C1 counterexample: the snapshot alternative carries the raw reference
`"X"`, yet the single row Pass 2 inserts has `related_course_code = NULL`
(the reference is **not** stored on the row), while its description is
preserved and `related_course_id` is null. -/
theorem c1_counterexample :
    (c1entry.prerequisites.flatMap (fun g => g.alternatives)).map (fun a => a.course_code)
      = [some "X"] ∧
    c1resultDB.course_relationships.map
      (fun r => (r.related_course_code, r.related_course_id, r.description))
      = [(none, none, some "desc")] := by
  decide

theorem mkRelRowsFrom_sound (map : List (String × Nat)) (cid : Nat)
    (ty gp : String) :
    ∀ (gi : Nat) (groups : List ReqGroup),
      ∀ r ∈ mkRelRowsFrom map cid ty gp gi groups,
        r.related_course_code = none ∧ r.course_id = cid ∧
        r.relationship_type = ty ∧
        ∃ g ∈ groups, ∃ alt ∈ g.alternatives,
          r.description = alt.text ∧
          r.related_course_id = alt.course_code.bind (mapGet map) := by
  intro gi groups
  induction groups generalizing gi with
  | nil => intro r hr; simp [mkRelRowsFrom] at hr
  | cons grp rest ih =>
    intro r hr
    rw [mkRelRowsFrom, List.mem_append] at hr
    rcases hr with hr | hr
    · obtain ⟨alt, halt, rfl⟩ := List.mem_map.mp hr
      exact ⟨rfl, rfl, rfl, grp, List.mem_cons_self _ _, alt, halt, rfl, rfl⟩
    · obtain ⟨h1, h2, h3, g, hg, alt, halt, h4, h5⟩ := ih (gi + 1) r hr
      exact ⟨h1, h2, h3, g, List.mem_cons_of_mem _ hg, alt, halt, h4, h5⟩

theorem mkRelRowsFrom_complete (map : List (String × Nat)) (cid : Nat)
    (ty gp : String) :
    ∀ (gi : Nat) (groups : List ReqGroup),
      ∀ g ∈ groups, ∀ alt ∈ (g : ReqGroup).alternatives,
        ∃ r ∈ mkRelRowsFrom map cid ty gp gi groups,
          r.related_course_code = none ∧ r.description = alt.text ∧
          r.related_course_id = alt.course_code.bind (mapGet map) := by
  intro gi groups
  induction groups generalizing gi with
  | nil => intro g hg; simp at hg
  | cons grp rest ih =>
    intro g hg alt halt
    rcases List.mem_cons.mp hg with rfl | hg
    · exact ⟨mkRelRow map cid ty gp gi g.requires_all alt,
        List.mem_append_left _ (List.mem_map_of_mem _ halt), rfl, rfl, rfl⟩
    · obtain ⟨r, hr, h⟩ := ih (gi + 1) g hg alt halt
      exact ⟨r, List.mem_append_right _ hr, h⟩

/-- C1 amended: for every mapped snapshot entry, Pass 2 replaces the course's
relationship rows with one inserted row per prerequisite/corequisite
alternative; every inserted row preserves the alternative's free-text
description and carries `related_course_id` resolved by exact lookup in the
Pass-1 map (null when there is no exact match — the row is still inserted),
but `related_course_code` is **not** stored: it is `NULL` on every row the
importer inserts. -/
theorem c1_amended_relationship_rows (map : List (String × Nat))
    (c : SnapshotEntry) (acc : DB × Stats) (cid : Nat)
    (hmap : mapGet map c.course_id = some cid) :
    (processEntryP2 map c acc).1.course_relationships =
      acc.1.course_relationships.filter (fun r => r.course_id ≠ cid) ++
        (mkRelRows map cid "prerequisite" "prereq_group_" c.prerequisites ++
          mkRelRows map cid "corequisite" "coreq_group_" c.corequisites) ∧
    (∀ ty gp groups, ∀ r ∈ mkRelRows map cid ty gp groups,
      r.related_course_code = none ∧
        ∃ g ∈ groups, ∃ alt ∈ (g : ReqGroup).alternatives,
          r.description = alt.text ∧
          r.related_course_id = alt.course_code.bind (mapGet map)) ∧
    (∀ ty gp groups, ∀ g ∈ groups, ∀ alt ∈ (g : ReqGroup).alternatives,
      ∃ r ∈ mkRelRows map cid ty gp groups,
        r.related_course_code = none ∧ r.description = alt.text ∧
          r.related_course_id = alt.course_code.bind (mapGet map)) := by
  refine ⟨?_, ?_, ?_⟩
  · rw [processEntryP2, hmap]
  · intro ty gp groups r hr
    obtain ⟨h1, _, _, h⟩ := mkRelRowsFrom_sound map cid ty gp 0 groups r hr
    exact ⟨h1, h⟩
  · intro ty gp groups g hg alt halt
    exact mkRelRowsFrom_complete map cid ty gp 0 groups g hg alt halt

/-- Witness for `c1_amended_relationship_rows` on a concrete map, entry and
accumulator. -/
theorem c1_amended_relationship_rows_witness :
    (processEntryP2 [("A", 1)] c1entry (emptyDB, initStats 1)).1.course_relationships =
      (emptyDB : DB).course_relationships.filter (fun r => r.course_id ≠ 1) ++
        (mkRelRows [("A", 1)] 1 "prerequisite" "prereq_group_" c1entry.prerequisites ++
          mkRelRows [("A", 1)] 1 "corequisite" "coreq_group_" c1entry.corequisites) ∧
    (∀ ty gp groups, ∀ r ∈ mkRelRows [("A", 1)] 1 ty gp groups,
      r.related_course_code = none ∧
        ∃ g ∈ groups, ∃ alt ∈ (g : ReqGroup).alternatives,
          r.description = alt.text ∧
          r.related_course_id = alt.course_code.bind (mapGet [("A", 1)])) ∧
    (∀ ty gp groups, ∀ g ∈ groups, ∀ alt ∈ (g : ReqGroup).alternatives,
      ∃ r ∈ mkRelRows [("A", 1)] 1 ty gp groups,
        r.related_course_code = none ∧ r.description = alt.text ∧
          r.related_course_id = alt.course_code.bind (mapGet [("A", 1)])) :=
  c1_amended_relationship_rows [("A", 1)] c1entry (emptyDB, initStats 1) 1 (by decide)

/-- Witness for `c10_empty_reference_wildcards` on a one-course catalog and a
one-row relationship table. -/
theorem c10_empty_reference_wildcards_witness :
    ∃ cid, resolveCourseCodeAdmin [mkCourse 1 "0975A"] "" = some cid ∧
      (∃ c ∈ [mkCourse 1 "0975A"], c.id = cid) ∧
      ∀ r ∈ updateRelationshipCourseCode [mkCourse 1 "0975A"] [mkRelQ "r1" none] "r1" "",
        r.id = "r1" → r.related_course_id = some cid ∧ r.related_course_code = none :=
  (c10_empty_reference_wildcards [mkCourse 1 "0975A"] [mkRelQ "r1" none] "r1").1
    (by decide) (by decide)

theorem processEntryP1_stats_acc (failWrite : Nat → Bool) (i : Nat) (e : SnapshotEntry)
    (st : P1State) :
    (processEntryP1 failWrite i e st).stats.errors =
      st.stats.errors + (if failWrite i then 1 else 0) ∧
    (processEntryP1 failWrite i e st).stats.errorDetails =
      st.stats.errorDetails ++ (if failWrite i then [p1ErrorDetail e] else []) := by
  cases hfw : failWrite i with
  | true =>
    rw [processEntryP1_fail_eq failWrite i e st hfw, if_pos rfl, if_pos rfl]
    exact ⟨rfl, rfl⟩
  | false =>
    rw [processEntryP1_noFail_eq failWrite i e st hfw,
      if_neg (by exact Bool.false_ne_true), if_neg (by exact Bool.false_ne_true)]
    show (childSync _ e _ _).2.errors = _ ∧ (childSync _ e _ _).2.errorDetails = _
    rw [(childSync_stats_errors ..).1, (childSync_stats_errors ..).2,
      (upsertCourse_stats_errors ..).1, (upsertCourse_stats_errors ..).2,
      Nat.add_zero, List.append_nil]
    exact ⟨rfl, rfl⟩

theorem p1fold_stats (failWrite : Nat → Bool) :
    ∀ (l : List (Nat × SnapshotEntry)) (st : P1State),
      (l.foldl (p1step failWrite) st).stats.errors =
        st.stats.errors + (l.filter (fun p => failWrite p.1)).length ∧
      (l.foldl (p1step failWrite) st).stats.errorDetails =
        st.stats.errorDetails ++
          (l.filter (fun p => failWrite p.1)).map (fun p => p1ErrorDetail p.2) := by
  intro l
  induction l with
  | nil => intro st; exact ⟨rfl, (List.append_nil _).symm⟩
  | cons p rest ih =>
    intro st
    rw [List.foldl_cons]
    obtain ⟨ih1, ih2⟩ := ih (p1step failWrite st p)
    obtain ⟨hs1, hs2⟩ := processEntryP1_stats_acc failWrite p.1 p.2 st
    have hp1 : (p1step failWrite st p).stats.errors =
        st.stats.errors + (if failWrite p.1 then 1 else 0) := hs1
    have hp2 : (p1step failWrite st p).stats.errorDetails =
        st.stats.errorDetails ++ (if failWrite p.1 then [p1ErrorDetail p.2] else []) := hs2
    cases hfw : failWrite p.1 with
    | true =>
      rw [hfw, if_pos rfl] at hp1
      rw [hfw, if_pos rfl] at hp2
      have hfil : List.filter (fun p : Nat × SnapshotEntry => failWrite p.1) (p :: rest) =
          p :: List.filter (fun p : Nat × SnapshotEntry => failWrite p.1) rest := by
        rw [List.filter_cons]
        simp [hfw]
      constructor
      · rw [ih1, hp1, hfil, List.length_cons]
        omega
      · rw [ih2, hp2, hfil, List.map_cons, List.append_assoc]
        rfl
    | false =>
      rw [hfw, if_neg (by exact Bool.false_ne_true), Nat.add_zero] at hp1
      rw [hfw, if_neg (by exact Bool.false_ne_true), List.append_nil] at hp2
      have hfil : List.filter (fun p : Nat × SnapshotEntry => failWrite p.1) (p :: rest) =
          List.filter (fun p : Nat × SnapshotEntry => failWrite p.1) rest := by
        rw [List.filter_cons]
        simp [hfw]
      constructor
      · rw [ih1, hp1, hfil]
      · rw [ih2, hp2, hfil]

/-- C8: per-course store errors are caught and counted, a detail carrying the
offending entry's code is appended per failure, every non-failing entry is
still processed to completion (its course row ends offered), and only missing
credentials abort the cycle, with nothing written. -/
theorem c8_failure_semantics (cfg : Config) (failWrite : Nat → Bool)
    (db : DB) (snap : List SnapshotEntry) (db' : DB) (stats' : Stats)
    (hinv : DBInv db)
    (hrun : importCoursesFromJson (some cfg) failWrite db snap = .ok (db', stats')) :
    importCoursesFromJson none failWrite db snap =
      .error "SUPABASE_URL and SUPABASE_SERVICE_ROLE_KEY environment variables are required" ∧
    stats'.errors = ((snap.enum).filter (fun p => failWrite p.1)).length ∧
    stats'.errorDetails =
      ((snap.enum).filter (fun p => failWrite p.1)).map (fun p => p1ErrorDetail p.2) ∧
    (∀ i e, (i, e) ∈ snap.enum → failWrite i = false →
      ∀ c' ∈ db'.courses, c'.external_course_code = e.course_id →
        c'.is_offered = true) := by
  have h := hrun
  rw [import_ok_eq] at h
  have hp : (pass2 (pass1 failWrite snap (pass0 snap db (initStats snap.length)).1
        (pass0 snap db (initStats snap.length)).2).map snap
      (pass1 failWrite snap (pass0 snap db (initStats snap.length)).1
        (pass0 snap db (initStats snap.length)).2).db
      (pass1 failWrite snap (pass0 snap db (initStats snap.length)).1
        (pass0 snap db (initStats snap.length)).2).stats) = (db', stats') := by
    injection h
  have hdb' : db' = (pass2 (pass1 failWrite snap (pass0 snap db (initStats snap.length)).1
        (pass0 snap db (initStats snap.length)).2).map snap
      (pass1 failWrite snap (pass0 snap db (initStats snap.length)).1
        (pass0 snap db (initStats snap.length)).2).db
      (pass1 failWrite snap (pass0 snap db (initStats snap.length)).1
        (pass0 snap db (initStats snap.length)).2).stats).1 := by
    rw [hp]
  have hstats' : stats' = (pass2 (pass1 failWrite snap
        (pass0 snap db (initStats snap.length)).1
        (pass0 snap db (initStats snap.length)).2).map snap
      (pass1 failWrite snap (pass0 snap db (initStats snap.length)).1
        (pass0 snap db (initStats snap.length)).2).db
      (pass1 failWrite snap (pass0 snap db (initStats snap.length)).1
        (pass0 snap db (initStats snap.length)).2).stats).2 := by
    rw [hp]
  refine ⟨rfl, ?_, ?_, ?_⟩
  · rw [hstats', (pass2_stats_errors ..).1, pass1_eq_foldl, (p1fold_stats ..).1]
    show (pass0 snap db (initStats snap.length)).2.errors + _ = _
    rw [(pass0_stats_errors ..).1]
    show (0 : Nat) + _ = _
    rw [Nat.zero_add]
  · rw [hstats', (pass2_stats_errors ..).2, pass1_eq_foldl, (p1fold_stats ..).2]
    show (pass0 snap db (initStats snap.length)).2.errorDetails ++ _ = _
    rw [(pass0_stats_errors ..).2]
    rfl
  · intro i e hie hfw
    have hinv0 : DBInv (pass0 snap db (initStats snap.length)).1 :=
      pass0_dbinv snap db (initStats snap.length) hinv
    obtain ⟨pre, suf, hsplit, heq⟩ :=
      pass1_decompose failWrite snap (pass0 snap db (initStats snap.length)).1
        (pass0 snap db (initStats snap.length)).2 hie
    have hinvmid : DBInv (pre.foldl (p1step failWrite)
        { db := (pass0 snap db (initStats snap.length)).1, map := [],
          stats := (pass0 snap db (initStats snap.length)).2 }).db := by
      refine foldl_pres _ (fun st : P1State => DBInv st.db) _ _ hinv0 ?_
      intro st p _ hq
      exact (processEntryP1_dbinv failWrite p.1 p.2 st hq).1
    have heff : QoffDB e.course_id (processEntryP1 failWrite i e
        (pre.foldl (p1step failWrite)
          { db := (pass0 snap db (initStats snap.length)).1, map := [],
            stats := (pass0 snap db (initStats snap.length)).2 })).db :=
      processEntryP1_off_effect failWrite i e _ hfw hinvmid
    have hfin : QoffDB e.course_id (pass1 failWrite snap
        (pass0 snap db (initStats snap.length)).1
        (pass0 snap db (initStats snap.length)).2).db := by
      rw [heq]
      refine foldl_pres _ (fun st : P1State => QoffDB e.course_id st.db) _ _ heff ?_
      intro st p _ hq
      exact processEntryP1_pres_off failWrite p.1 p.2 st e.course_id hq
    intro c' hc' hX
    rw [hdb', pass2_courses] at hc'
    exact hfin c' hc' hX

/-- Witness for `c8_failure_semantics`: with the second of two writes failing,
the cycle reports one error naming code "B" and the first entry's course is
still offered; without credentials the cycle aborts. -/
theorem c8_failure_semantics_witness :
    importCoursesFromJson none failAt1 c8db0 [mkEntry "A", mkEntry "B"] =
      .error "SUPABASE_URL and SUPABASE_SERVICE_ROLE_KEY environment variables are required" ∧
    (c8run).2.errors =
      ((([mkEntry "A", mkEntry "B"] : List SnapshotEntry).enum).filter
        (fun p => failAt1 p.1)).length ∧
    (c8run).2.errorDetails =
      ((([mkEntry "A", mkEntry "B"] : List SnapshotEntry).enum).filter
        (fun p => failAt1 p.1)).map (fun p => p1ErrorDetail p.2) ∧
    (∀ i e, (i, e) ∈ ([mkEntry "A", mkEntry "B"] : List SnapshotEntry).enum →
      failAt1 i = false →
      ∀ c' ∈ (c8run).1.courses, c'.external_course_code = e.course_id →
        c'.is_offered = true) :=
  c8_failure_semantics cfg0 failAt1 c8db0 [mkEntry "A", mkEntry "B"]
    (c8run).1 (c8run).2
    (by refine ⟨?_, ?_, ?_, ?_, ?_, ?_, ?_, ?_⟩ <;> decide)
    rfl

theorem tagBlock_cid (cid : Nat) (ents : List TagEntry) :
    ∀ row ∈ tagBlock cid ents, row.course_id = cid := by
  refine tagFold_mem cid (fun row => row.course_id = cid) (fun _ h => h) ents _ ?_
  intro t ht
  exact absurd ht (List.not_mem_nil t)

theorem filter_filter_none {α : Type _} (p q : α → Bool) (l : List α)
    (h : ∀ a, q a = true → p a = false) :
    (l.filter q).filter p = [] := by
  induction l with
  | nil => rfl
  | cons a t ih =>
    rw [List.filter_cons]
    cases hq : q a with
    | false =>
      rw [if_neg (by exact Bool.false_ne_true)]
      exact ih
    | true =>
      rw [if_pos rfl, List.filter_cons, h a hq, if_neg (by exact Bool.false_ne_true)]
      exact ih

theorem filter_filter_imp {α : Type _} (p q : α → Bool) (l : List α)
    (h : ∀ a, p a = true → q a = true) :
    (l.filter q).filter p = l.filter p := by
  induction l with
  | nil => rfl
  | cons a t ih =>
    rw [List.filter_cons]
    cases hq : q a with
    | true =>
      rw [if_pos rfl, List.filter_cons, List.filter_cons, ih]
    | false =>
      have hp : p a = false := by
        cases hp : p a with
        | true => exact absurd (h a hp) (by rw [hq]; exact Bool.false_ne_true)
        | false => rfl
      rw [if_neg (by exact Bool.false_ne_true), List.filter_cons, hp,
        if_neg (by exact Bool.false_ne_true), ih]

/-- Rows of other courses sit inertly below the insert loop: they are kept
verbatim and never trigger the per-course `UNIQUE(course_id, tag)` conflict
check. -/
theorem tagFold_append (cid : Nat) :
    ∀ (ents : List TagEntry) (l bs : List TagRow) (n m : Nat),
      (∀ r ∈ l, r.course_id ≠ cid) → (∀ r ∈ bs, r.course_id = cid) →
      (ents.foldl (tagStep cid) (l ++ bs, n)).1 =
        l ++ (ents.foldl (tagStep cid) (bs, m)).1 := by
  intro ents
  induction ents with
  | nil => intro l bs n m _ _; rfl
  | cons tg rest ih =>
    intro l bs n m hl hbs
    rw [List.foldl_cons, List.foldl_cons]
    by_cases hsk : shouldSkipTag tg.symbol = true
    · have h1 : tagStep cid (l ++ bs, n) tg = (l ++ bs, n) := by
        rw [tagStep, if_pos hsk]
      have h2 : tagStep cid (bs, m) tg = (bs, m) := by
        rw [tagStep, if_pos hsk]
      rw [h1, h2]
      exact ih l bs n m hl hbs
    · have hanyl : l.any (fun t =>
          t.course_id = cid && t.tag = tg.symbol) = false := by
        rw [List.any_eq_false]
        intro r hr
        simp only [Bool.and_eq_true, decide_eq_true_eq, not_and]
        intro hc
        exact absurd hc (hl r hr)
      cases hc : bs.any (fun t => t.course_id = cid && t.tag = tg.symbol) with
      | true =>
        have h1 : tagStep cid (l ++ bs, n) tg = (l ++ bs, n) := by
          rw [tagStep, if_neg hsk]
          have : (l ++ bs).any (fun t => t.course_id = cid && t.tag = tg.symbol) = true := by
            rw [List.any_append, hc, Bool.or_true]
          simp [insertTagRow, this]
        have h2 : tagStep cid (bs, m) tg = (bs, m) := by
          rw [tagStep, if_neg hsk]
          simp [insertTagRow, hc]
        rw [h1, h2]
        exact ih l bs n m hl hbs
      | false =>
        have h1 : tagStep cid (l ++ bs, n) tg =
            (l ++ (bs ++ [{ course_id := cid, tag := tg.symbol, tag_uuid := tg.uuid }]),
              n + 1) := by
          rw [tagStep, if_neg hsk]
          have : (l ++ bs).any (fun t => t.course_id = cid && t.tag = tg.symbol) = false := by
            rw [List.any_append, hanyl, hc]
            rfl
          simp [insertTagRow, this]
        have h2 : tagStep cid (bs, m) tg =
            (bs ++ [{ course_id := cid, tag := tg.symbol, tag_uuid := tg.uuid }],
              m + 1) := by
          rw [tagStep, if_neg hsk]
          simp [insertTagRow, hc]
        rw [h1, h2]
        refine ih l _ (n + 1) (m + 1) hl ?_
        intro r hr
        rcases List.mem_append.mp hr with hr | hr
        · exact hbs r hr
        · have : r = { course_id := cid, tag := tg.symbol, tag_uuid := tg.uuid } := by
            simpa using hr
          rw [this]

theorem syncTags_list_eq (cid : Nat) (ents : List TagEntry) (db : DB) (stats : Stats)
    (hne : ents ≠ []) :
    (syncTags cid ents db stats).1.course_tags =
      db.course_tags.filter (fun t => t.course_id ≠ cid) ++ tagBlock cid ents := by
  rw [syncTags]
  split
  · show (ents.foldl (tagStep cid)
        (db.course_tags.filter (fun t => t.course_id ≠ cid), 0)).1 = _
    have h := tagFold_append cid ents
      (db.course_tags.filter (fun t => t.course_id ≠ cid)) [] 0 0
      (fun r hr => by simpa using List.of_mem_filter hr)
      (fun r hr => absurd hr (List.not_mem_nil r))
    rw [List.append_nil] at h
    rw [h]
    rfl
  · next hlen => exact absurd (List.length_pos.mpr hne) hlen

theorem syncTags_filter_self (cid : Nat) (ents : List TagEntry) (db : DB) (stats : Stats)
    (hne : ents ≠ []) :
    (syncTags cid ents db stats).1.course_tags.filter (fun r => r.course_id = cid) =
      tagBlock cid ents := by
  rw [syncTags_list_eq cid ents db stats hne, List.filter_append]
  rw [filter_filter_none (fun r => r.course_id = cid) (fun t => t.course_id ≠ cid)
    db.course_tags (fun a ha => by simp at ha ⊢; exact ha)]
  rw [List.nil_append]
  exact List.filter_eq_self.mpr (fun row hrow => by
    simpa using tagBlock_cid cid ents row hrow)

theorem syncTags_filter_other (cid' : Nat) (ents : List TagEntry) (db : DB)
    (stats : Stats) (cid : Nat) (hne : cid' ≠ cid) :
    (syncTags cid' ents db stats).1.course_tags.filter (fun r => r.course_id = cid) =
      db.course_tags.filter (fun r => r.course_id = cid) := by
  cases hents : ents with
  | nil =>
    rw [syncTags]
    split
    · exact absurd (by assumption) (by simp)
    · rfl
  | cons a t =>
    rw [← hents, syncTags_list_eq cid' ents db stats (by rw [hents]; exact List.cons_ne_nil a t)]
    rw [List.filter_append]
    rw [filter_filter_imp (fun r => r.course_id = cid) (fun t => t.course_id ≠ cid')
      db.course_tags (fun a ha => by
        simp only [decide_eq_true_eq] at ha
        simp only [ne_eq, decide_eq_true_eq, decide_not, Bool.not_eq_true',
          decide_eq_false_iff_not]
        intro h
        exact hne (h.symm.trans ha))]
    have hblk : (tagBlock cid' ents).filter (fun r => r.course_id = cid) = [] := by
      rw [List.filter_eq_nil_iff]
      intro r hr
      have := tagBlock_cid cid' ents r hr
      simp only [decide_eq_true_eq]
      rw [this]
      exact hne
    rw [hblk, List.append_nil]

theorem childSync_tags_eq (cid : Nat) (c : SnapshotEntry) (db : DB) (stats : Stats) :
    (childSync cid c db stats).1.course_tags =
      (syncTags cid c.tags db stats).1.course_tags := by
  rw [childSync, syncVariants_tags, syncElig_tags]

/-- Which tag strings end up present for the course, as a function of the
entry's tags and the skip list. -/
theorem tagFold_exists (cid : Nat) (s : String) :
    ∀ (ents : List TagEntry) (acc : List TagRow × Nat),
      ((∃ row ∈ (ents.foldl (tagStep cid) acc).1, row.course_id = cid ∧ row.tag = s) ↔
        ((∃ row ∈ acc.1, row.course_id = cid ∧ row.tag = s) ∨
          ∃ tg ∈ ents, tg.symbol = s ∧ shouldSkipTag tg.symbol = false)) := by
  intro ents
  induction ents with
  | nil =>
    intro acc
    simp
  | cons tg rest ih =>
    intro acc
    rw [List.foldl_cons, ih (tagStep cid acc tg)]
    have hstep : (∃ row ∈ (tagStep cid acc tg).1, row.course_id = cid ∧ row.tag = s) ↔
        ((∃ row ∈ acc.1, row.course_id = cid ∧ row.tag = s) ∨
          (tg.symbol = s ∧ shouldSkipTag tg.symbol = false)) := by
      by_cases hsk : shouldSkipTag tg.symbol = true
      · rw [tagStep, if_pos hsk]
        constructor
        · exact Or.inl
        · rintro (h | ⟨-, hf⟩)
          · exact h
          · exact absurd hsk (by rw [hf]; exact Bool.false_ne_true)
      · have hskf : shouldSkipTag tg.symbol = false := Bool.eq_false_iff.mpr hsk
        have hrw : (tagStep cid acc tg).1 = (insertTagRow acc.1
            { course_id := cid, tag := tg.symbol, tag_uuid := tg.uuid }).1 := by
          rw [tagStep, if_neg hsk]
        rw [hrw]
        cases hc : acc.1.any (fun t => t.course_id = cid && t.tag = tg.symbol) with
        | true =>
          have hres : (insertTagRow acc.1
              { course_id := cid, tag := tg.symbol, tag_uuid := tg.uuid }).1 = acc.1 := by
            simp [insertTagRow, hc]
          rw [hres]
          constructor
          · exact Or.inl
          · rintro (h | ⟨hsym, -⟩)
            · exact h
            · obtain ⟨x, hx, hxp⟩ := List.any_eq_true.mp hc
              simp only [Bool.and_eq_true, decide_eq_true_eq] at hxp
              exact ⟨x, hx, hxp.1, by rw [hxp.2, hsym]⟩
        | false =>
          have hres : (insertTagRow acc.1
              { course_id := cid, tag := tg.symbol, tag_uuid := tg.uuid }).1 =
                acc.1 ++ [{ course_id := cid, tag := tg.symbol, tag_uuid := tg.uuid }] := by
            simp [insertTagRow, hc]
          rw [hres]
          constructor
          · rintro ⟨row, hrow, hprop⟩
            rcases List.mem_append.mp hrow with h | h
            · exact Or.inl ⟨row, h, hprop⟩
            · have hrl : row = { course_id := cid, tag := tg.symbol, tag_uuid := tg.uuid } := by
                simpa using h
              rw [hrl] at hprop
              exact Or.inr ⟨hprop.2, hskf⟩
          · rintro (⟨row, hrow, hprop⟩ | ⟨hsym, -⟩)
            · exact ⟨row, List.mem_append_left _ hrow, hprop⟩
            · exact ⟨_, List.mem_append_right _ (List.mem_singleton_self _), rfl, hsym⟩
    have hcons : (∃ x ∈ tg :: rest, x.symbol = s ∧ shouldSkipTag x.symbol = false) ↔
        ((tg.symbol = s ∧ shouldSkipTag tg.symbol = false) ∨
          ∃ x ∈ rest, x.symbol = s ∧ shouldSkipTag x.symbol = false) := by
      constructor
      · rintro ⟨x, hx, hp⟩
        rcases List.mem_cons.mp hx with h1 | h1
        · rw [h1] at hp
          exact Or.inl hp
        · exact Or.inr ⟨x, h1, hp⟩
      · rintro (hp | ⟨x, hx, hp⟩)
        · exact ⟨tg, List.mem_cons_self _ _, hp⟩
        · exact ⟨x, List.mem_cons_of_mem _ hx, hp⟩
    rw [hstep, hcons]
    exact or_assoc

/-- Processing an entry with a different code targets a different course id. -/
theorem upsertCourse_other_id (e' : SnapshotEntry) (db : DB) (stats : Stats)
    (cid : Nat) (X : String) (hcode : e'.course_id ≠ X)
    (hinv : DBInv db) (h : Q4course cid X db) :
    (upsertCourse e' db stats).2.1 ≠ cid := by
  obtain ⟨h1, ⟨r, hr, hrid, hrX⟩, h3⟩ := h
  rw [upsertCourse]
  cases hf : db.courses.find? (fun x => x.external_course_code = e'.course_id) with
  | some cF =>
    show cF.id ≠ cid
    intro hEq
    obtain ⟨hcFmem, hcFcode⟩ := find?_code_eq db e'.course_id cF hf
    have hcFr : cF = r :=
      List.inj_on_of_nodup_map hinv.idsNodup hcFmem hr (hEq.trans hrid.symm)
    exact hcode (by rw [← hcFcode, hcFr, hrX])
  | none =>
    show db.nextId ≠ cid
    exact fun hEq => absurd h3 (by rw [← hEq]; exact Nat.lt_irrefl _)

theorem processEntryP1_pres_q4 (failWrite : Nat → Bool) (i : Nat) (e' : SnapshotEntry)
    (st : P1State) (cid : Nat) (X : String) (L : List TagRow)
    (hcode : e'.course_id ≠ X) (hinv : DBInv st.db)
    (h1 : Q4course cid X st.db) (h2 : Q4tags cid L st.db) :
    Q4course cid X (processEntryP1 failWrite i e' st).db ∧
    Q4tags cid L (processEntryP1 failWrite i e' st).db := by
  cases hfw : failWrite i with
  | true => rw [processEntryP1_fail_eq failWrite i e' st hfw]; exact ⟨h1, h2⟩
  | false =>
    rw [processEntryP1_noFail_eq failWrite i e' st hfw]
    have hne : (upsertCourse e' st.db st.stats).2.1 ≠ cid :=
      upsertCourse_other_id e' st.db st.stats cid X hcode hinv h1
    constructor
    · show Q4course cid X (childSync _ e' _ _).1
      rw [Q4course, childSync_courses, childSync_nextId]
      obtain ⟨k1, ⟨r, hr, hrid, hrX⟩, k3⟩ := h1
      have hnid : cid < (upsertCourse e' st.db st.stats).1.nextId :=
        Nat.lt_of_lt_of_le k3 (upsertCourse_nextId_le ..)
      revert hne hnid
      rw [upsertCourse]
      cases hf : st.db.courses.find? (fun x => x.external_course_code = e'.course_id) with
      | some cF =>
        intro hne hnid
        have hne' : cF.id ≠ cid := hne
        refine ⟨?_, ⟨_, List.mem_map_of_mem
          (fun x => if x.id = cF.id then applyCourseData e' x else x) hr, ?_, ?_⟩, hnid⟩
        · intro c' hc' hK
          obtain ⟨y, hy, hyc'⟩ := List.mem_map.mp hc'
          by_cases hyi : y.id = cF.id
          · rw [if_pos hyi] at hyc'
            rw [← hyc'] at hK
            exact absurd hK hcode
          · rw [if_neg hyi] at hyc'
            rw [← hyc']
            rw [← hyc'] at hK
            exact k1 y hy hK
        · rw [if_neg (fun h : r.id = cF.id => hne' (h.symm.trans hrid))]
          exact hrid
        · rw [if_neg (fun h : r.id = cF.id => hne' (h.symm.trans hrid))]
          exact hrX
      | none =>
        intro hne hnid
        refine ⟨?_, ⟨r, List.mem_append_left _ hr, hrid, hrX⟩, hnid⟩
        intro c' hc' hK
        rcases List.mem_append.mp hc' with hc' | hc'
        · exact k1 c' hc' hK
        · exfalso
          have hfc : c' = freshCourse e' st.db.nextId := by simpa using hc'
          rw [hfc] at hK
          exact hcode hK
    · show Q4tags cid L (childSync _ e' _ _).1
      rw [Q4tags, childSync_tags_eq]
      rw [syncTags_filter_other _ e'.tags _ _ cid hne]
      rw [upsertCourse_tags]
      exact h2

/-- The effect of processing the target entry without a write error, in terms
of the id the upsert settles on. -/
theorem processEntryP1_q4_effect (failWrite : Nat → Bool) (i : Nat) (e : SnapshotEntry)
    (st : P1State) (cid : Nat) (hfw : failWrite i = false) (hinv : DBInv st.db)
    (hcid : cid = (upsertCourse e st.db st.stats).2.1) :
    Q4course cid e.course_id (processEntryP1 failWrite i e st).db ∧
    (e.tags ≠ [] → Q4tags cid (tagBlock cid e.tags) (processEntryP1 failWrite i e st).db) ∧
    (e.tags = [] → ∀ L, Q4tags cid L st.db →
      Q4tags cid L (processEntryP1 failWrite i e st).db) := by
  rw [processEntryP1_noFail_eq failWrite i e st hfw]
  refine ⟨?_, ?_, ?_⟩
  · show Q4course cid e.course_id (childSync _ e _ _).1
    rw [Q4course, childSync_courses, childSync_nextId]
    revert hcid
    rw [upsertCourse]
    cases hf : st.db.courses.find? (fun x => x.external_course_code = e.course_id) with
    | some c0 =>
      intro hcid
      have hcid' : cid = c0.id := hcid
      obtain ⟨hc0mem, hc0code⟩ := find?_code_eq st.db e.course_id c0 hf
      refine ⟨?_, ⟨_, List.mem_map_of_mem
        (fun x => if x.id = c0.id then applyCourseData e x else x) hc0mem, ?_, ?_⟩, ?_⟩
      · intro c' hc' hK
        obtain ⟨y, hy, hyc'⟩ := List.mem_map.mp hc'
        by_cases hyi : y.id = c0.id
        · rw [if_pos hyi] at hyc'
          rw [← hyc', applyCourseData_id, hyi, hcid']
        · rw [if_neg hyi] at hyc'
          exfalso
          have hyX : y.external_course_code = e.course_id := by
            rw [← hyc'] at hK
            exact hK
          have hyc0 : y = c0 :=
            List.inj_on_of_nodup_map hinv.codesNodup hy hc0mem (hyX.trans hc0code.symm)
          exact hyi (by rw [hyc0])
      · rw [if_pos rfl, applyCourseData_id, hcid']
      · rw [if_pos rfl]
        rfl
      · rw [hcid']
        exact hinv.idsBound c0 hc0mem
    | none =>
      intro hcid
      have hcid' : cid = st.db.nextId := hcid
      refine ⟨?_, ⟨_, List.mem_append_right _ (List.mem_singleton_self _), ?_, ?_⟩, ?_⟩
      · intro c' hc' hK
        rcases List.mem_append.mp hc' with hc' | hc'
        · exfalso
          have := List.find?_eq_none.mp hf c' hc'
          simp only [decide_eq_true_eq] at this
          exact this hK
        · have hfc : c' = freshCourse e st.db.nextId := by simpa using hc'
          rw [hfc, hcid']
          rfl
      · rw [hcid']
        rfl
      · rfl
      · rw [hcid']
        exact Nat.lt_succ_self _
  · intro hne
    show Q4tags cid (tagBlock cid e.tags) (childSync _ e _ _).1
    rw [Q4tags, childSync_tags_eq, ← hcid]
    exact syncTags_filter_self cid e.tags _ _ hne
  · intro htags L hL
    show Q4tags cid L (childSync _ e _ _).1
    rw [Q4tags, childSync_tags_eq, ← hcid, htags]
    show ((upsertCourse e st.db st.stats).1.course_tags.filter _) = L
    rw [upsertCourse_tags]
    exact hL

/-- No course row carries code `X`; preserved by entries with other codes. -/
theorem processEntryP1_pres_nox (failWrite : Nat → Bool) (i : Nat) (e' : SnapshotEntry)
    (st : P1State) (X : String) (hcode : e'.course_id ≠ X)
    (h : ∀ c' ∈ st.db.courses, c'.external_course_code ≠ X) :
    ∀ c' ∈ (processEntryP1 failWrite i e' st).db.courses,
      c'.external_course_code ≠ X := by
  cases hfw : failWrite i with
  | true => rw [processEntryP1_fail_eq failWrite i e' st hfw]; exact h
  | false =>
    rw [processEntryP1_noFail_eq failWrite i e' st hfw]
    intro c' hc'
    rw [childSync_courses] at hc'
    rw [upsertCourse] at hc'
    revert hc'
    cases hf : st.db.courses.find? (fun x => x.external_course_code = e'.course_id) with
    | some cF =>
      intro hc'
      obtain ⟨y, hy, hyc'⟩ := List.mem_map.mp hc'
      by_cases hyi : y.id = cF.id
      · rw [if_pos hyi] at hyc'
        rw [← hyc']
        exact hcode
      · rw [if_neg hyi] at hyc'
        rw [← hyc']
        exact h y hy
    | none =>
      intro hc'
      rcases List.mem_append.mp hc' with hc' | hc'
      · exact h c' hc'
      · have hfc : c' = freshCourse e' st.db.nextId := by simpa using hc'
        rw [hfc]
        exact hcode

theorem pass0_q4_effect (data : List SnapshotEntry) (db : DB) (stats : Stats)
    (c0 : Course) (hc0 : c0 ∈ db.courses) (hinv : DBInv db) :
    Q4course c0.id c0.external_course_code (pass0 data db stats).1 ∧
    Q4tags c0.id (db.course_tags.filter (fun r => r.course_id = c0.id))
      (pass0 data db stats).1 := by
  constructor
  · refine ⟨?_, ?_, ?_⟩
    · intro c' hc' hK
      obtain ⟨y, hy, hyx⟩ := pass0_courses_shape data db stats c' hc'
      have hycode : y.external_course_code = c0.external_course_code := by
        rcases hyx with hx | hx <;> rw [hx] at hK <;> exact hK
      have hyc0 : y = c0 := List.inj_on_of_nodup_map hinv.codesNodup hy hc0 hycode
      have hyid : c'.id = y.id := by
        rcases hyx with hx | hx <;> rw [hx]
      rw [hyid, hyc0]
    · rw [pass0]
      split
      · refine ⟨_, List.mem_map_of_mem _ hc0, ?_, ?_⟩
        · by_cases hh : ((db.courses.filter (fun c =>
              c.is_offered && !(importedCourseCodes data).contains c.external_course_code)).map
                (fun c => c.id)).contains c0.id
          · rw [if_pos hh]
          · rw [if_neg hh]
        · by_cases hh : ((db.courses.filter (fun c =>
              c.is_offered && !(importedCourseCodes data).contains c.external_course_code)).map
                (fun c => c.id)).contains c0.id
          · rw [if_pos hh]
          · rw [if_neg hh]
      · exact ⟨c0, hc0, rfl, rfl⟩
    · rw [pass0_nextId]
      exact hinv.idsBound c0 hc0
  · rw [Q4tags, pass0_tags]

theorem pass0_nox_effect (data : List SnapshotEntry) (db : DB) (stats : Stats)
    (X : String) (hno : ∀ c' ∈ db.courses, c'.external_course_code ≠ X) :
    ∀ c' ∈ (pass0 data db stats).1.courses, c'.external_course_code ≠ X := by
  intro c' hc' hX
  obtain ⟨y, hy, hyx⟩ := pass0_courses_shape data db stats c' hc'
  have hycode : y.external_course_code = X := by
    rcases hyx with hx | hx <;> rw [hx] at hX <;> exact hX
  exact hno y hy hycode

theorem p1fold_pres_q4 (failWrite : Nat → Bool) (l : List (Nat × SnapshotEntry))
    (cid : Nat) (X : String) (L : List TagRow)
    (hne : ∀ p ∈ l, p.2.course_id ≠ X) (st : P1State)
    (h : DBInv st.db ∧ Q4course cid X st.db ∧ Q4tags cid L st.db) :
    DBInv (l.foldl (p1step failWrite) st).db ∧
    Q4course cid X (l.foldl (p1step failWrite) st).db ∧
    Q4tags cid L (l.foldl (p1step failWrite) st).db := by
  refine foldl_pres _ (fun st' : P1State =>
    DBInv st'.db ∧ Q4course cid X st'.db ∧ Q4tags cid L st'.db) _ _ h ?_
  intro st' p hp hq
  obtain ⟨ha, hb, hc⟩ := hq
  obtain ⟨hb', hc'⟩ :=
    processEntryP1_pres_q4 failWrite p.1 p.2 st' cid X L (hne p hp) ha hb hc
  exact ⟨(processEntryP1_dbinv failWrite p.1 p.2 st' ha).1, hb', hc'⟩

theorem p1fold_pres_nox (failWrite : Nat → Bool) (l : List (Nat × SnapshotEntry))
    (X : String) (hne : ∀ p ∈ l, p.2.course_id ≠ X) (st : P1State)
    (h : DBInv st.db ∧ (∀ c' ∈ st.db.courses, c'.external_course_code ≠ X)) :
    DBInv (l.foldl (p1step failWrite) st).db ∧
    (∀ c' ∈ (l.foldl (p1step failWrite) st).db.courses,
      c'.external_course_code ≠ X) ∧
    st.db.nextId ≤ (l.foldl (p1step failWrite) st).db.nextId := by
  have h' := foldl_pres (p1step failWrite) (fun st' : P1State =>
    DBInv st'.db ∧ (∀ c' ∈ st'.db.courses, c'.external_course_code ≠ X) ∧
      st.db.nextId ≤ st'.db.nextId) l st ⟨h.1, h.2, le_refl _⟩ ?_
  · exact h'
  · intro st' p hp hq
    obtain ⟨ha, hb, hc⟩ := hq
    refine ⟨(processEntryP1_dbinv failWrite p.1 p.2 st' ha).1,
      processEntryP1_pres_nox failWrite p.1 p.2 st' X (hne p hp) hb,
      le_trans hc (processEntryP1_dbinv failWrite p.1 p.2 st' ha).2⟩

/-- The tag strings of `tagBlock` are exactly the entry's non-skipped tags. -/
theorem tagBlock_exists (cid : Nat) (ents : List TagEntry) (s : String) :
    (∃ row ∈ tagBlock cid ents, row.tag = s) ↔
      ∃ tg ∈ ents, tg.symbol = s ∧ shouldSkipTag tg.symbol = false := by
  constructor
  · rintro ⟨row, hrow, ht⟩
    have h := (tagFold_exists cid s ents ([], 0)).mp
      ⟨row, hrow, tagBlock_cid cid ents row hrow, ht⟩
    rcases h with ⟨row', hrow', -⟩ | h
    · exact absurd hrow' (List.not_mem_nil row')
    · exact h
  · intro h
    obtain ⟨row, hrow, -, ht⟩ := (tagFold_exists cid s ents ([], 0)).mpr (Or.inr h)
    exact ⟨row, hrow, ht⟩

/-- C4 (amended): for every snapshot entry processed without a store error
(snapshot codes distinct), the cycle settles on a course id `cid` holding the
entry's code; when the entry carries at least one tag, the course's persisted
tag rows afterwards are exactly the entry's tags minus the skip-list; when
the entry carries zero tags, the tag-sync step is skipped entirely and the
course's previously persisted tag rows survive unchanged. -/
theorem c4_tag_sync (cfg : Config) (failWrite : Nat → Bool)
    (db : DB) (snap : List SnapshotEntry) (db' : DB) (stats' : Stats)
    (hinv : DBInv db)
    (hsnap : (snap.map (fun e => e.course_id)).Nodup)
    (hrun : importCoursesFromJson (some cfg) failWrite db snap = .ok (db', stats')) :
    ∀ i e, (i, e) ∈ snap.enum → failWrite i = false →
      ∃ cid,
        (∀ c' ∈ db'.courses, c'.external_course_code = e.course_id → c'.id = cid) ∧
        (∃ c' ∈ db'.courses, c'.id = cid ∧ c'.external_course_code = e.course_id) ∧
        (e.tags ≠ [] →
          db'.course_tags.filter (fun r => r.course_id = cid) = tagBlock cid e.tags ∧
          ∀ s, (∃ row ∈ tagBlock cid e.tags, row.tag = s) ↔
            ∃ tg ∈ e.tags, tg.symbol = s ∧ shouldSkipTag tg.symbol = false) ∧
        (e.tags = [] →
          db'.course_tags.filter (fun r => r.course_id = cid) =
            db.course_tags.filter (fun r => r.course_id = cid)) := by
  intro i e hie hfw
  have h := hrun
  rw [import_ok_eq] at h
  have hp : (pass2 (pass1 failWrite snap (pass0 snap db (initStats snap.length)).1
        (pass0 snap db (initStats snap.length)).2).map snap
      (pass1 failWrite snap (pass0 snap db (initStats snap.length)).1
        (pass0 snap db (initStats snap.length)).2).db
      (pass1 failWrite snap (pass0 snap db (initStats snap.length)).1
        (pass0 snap db (initStats snap.length)).2).stats) = (db', stats') := by
    injection h
  have hdb' : db' = (pass2 (pass1 failWrite snap (pass0 snap db (initStats snap.length)).1
        (pass0 snap db (initStats snap.length)).2).map snap
      (pass1 failWrite snap (pass0 snap db (initStats snap.length)).1
        (pass0 snap db (initStats snap.length)).2).db
      (pass1 failWrite snap (pass0 snap db (initStats snap.length)).1
        (pass0 snap db (initStats snap.length)).2).stats).1 := by
    rw [hp]
  have hinv0 : DBInv (pass0 snap db (initStats snap.length)).1 :=
    pass0_dbinv snap db (initStats snap.length) hinv
  obtain ⟨pre, suf, hsplit, heq⟩ :=
    pass1_decompose failWrite snap (pass0 snap db (initStats snap.length)).1
      (pass0 snap db (initStats snap.length)).2 hie
  have hprene := prefix_codes_ne snap hsnap hsplit
  have hsufne := suffix_codes_ne snap hsnap hsplit
  cases hf0 : db.courses.find? (fun x => x.external_course_code = e.course_id) with
  | some c0 =>
    obtain ⟨hc0mem, hc0code⟩ := find?_code_eq db e.course_id c0 hf0
    have hq0 := pass0_q4_effect snap db (initStats snap.length) c0 hc0mem hinv
    rw [hc0code] at hq0
    have hmid := p1fold_pres_q4 failWrite pre c0.id e.course_id
      (db.course_tags.filter (fun r => r.course_id = c0.id)) hprene
      { db := (pass0 snap db (initStats snap.length)).1, map := [],
        stats := (pass0 snap db (initStats snap.length)).2 }
      ⟨hinv0, hq0.1, hq0.2⟩
    have hcid_eq : (upsertCourse e
        (pre.foldl (p1step failWrite)
          { db := (pass0 snap db (initStats snap.length)).1, map := [],
            stats := (pass0 snap db (initStats snap.length)).2 }).db
        (pre.foldl (p1step failWrite)
          { db := (pass0 snap db (initStats snap.length)).1, map := [],
            stats := (pass0 snap db (initStats snap.length)).2 }).stats).2.1 = c0.id := by
      obtain ⟨hi, ⟨k1, ⟨r, hr, hrid, hrX⟩, k3⟩, ht⟩ := hmid
      rw [upsertCourse]
      cases hfP : (pre.foldl (p1step failWrite)
          { db := (pass0 snap db (initStats snap.length)).1, map := [],
            stats := (pass0 snap db (initStats snap.length)).2 }).db.courses.find?
          (fun x => x.external_course_code = e.course_id) with
      | some cF =>
        show cF.id = c0.id
        obtain ⟨hcFmem, hcFcode⟩ := find?_code_eq _ e.course_id cF hfP
        exact k1 cF hcFmem hcFcode
      | none =>
        exfalso
        have hn := List.find?_eq_none.mp hfP r hr
        simp only [decide_eq_true_eq] at hn
        exact hn hrX
    have heff := processEntryP1_q4_effect failWrite i e
      (pre.foldl (p1step failWrite)
        { db := (pass0 snap db (initStats snap.length)).1, map := [],
          stats := (pass0 snap db (initStats snap.length)).2 })
      c0.id hfw hmid.1 hcid_eq.symm
    refine ⟨c0.id, ?_, ?_, ?_, ?_⟩
    · intro c' hc' hK
      rw [hdb', pass2_courses, heq] at hc'
      by_cases hts : e.tags = []
      · have hpost : DBInv (processEntryP1 failWrite i e
            (pre.foldl (p1step failWrite)
              { db := (pass0 snap db (initStats snap.length)).1, map := [],
                stats := (pass0 snap db (initStats snap.length)).2 })).db ∧
            Q4course c0.id e.course_id _ ∧ Q4tags c0.id
              (db.course_tags.filter (fun r => r.course_id = c0.id)) _ :=
          ⟨(processEntryP1_dbinv failWrite i e _ hmid.1).1, heff.1,
            heff.2.2 hts _ hmid.2.2⟩
        exact (p1fold_pres_q4 failWrite suf c0.id e.course_id _ hsufne _ hpost).2.1.1
          c' hc' hK
      · have hpost : DBInv (processEntryP1 failWrite i e
            (pre.foldl (p1step failWrite)
              { db := (pass0 snap db (initStats snap.length)).1, map := [],
                stats := (pass0 snap db (initStats snap.length)).2 })).db ∧
            Q4course c0.id e.course_id _ ∧ Q4tags c0.id (tagBlock c0.id e.tags) _ :=
          ⟨(processEntryP1_dbinv failWrite i e _ hmid.1).1, heff.1, heff.2.1 hts⟩
        exact (p1fold_pres_q4 failWrite suf c0.id e.course_id _ hsufne _ hpost).2.1.1
          c' hc' hK
    · rw [hdb', pass2_courses, heq]
      by_cases hts : e.tags = []
      · have hpost : DBInv (processEntryP1 failWrite i e
            (pre.foldl (p1step failWrite)
              { db := (pass0 snap db (initStats snap.length)).1, map := [],
                stats := (pass0 snap db (initStats snap.length)).2 })).db ∧
            Q4course c0.id e.course_id _ ∧ Q4tags c0.id
              (db.course_tags.filter (fun r => r.course_id = c0.id)) _ :=
          ⟨(processEntryP1_dbinv failWrite i e _ hmid.1).1, heff.1,
            heff.2.2 hts _ hmid.2.2⟩
        exact (p1fold_pres_q4 failWrite suf c0.id e.course_id _ hsufne _ hpost).2.1.2.1
      · have hpost : DBInv (processEntryP1 failWrite i e
            (pre.foldl (p1step failWrite)
              { db := (pass0 snap db (initStats snap.length)).1, map := [],
                stats := (pass0 snap db (initStats snap.length)).2 })).db ∧
            Q4course c0.id e.course_id _ ∧ Q4tags c0.id (tagBlock c0.id e.tags) _ :=
          ⟨(processEntryP1_dbinv failWrite i e _ hmid.1).1, heff.1, heff.2.1 hts⟩
        exact (p1fold_pres_q4 failWrite suf c0.id e.course_id _ hsufne _ hpost).2.1.2.1
    · intro hts
      have hpost : DBInv (processEntryP1 failWrite i e
          (pre.foldl (p1step failWrite)
            { db := (pass0 snap db (initStats snap.length)).1, map := [],
              stats := (pass0 snap db (initStats snap.length)).2 })).db ∧
          Q4course c0.id e.course_id _ ∧ Q4tags c0.id (tagBlock c0.id e.tags) _ :=
        ⟨(processEntryP1_dbinv failWrite i e _ hmid.1).1, heff.1, heff.2.1 hts⟩
      have hfin := p1fold_pres_q4 failWrite suf c0.id e.course_id _ hsufne _ hpost
      refine ⟨?_, fun s => tagBlock_exists c0.id e.tags s⟩
      rw [hdb', pass2_tags, heq]
      exact hfin.2.2
    · intro hts
      have hpost : DBInv (processEntryP1 failWrite i e
          (pre.foldl (p1step failWrite)
            { db := (pass0 snap db (initStats snap.length)).1, map := [],
              stats := (pass0 snap db (initStats snap.length)).2 })).db ∧
          Q4course c0.id e.course_id _ ∧ Q4tags c0.id
            (db.course_tags.filter (fun r => r.course_id = c0.id)) _ :=
        ⟨(processEntryP1_dbinv failWrite i e _ hmid.1).1, heff.1,
          heff.2.2 hts _ hmid.2.2⟩
      have hfin := p1fold_pres_q4 failWrite suf c0.id e.course_id _ hsufne _ hpost
      rw [hdb', pass2_tags, heq]
      exact hfin.2.2
  | none =>
    have hno : ∀ c' ∈ db.courses, c'.external_course_code ≠ e.course_id := by
      intro c' hc'
      have hn := List.find?_eq_none.mp hf0 c' hc'
      simpa using hn
    have hmid := p1fold_pres_nox failWrite pre e.course_id hprene
      { db := (pass0 snap db (initStats snap.length)).1, map := [],
        stats := (pass0 snap db (initStats snap.length)).2 }
      ⟨hinv0, pass0_nox_effect snap db (initStats snap.length) e.course_id hno⟩
    have hfP : (pre.foldl (p1step failWrite)
        { db := (pass0 snap db (initStats snap.length)).1, map := [],
          stats := (pass0 snap db (initStats snap.length)).2 }).db.courses.find?
        (fun x => x.external_course_code = e.course_id) = none := by
      rw [List.find?_eq_none]
      intro x hx
      simpa using hmid.2.1 x hx
    have hcid_eq : (upsertCourse e
        (pre.foldl (p1step failWrite)
          { db := (pass0 snap db (initStats snap.length)).1, map := [],
            stats := (pass0 snap db (initStats snap.length)).2 }).db
        (pre.foldl (p1step failWrite)
          { db := (pass0 snap db (initStats snap.length)).1, map := [],
            stats := (pass0 snap db (initStats snap.length)).2 }).stats).2.1 =
        (pre.foldl (p1step failWrite)
          { db := (pass0 snap db (initStats snap.length)).1, map := [],
            stats := (pass0 snap db (initStats snap.length)).2 }).db.nextId := by
      rw [upsertCourse, hfP]
    have heff := processEntryP1_q4_effect failWrite i e
      (pre.foldl (p1step failWrite)
        { db := (pass0 snap db (initStats snap.length)).1, map := [],
          stats := (pass0 snap db (initStats snap.length)).2 })
      ((pre.foldl (p1step failWrite)
        { db := (pass0 snap db (initStats snap.length)).1, map := [],
          stats := (pass0 snap db (initStats snap.length)).2 }).db.nextId)
      hfw hmid.1 hcid_eq.symm
    have hnidge : db.nextId ≤ (pre.foldl (p1step failWrite)
        { db := (pass0 snap db (initStats snap.length)).1, map := [],
          stats := (pass0 snap db (initStats snap.length)).2 }).db.nextId := by
      have h2 : (pass0 snap db (initStats snap.length)).1.nextId ≤
          (pre.foldl (p1step failWrite)
            { db := (pass0 snap db (initStats snap.length)).1, map := [],
              stats := (pass0 snap db (initStats snap.length)).2 }).db.nextId := hmid.2.2
      rw [pass0_nextId] at h2
      exact h2
    have hdbnil : db.course_tags.filter (fun r => r.course_id =
        (pre.foldl (p1step failWrite)
          { db := (pass0 snap db (initStats snap.length)).1, map := [],
            stats := (pass0 snap db (initStats snap.length)).2 }).db.nextId) = [] := by
      rw [List.filter_eq_nil_iff]
      intro r hr
      have h1 : r.course_id < db.nextId := hinv.tagsBound r hr
      simp only [decide_eq_true_eq]
      omega
    have hstpnil : Q4tags ((pre.foldl (p1step failWrite)
        { db := (pass0 snap db (initStats snap.length)).1, map := [],
          stats := (pass0 snap db (initStats snap.length)).2 }).db.nextId) []
        (pre.foldl (p1step failWrite)
          { db := (pass0 snap db (initStats snap.length)).1, map := [],
            stats := (pass0 snap db (initStats snap.length)).2 }).db := by
      rw [Q4tags, List.filter_eq_nil_iff]
      intro r hr
      have h1 := hmid.1.tagsBound r hr
      simp only [decide_eq_true_eq]
      omega
    refine ⟨(pre.foldl (p1step failWrite)
        { db := (pass0 snap db (initStats snap.length)).1, map := [],
          stats := (pass0 snap db (initStats snap.length)).2 }).db.nextId,
      ?_, ?_, ?_, ?_⟩
    · intro c' hc' hK
      rw [hdb', pass2_courses, heq] at hc'
      by_cases hts : e.tags = []
      · have hpost := And.intro (processEntryP1_dbinv failWrite i e _ hmid.1).1
          (And.intro heff.1 (heff.2.2 hts _ hstpnil))
        exact (p1fold_pres_q4 failWrite suf _ e.course_id _ hsufne _ hpost).2.1.1
          c' hc' hK
      · have hpost := And.intro (processEntryP1_dbinv failWrite i e _ hmid.1).1
          (And.intro heff.1 (heff.2.1 hts))
        exact (p1fold_pres_q4 failWrite suf _ e.course_id _ hsufne _ hpost).2.1.1
          c' hc' hK
    · rw [hdb', pass2_courses, heq]
      by_cases hts : e.tags = []
      · have hpost := And.intro (processEntryP1_dbinv failWrite i e _ hmid.1).1
          (And.intro heff.1 (heff.2.2 hts _ hstpnil))
        exact (p1fold_pres_q4 failWrite suf _ e.course_id _ hsufne _ hpost).2.1.2.1
      · have hpost := And.intro (processEntryP1_dbinv failWrite i e _ hmid.1).1
          (And.intro heff.1 (heff.2.1 hts))
        exact (p1fold_pres_q4 failWrite suf _ e.course_id _ hsufne _ hpost).2.1.2.1
    · intro hts
      have hpost := And.intro (processEntryP1_dbinv failWrite i e _ hmid.1).1
        (And.intro heff.1 (heff.2.1 hts))
      have hfin := p1fold_pres_q4 failWrite suf _ e.course_id _ hsufne _ hpost
      refine ⟨?_, fun s => tagBlock_exists _ e.tags s⟩
      rw [hdb', pass2_tags, heq]
      exact hfin.2.2
    · intro hts
      have hpost := And.intro (processEntryP1_dbinv failWrite i e _ hmid.1).1
        (And.intro heff.1 (heff.2.2 hts _ hstpnil))
      have hfin := p1fold_pres_q4 failWrite suf _ e.course_id _ hsufne _ hpost
      rw [hdb', pass2_tags, heq, hdbnil]
      exact hfin.2.2

/-- C4 counterexample: the snapshot entry for course "X" carries zero tags,
yet after the cycle the course's stale tag row "OLD" is still persisted —
the previously existing tag rows are NOT deleted when the entry has no tags,
contradicting the claimed unconditional delete. -/
theorem c4_counterexample :
    (mkEntry "X").tags = [] ∧
    (∃ c ∈ (c4run).1.courses, c.id = 1 ∧ c.external_course_code = "X") ∧
    (c4run).1.course_tags.filter (fun r => r.course_id = 1) =
      [{ course_id := 1, tag := "OLD", tag_uuid := none }] := by
  decide

/-- Witness for `c4_tag_sync` on a one-entry snapshot with a skip-listed and
an ordinary tag over a store holding an unrelated course. -/
theorem c4_tag_sync_witness :
    ∃ cid,
      (∀ c' ∈ (c4wrun).1.courses,
        c'.external_course_code = c4tagsEntry.course_id → c'.id = cid) ∧
      (∃ c' ∈ (c4wrun).1.courses, c'.id = cid ∧
        c'.external_course_code = c4tagsEntry.course_id) ∧
      (c4tagsEntry.tags ≠ [] →
        (c4wrun).1.course_tags.filter (fun r => r.course_id = cid) =
          tagBlock cid c4tagsEntry.tags ∧
        ∀ s, (∃ row ∈ tagBlock cid c4tagsEntry.tags, row.tag = s) ↔
          ∃ tg ∈ c4tagsEntry.tags, tg.symbol = s ∧
            shouldSkipTag tg.symbol = false) ∧
      (c4tagsEntry.tags = [] →
        (c4wrun).1.course_tags.filter (fun r => r.course_id = cid) =
          (c4db0 : DB).course_tags.filter (fun r => r.course_id = cid)) :=
  c4_tag_sync cfg0 noFail c4db0 [c4tagsEntry] (c4wrun).1 (c4wrun).2
    (by refine ⟨?_, ?_, ?_, ?_, ?_, ?_, ?_, ?_⟩ <;> decide)
    (by decide) rfl 0 c4tagsEntry (by decide) rfl

/-! ## C9 — reconciling the same snapshot twice

Auxiliary facts: the course update payload is a projection (applying it twice
equals applying it once), the run map behaves as an association list under
fresh keys, and the statistics fields `coursesCreated`/`coursesUpdated` are
only touched by the course upsert. -/

theorem applyCourseData_idem (e : SnapshotEntry) (x : Course) :
    applyCourseData e (applyCourseData e x) = applyCourseData e x := rfl

theorem applyCourseData_freshCourse (e : SnapshotEntry) (id : Nat) :
    applyCourseData e (freshCourse e id) = freshCourse e id := rfl

theorem mapGet_nil (k : String) : mapGet [] k = none := rfl

theorem mapGet_none_of_keys (m : List (String × Nat)) (k : String)
    (h : ∀ p ∈ m, p.1 ≠ k) : mapGet m k = none := by
  rw [mapGet, List.find?_eq_none.mpr]
  · rfl
  · intro p hp
    simpa using h p hp

theorem mapSet_append_of_new (m : List (String × Nat)) (k : String) (v : Nat)
    (h : ∀ p ∈ m, p.1 ≠ k) : mapSet m k v = m ++ [(k, v)] := by
  rw [mapSet, if_neg]
  rw [List.any_eq_true]
  rintro ⟨p, hp, hpk⟩
  exact h p hp (by simpa using hpk)

theorem mapGet_append_one_ne (m : List (String × Nat)) (k : String) (v : Nat)
    (k' : String) (h : k' ≠ k) :
    mapGet (m ++ [(k, v)]) k' = mapGet m k' := by
  rw [mapGet, mapGet, List.find?_append]
  cases hf : m.find? (fun p => p.1 = k') with
  | some p => rfl
  | none =>
    have hone : List.find? (fun p : String × Nat => p.1 = k') [(k, v)] = none := by
      rw [List.find?_eq_none]
      intro p hp
      have hpkv : p = (k, v) := by simpa using hp
      rw [hpkv]
      simpa using fun hkk => h hkk.symm
    rw [hone]
    rfl

theorem mapGet_append_one_self (m : List (String × Nat)) (k : String) (v : Nat)
    (h : ∀ p ∈ m, p.1 ≠ k) :
    mapGet (m ++ [(k, v)]) k = some v := by
  rw [mapGet, List.find?_append, List.find?_eq_none.mpr]
  · have hone : List.find? (fun p : String × Nat => p.1 = k) [(k, v)] = some (k, v) :=
      List.find?_cons_of_pos _ (by simp)
    rw [hone]
    rfl
  · intro p hp
    simpa using h p hp

theorem syncTags_stats_cu (cid : Nat) (ents : List TagEntry) (db : DB) (stats : Stats) :
    (syncTags cid ents db stats).2.coursesCreated = stats.coursesCreated ∧
    (syncTags cid ents db stats).2.coursesUpdated = stats.coursesUpdated := by
  rw [syncTags]
  split <;> exact ⟨rfl, rfl⟩

theorem syncElig_stats_cu (cid : Nat) (gs : Option (List GradeGroup)) (db : DB)
    (stats : Stats) :
    (syncEligibility cid gs db stats).2.coursesCreated = stats.coursesCreated ∧
    (syncEligibility cid gs db stats).2.coursesUpdated = stats.coursesUpdated := by
  cases gs <;> exact ⟨rfl, rfl⟩

theorem syncVariants_stats_cu (cid : Nat) (ents : List VariantEntry) (db : DB)
    (stats : Stats) :
    (syncVariants cid ents db stats).2.coursesCreated = stats.coursesCreated ∧
    (syncVariants cid ents db stats).2.coursesUpdated = stats.coursesUpdated := by
  rw [syncVariants]
  split <;> exact ⟨rfl, rfl⟩

theorem childSync_stats_cu (cid : Nat) (c : SnapshotEntry) (db : DB) (stats : Stats) :
    (childSync cid c db stats).2.coursesCreated = stats.coursesCreated ∧
    (childSync cid c db stats).2.coursesUpdated = stats.coursesUpdated := by
  rw [childSync]
  rw [(syncVariants_stats_cu ..).1, (syncElig_stats_cu ..).1, (syncTags_stats_cu ..).1,
    (syncVariants_stats_cu ..).2, (syncElig_stats_cu ..).2, (syncTags_stats_cu ..).2]
  exact ⟨rfl, rfl⟩

theorem processEntryP2_stats_cu (map : List (String × Nat)) (c : SnapshotEntry)
    (acc : DB × Stats) :
    (processEntryP2 map c acc).2.coursesCreated = acc.2.coursesCreated ∧
    (processEntryP2 map c acc).2.coursesUpdated = acc.2.coursesUpdated := by
  rw [processEntryP2]
  cases mapGet map c.course_id <;> exact ⟨rfl, rfl⟩

theorem pass2_stats_cu (map : List (String × Nat)) (data : List SnapshotEntry)
    (db : DB) (stats : Stats) :
    (pass2 map data db stats).2.coursesCreated = stats.coursesCreated ∧
    (pass2 map data db stats).2.coursesUpdated = stats.coursesUpdated := by
  rw [pass2]
  refine foldl_pres _ (fun acc : DB × Stats =>
    acc.2.coursesCreated = stats.coursesCreated ∧
    acc.2.coursesUpdated = stats.coursesUpdated) data (db, stats) ⟨rfl, rfl⟩ ?_
  intro acc c _ hacc
  rw [(processEntryP2_stats_cu ..).1, (processEntryP2_stats_cu ..).2]
  exact hacc

theorem pass0_stats_cu (data : List SnapshotEntry) (db : DB) (stats : Stats) :
    (pass0 data db stats).2.coursesCreated = stats.coursesCreated ∧
    (pass0 data db stats).2.coursesUpdated = stats.coursesUpdated := by
  rw [pass0]
  split <;> exact ⟨rfl, rfl⟩

/-- When every offered course's code is in the snapshot, Pass 0 is a no-op. -/
theorem pass0_id (data : List SnapshotEntry) (db : DB) (stats : Stats)
    (hall : ∀ c ∈ db.courses, c.is_offered = true →
      (importedCourseCodes data).contains c.external_course_code = true) :
    pass0 data db stats = (db, stats) := by
  have hfil : db.courses.filter (fun c =>
      c.is_offered && !(importedCourseCodes data).contains c.external_course_code) = [] := by
    rw [List.filter_eq_nil_iff]
    intro c hc
    cases hoff : c.is_offered with
    | false => simp [hoff]
    | true =>
      have hmem : c.external_course_code ∈ importedCourseCodes data := by
        have hcon := hall c hc hoff
        simpa using hcon
      simp [hoff, hmem]
  rw [pass0]
  split
  · next hlen =>
    rw [hfil] at hlen
    exact absurd hlen (by simp)
  · rfl

/-- Every course offered after Pass 0 has its code in the snapshot. -/
theorem pass0_offered_codes (data : List SnapshotEntry) (db : DB) (stats : Stats) :
    ∀ c ∈ (pass0 data db stats).1.courses, c.is_offered = true →
      (importedCourseCodes data).contains c.external_course_code = true := by
  rw [pass0]
  split
  · intro c hc hoff
    obtain ⟨y, hy, hyc⟩ := List.mem_map.mp hc
    by_cases hm : ((db.courses.filter (fun c =>
        c.is_offered && !(importedCourseCodes data).contains c.external_course_code)).map
          (fun c => c.id)).contains y.id
    · rw [if_pos hm] at hyc
      rw [← hyc] at hoff
      exact absurd hoff (by simp)
    · rw [if_neg hm] at hyc
      rw [← hyc] at hoff ⊢
      by_cases hpred : (y.is_offered &&
          !(importedCourseCodes data).contains y.external_course_code) = true
      · exfalso
        refine hm ?_
        have hymem : y ∈ db.courses.filter (fun c =>
            c.is_offered && !(importedCourseCodes data).contains c.external_course_code) :=
          List.mem_filter.mpr ⟨hy, hpred⟩
        simpa using List.mem_map_of_mem (fun c => c.id) hymem
      · cases hcon : (importedCourseCodes data).contains y.external_course_code with
        | true => rfl
        | false => exact absurd (by rw [hoff, hcon]; rfl) hpred
  · next hlen =>
    intro c hc hoff
    have hfil : db.courses.filter (fun c =>
        c.is_offered && !(importedCourseCodes data).contains c.external_course_code) = [] := by
      cases hf : db.courses.filter (fun c =>
          c.is_offered && !(importedCourseCodes data).contains c.external_course_code) with
      | nil => rfl
      | cons a t => exact absurd (by rw [hf]; simp) hlen
    have hnp := List.filter_eq_nil_iff.mp hfil c hc
    cases hcon : (importedCourseCodes data).contains c.external_course_code with
    | true => rfl
    | false => exact absurd (by rw [hoff, hcon]; rfl) hnp

/-- A nonempty snapshot code is a member of `importedCourseCodes`. -/
theorem mem_importedCourseCodes (data : List SnapshotEntry) (e : SnapshotEntry)
    (he : e ∈ data) (hnz : e.course_id ≠ "") :
    (importedCourseCodes data).contains e.course_id = true := by
  have hmem : e.course_id ∈ importedCourseCodes data := by
    rw [importedCourseCodes]
    exact List.mem_filter.mpr ⟨List.mem_map_of_mem _ he, by simpa using hnz⟩
  simpa using hmem

theorem eligBlock_cid (cid : Nat) (gs : List GradeGroup) :
    ∀ r ∈ eligBlock cid gs, r.course_id = cid := by
  refine eligFold_mem cid (fun r => r.course_id = cid) (fun _ h => h) gs _ ?_
  intro t ht
  exact absurd ht (List.not_mem_nil t)

theorem insertEligRow_append (l bs : List EligRow) (row : EligRow)
    (cid : Nat) (hl : ∀ r ∈ l, r.course_id ≠ cid) (hrow : row.course_id = cid) :
    (insertEligRow (l ++ bs) row).1 = l ++ (insertEligRow bs row).1 := by
  cases htn : row.term_number with
  | none =>
    have hL : (insertEligRow (l ++ bs) row).1 = (l ++ bs) ++ [row] := by
      simp [insertEligRow, htn]
    have hR : (insertEligRow bs row).1 = bs ++ [row] := by
      simp [insertEligRow, htn]
    rw [hL, hR, List.append_assoc]
  | some tn =>
    have hanyl : l.any (fun x => x.course_id = row.course_id && x.grade = row.grade &&
        x.term_number = some tn) = false := by
      rw [List.any_eq_false]
      intro r hr
      simp only [Bool.and_eq_true, decide_eq_true_eq, not_and]
      rintro ⟨h1, -⟩ -
      exact hl r hr (h1.trans hrow)
    have hcomb : (l ++ bs).any (fun x => x.course_id = row.course_id &&
        x.grade = row.grade && x.term_number = some tn) =
        bs.any (fun x => x.course_id = row.course_id &&
          x.grade = row.grade && x.term_number = some tn) := by
      rw [List.any_append, hanyl, Bool.false_or]
    cases hc : bs.any (fun x => x.course_id = row.course_id &&
        x.grade = row.grade && x.term_number = some tn) with
    | true =>
      have hany2 := hcomb.trans hc
      have hL : (insertEligRow (l ++ bs) row).1 = l ++ bs := by
        simp [insertEligRow, htn, hany2]
      have hR : (insertEligRow bs row).1 = bs := by
        simp [insertEligRow, htn, hc]
      rw [hL, hR]
    | false =>
      have hany2 := hcomb.trans hc
      have hL : (insertEligRow (l ++ bs) row).1 = (l ++ bs) ++ [row] := by
        simp [insertEligRow, htn, hany2]
      have hR : (insertEligRow bs row).1 = bs ++ [row] := by
        simp [insertEligRow, htn, hc]
      rw [hL, hR, List.append_assoc]

theorem eligRowsFold_append (cid : Nat) :
    ∀ (rows : List EligRow) (l bs : List EligRow) (n m : Nat),
      (∀ r ∈ l, r.course_id ≠ cid) → (∀ r ∈ bs, r.course_id = cid) →
      (∀ r ∈ rows, r.course_id = cid) →
      (rows.foldl eligInsertOne (l ++ bs, n)).1 =
        l ++ (rows.foldl eligInsertOne (bs, m)).1 := by
  intro rows
  induction rows with
  | nil => intro l bs n m _ _ _; rfl
  | cons r rest ih =>
    intro l bs n m hl hbs hrows
    rw [List.foldl_cons, List.foldl_cons]
    have hr : r.course_id = cid := hrows r (List.mem_cons_self _ _)
    have h1 : (eligInsertOne (l ++ bs, n) r).1 = l ++ (eligInsertOne (bs, m) r).1 :=
      insertEligRow_append l bs r cid hl hr
    have hpair : eligInsertOne (l ++ bs, n) r =
        (l ++ (eligInsertOne (bs, m) r).1, (eligInsertOne (l ++ bs, n) r).2) :=
      Prod.ext h1 rfl
    rw [hpair]
    have hbs' : ∀ x ∈ (eligInsertOne (bs, m) r).1, x.course_id = cid :=
      eligInsertOne_mem (fun x => x.course_id = cid) (bs, m) r hbs hr
    have hres := ih l (eligInsertOne (bs, m) r).1
      ((eligInsertOne (l ++ bs, n) r).2) ((eligInsertOne (bs, m) r).2)
      hl hbs' (fun x hx => hrows x (List.mem_cons_of_mem _ hx))
    rw [hres]

theorem eligTermsFold_append (cid : Nat) (mk : TermEntry → EligRow)
    (hmk : ∀ t, (mk t).course_id = cid) :
    ∀ (terms : List TermEntry) (l bs : List EligRow) (n m : Nat),
      (∀ r ∈ l, r.course_id ≠ cid) → (∀ r ∈ bs, r.course_id = cid) →
      (terms.foldl (fun acc t => eligInsertOne acc (mk t)) (l ++ bs, n)).1 =
        l ++ (terms.foldl (fun acc t => eligInsertOne acc (mk t)) (bs, m)).1 := by
  intro terms
  induction terms with
  | nil => intro l bs n m _ _; rfl
  | cons t rest ih =>
    intro l bs n m hl hbs
    rw [List.foldl_cons, List.foldl_cons]
    have h1 : (eligInsertOne (l ++ bs, n) (mk t)).1 =
        l ++ (eligInsertOne (bs, m) (mk t)).1 :=
      insertEligRow_append l bs (mk t) cid hl (hmk t)
    have hpair : eligInsertOne (l ++ bs, n) (mk t) =
        (l ++ (eligInsertOne (bs, m) (mk t)).1, (eligInsertOne (l ++ bs, n) (mk t)).2) :=
      Prod.ext h1 rfl
    rw [hpair]
    have hbs' : ∀ x ∈ (eligInsertOne (bs, m) (mk t)).1, x.course_id = cid :=
      eligInsertOne_mem (fun x => x.course_id = cid) (bs, m) (mk t) hbs (hmk t)
    exact ih l (eligInsertOne (bs, m) (mk t)).1
      ((eligInsertOne (l ++ bs, n) (mk t)).2) ((eligInsertOne (bs, m) (mk t)).2) hl hbs'

theorem eligStep_append (cid : Nat) (gg : GradeGroup) (l bs : List EligRow)
    (n m : Nat) (hl : ∀ r ∈ l, r.course_id ≠ cid) (hbs : ∀ r ∈ bs, r.course_id = cid) :
    (eligStep cid (l ++ bs, n) gg).1 = l ++ (eligStep cid (bs, m) gg).1 := by
  rw [eligStep, eligStep]
  split
  · exact eligTermsFold_append cid
      (fun t =>
        { course_id := cid, grade := gg.grade, term_number := t.academic_term,
          term_name := t.name, can_plan := t.can_plan })
      (fun t => rfl) gg.academic_term_offered l bs n m hl hbs
  · exact insertEligRow_append l bs _ cid hl rfl

theorem eligFold_append (cid : Nat) :
    ∀ (gs : List GradeGroup) (l bs : List EligRow) (n m : Nat),
      (∀ r ∈ l, r.course_id ≠ cid) → (∀ r ∈ bs, r.course_id = cid) →
      (gs.foldl (eligStep cid) (l ++ bs, n)).1 =
        l ++ (gs.foldl (eligStep cid) (bs, m)).1 := by
  intro gs
  induction gs with
  | nil => intro l bs n m _ _; rfl
  | cons gg rest ih =>
    intro l bs n m hl hbs
    rw [List.foldl_cons, List.foldl_cons]
    have h1 : (eligStep cid (l ++ bs, n) gg).1 = l ++ (eligStep cid (bs, m) gg).1 :=
      eligStep_append cid gg l bs n m hl hbs
    have hpair : eligStep cid (l ++ bs, n) gg =
        (l ++ (eligStep cid (bs, m) gg).1, (eligStep cid (l ++ bs, n) gg).2) :=
      Prod.ext h1 rfl
    rw [hpair]
    have hbs' : ∀ x ∈ (eligStep cid (bs, m) gg).1, x.course_id = cid := by
      intro x hx
      refine eligFold_mem cid (fun r => r.course_id = cid) (fun _ h => h)
        [gg] (bs, m) hbs x hx
    exact ih l (eligStep cid (bs, m) gg).1
      ((eligStep cid (l ++ bs, n) gg).2) ((eligStep cid (bs, m) gg).2) hl hbs'

theorem syncElig_list_eq (cid : Nat) (gs : List GradeGroup) (db : DB) (stats : Stats) :
    (syncEligibility cid (some gs) db stats).1.course_eligibility =
      db.course_eligibility.filter (fun r => r.course_id ≠ cid) ++ eligBlock cid gs := by
  show ((gs.foldl (eligStep cid)
      (db.course_eligibility.filter (fun r => r.course_id ≠ cid), 0)).1) = _
  have h := eligFold_append cid gs
    (db.course_eligibility.filter (fun r => r.course_id ≠ cid)) [] 0 0
    (fun r hr => by simpa using List.of_mem_filter hr)
    (fun r hr => absurd hr (List.not_mem_nil r))
  rw [List.append_nil] at h
  rw [h]
  rfl

theorem syncElig_filter_self (cid : Nat) (gs : List GradeGroup) (db : DB) (stats : Stats) :
    (syncEligibility cid (some gs) db stats).1.course_eligibility.filter
      (fun r => r.course_id = cid) = eligBlock cid gs := by
  rw [syncElig_list_eq, List.filter_append]
  rw [filter_filter_none (fun r => r.course_id = cid) (fun r => r.course_id ≠ cid)
    db.course_eligibility (fun a ha => by simp at ha ⊢; exact ha)]
  rw [List.nil_append]
  exact List.filter_eq_self.mpr (fun row hrow => by
    simpa using eligBlock_cid cid gs row hrow)

theorem syncElig_filter_other (cid' : Nat) (gso : Option (List GradeGroup))
    (db : DB) (stats : Stats) (k : Nat) (hk : cid' ≠ k) :
    (syncEligibility cid' gso db stats).1.course_eligibility.filter
      (fun r => r.course_id = k) =
      db.course_eligibility.filter (fun r => r.course_id = k) := by
  cases gso with
  | none => rfl
  | some gs =>
    rw [syncElig_list_eq, List.filter_append]
    rw [filter_filter_imp (fun r => r.course_id = k) (fun r => r.course_id ≠ cid')
      db.course_eligibility (fun a ha => by
        simp only [decide_eq_true_eq] at ha
        simp only [ne_eq, decide_eq_true_eq, decide_not, Bool.not_eq_true',
          decide_eq_false_iff_not]
        intro h
        exact hk (h.symm.trans ha))]
    have hblk : (eligBlock cid' gs).filter (fun r => r.course_id = k) = [] := by
      rw [List.filter_eq_nil_iff]
      intro r hr
      have hcid := eligBlock_cid cid' gs r hr
      simp only [decide_eq_true_eq]
      rw [hcid]
      exact hk
    rw [hblk, List.append_nil]

theorem childSync_elig_filter_other (cid : Nat) (c : SnapshotEntry) (db : DB)
    (stats : Stats) (k : Nat) (hk : cid ≠ k) :
    (childSync cid c db stats).1.course_eligibility.filter (fun r => r.course_id = k) =
      db.course_eligibility.filter (fun r => r.course_id = k) := by
  rw [childSync, syncVariants_elig, syncElig_filter_other cid _ _ _ k hk,
    syncTags_elig]

theorem childSync_elig_filter_self (cid : Nat) (c : SnapshotEntry) (db : DB)
    (stats : Stats) (gs : List GradeGroup) (hg : c.grades_eligible = some gs) :
    (childSync cid c db stats).1.course_eligibility.filter (fun r => r.course_id = cid) =
      eligBlock cid gs := by
  rw [childSync, syncVariants_elig, hg, syncElig_filter_self]

/-- With globally fresh variant codes the variant-insert loop is a pure
append. -/
theorem variantFold_append (cid : Nat) :
    ∀ (ents : List VariantEntry) (l : List VariantRow) (n m : Nat),
      (∀ v ∈ l, ∀ en ∈ ents, v.variant_course_code ≠ en.variant_course_code) →
      ((ents.map (fun en => en.variant_course_code)).Nodup) →
      (ents.foldl (variantStep cid) (l, n, m)).1 = l ++ ents.map (variantData cid) := by
  intro ents
  induction ents with
  | nil => intro l n m _ _; exact (List.append_nil l).symm
  | cons en rest ih =>
    intro l n m hfresh hnd
    rw [List.foldl_cons]
    have hconf : l.any (fun v =>
        v.variant_course_code = (variantData cid en).variant_course_code) = false := by
      rw [List.any_eq_false]
      intro v hv
      simp only [decide_eq_true_eq]
      exact hfresh v hv en (List.mem_cons_self _ _)
    have h1 : variantStep cid (l, n, m) en = (l ++ [variantData cid en], n + 1, m) := by
      rw [variantStep]
      simp [insertVariantRow, hconf]
    rw [h1]
    rw [List.map_cons, List.nodup_cons] at hnd
    have hres := ih (l ++ [variantData cid en]) (n + 1) m ?_ hnd.2
    · rw [hres, List.append_assoc]
      rfl
    · intro v hv en' hen'
      rcases List.mem_append.mp hv with hv | hv
      · exact hfresh v hv en' (List.mem_cons_of_mem _ hen')
      · have hveq : v = variantData cid en := by simpa using hv
        rw [hveq]
        show en.variant_course_code ≠ en'.variant_course_code
        intro hcc
        exact hnd.1 (hcc ▸ List.mem_map_of_mem (fun x => x.variant_course_code) hen')

theorem syncVariants_fresh_eq (cid : Nat) (ents : List VariantEntry) (db : DB)
    (stats : Stats) (hne : ents ≠ [])
    (hfresh : ∀ v ∈ db.course_variants, v.course_id ≠ cid →
      ∀ en ∈ ents, v.variant_course_code ≠ en.variant_course_code)
    (hnd : (ents.map (fun en => en.variant_course_code)).Nodup) :
    (syncVariants cid ents db stats).1.course_variants =
      db.course_variants.filter (fun v => v.course_id ≠ cid) ++
        ents.map (variantData cid) := by
  rw [syncVariants]
  split
  · show ((ents.foldl (variantStep cid)
        (db.course_variants.filter (fun v => v.course_id ≠ cid), 0, 0)).1) = _
    refine variantFold_append cid ents _ 0 0 ?_ hnd
    intro v hv en hen
    refine hfresh v (List.mem_of_mem_filter hv) ?_ en hen
    simpa using List.of_mem_filter hv
  · next hlen => exact absurd (List.length_pos.mpr hne) hlen

theorem childSync_variants_fresh (cid : Nat) (c : SnapshotEntry) (db : DB)
    (stats : Stats) (hne : c.variants ≠ [])
    (hfresh : ∀ v ∈ db.course_variants, v.course_id ≠ cid →
      ∀ en ∈ c.variants, v.variant_course_code ≠ en.variant_course_code)
    (hnd : (c.variants.map (fun en => en.variant_course_code)).Nodup) :
    (childSync cid c db stats).1.course_variants =
      db.course_variants.filter (fun v => v.course_id ≠ cid) ++
        c.variants.map (variantData cid) := by
  have hv2 : (syncEligibility cid c.grades_eligible (syncTags cid c.tags db stats).1
      (syncTags cid c.tags db stats).2).1.course_variants = db.course_variants := by
    rw [syncElig_variants, syncTags_variants]
  rw [childSync, syncVariants_fresh_eq cid c.variants _ _ hne
    (by rw [hv2]; exact hfresh) hnd, hv2]

theorem childSync_variants_nofresh (cid : Nat) (c : SnapshotEntry) (db : DB)
    (stats : Stats) (hne : c.variants = []) :
    (childSync cid c db stats).1.course_variants = db.course_variants := by
  rw [childSync]
  have hsv : syncVariants cid c.variants (syncEligibility cid c.grades_eligible
      (syncTags cid c.tags db stats).1 (syncTags cid c.tags db stats).2).1
      (syncEligibility cid c.grades_eligible (syncTags cid c.tags db stats).1
        (syncTags cid c.tags db stats).2).2 =
      ((syncEligibility cid c.grades_eligible (syncTags cid c.tags db stats).1
        (syncTags cid c.tags db stats).2).1,
       (syncEligibility cid c.grades_eligible (syncTags cid c.tags db stats).1
        (syncTags cid c.tags db stats).2).2) := by
    rw [hne]
    rfl
  rw [hsv, syncElig_variants, syncTags_variants]

theorem variants_append_filter_self (cid : Nat) (l : List VariantRow)
    (ents : List VariantEntry) :
    (l.filter (fun v => v.course_id ≠ cid) ++ ents.map (variantData cid)).filter
      (fun v => v.course_id = cid) = ents.map (variantData cid) := by
  rw [List.filter_append]
  rw [filter_filter_none (fun v => v.course_id = cid) (fun v => v.course_id ≠ cid)
    l (fun a ha => by simp at ha ⊢; exact ha)]
  rw [List.nil_append]
  refine List.filter_eq_self.mpr ?_
  intro row hrow
  obtain ⟨en, -, heq⟩ := List.mem_map.mp hrow
  rw [← heq]
  simp [variantData]

theorem variants_append_filter_other (cid : Nat) (l : List VariantRow)
    (ents : List VariantEntry) (k : Nat) (hk : cid ≠ k) :
    (l.filter (fun v => v.course_id ≠ cid) ++ ents.map (variantData cid)).filter
      (fun v => v.course_id = k) = l.filter (fun v => v.course_id = k) := by
  rw [List.filter_append]
  rw [filter_filter_imp (fun v => v.course_id = k) (fun v => v.course_id ≠ cid)
    l (fun a ha => by
      simp only [decide_eq_true_eq] at ha
      simp only [ne_eq, decide_eq_true_eq, decide_not, Bool.not_eq_true',
        decide_eq_false_iff_not]
      intro h
      exact hk (h.symm.trans ha))]
  have hblk : (ents.map (variantData cid)).filter (fun v => v.course_id = k) = [] := by
    rw [List.filter_eq_nil_iff]
    intro r hr
    obtain ⟨en, -, heq⟩ := List.mem_map.mp hr
    simp only [decide_eq_true_eq]
    rw [← heq]
    show cid ≠ k
    exact hk
  rw [hblk, List.append_nil]

theorem mapGet_map_set_ne (k' : String) (v : Nat) (k : String) (h : k ≠ k') :
    ∀ m : List (String × Nat),
      mapGet (m.map (fun p => if p.1 = k' then (k', v) else p)) k = mapGet m k := by
  intro m
  induction m with
  | nil => rfl
  | cons p rest ih =>
    rw [List.map_cons, mapGet, mapGet]
    by_cases hp : p.1 = k'
    · rw [if_pos hp]
      rw [List.find?_cons_of_neg _ (by simpa using fun hkk => h hkk.symm),
        List.find?_cons_of_neg _ (by
          simp only [decide_eq_true_eq]
          intro hpk
          exact h (hpk.symm.trans hp))]
      exact ih
    · rw [if_neg hp]
      cases hpk : (decide (p.1 = k) : Bool) with
      | true =>
        rw [List.find?_cons_of_pos _ (by exact hpk),
          List.find?_cons_of_pos _ (by exact hpk)]
      | false =>
        rw [List.find?_cons_of_neg _ (by rw [hpk]; exact Bool.false_ne_true),
          List.find?_cons_of_neg _ (by rw [hpk]; exact Bool.false_ne_true)]
        exact ih

theorem mapGet_set_ne (m : List (String × Nat)) (k' : String) (v : Nat)
    (k : String) (h : k ≠ k') :
    mapGet (mapSet m k' v) k = mapGet m k := by
  rw [mapSet]
  split
  · exact mapGet_map_set_ne k' v k h m
  · exact mapGet_append_one_ne m k' v k h

theorem mapGet_map_set_self (k : String) (v : Nat) :
    ∀ m : List (String × Nat), (m.any (fun p => p.1 = k)) = true →
      mapGet (m.map (fun p => if p.1 = k then (k, v) else p)) k = some v := by
  intro m
  induction m with
  | nil => intro hany; exact absurd hany (by simp)
  | cons p rest ih =>
    intro hany
    rw [List.map_cons, mapGet]
    by_cases hp : p.1 = k
    · rw [if_pos hp, List.find?_cons_of_pos _ (by simp)]
      rfl
    · rw [if_neg hp, List.find?_cons_of_neg _ (by simpa using hp)]
      refine ih ?_
      rcases List.any_eq_true.mp hany with ⟨q, hq, hqk⟩
      rcases List.mem_cons.mp hq with hq1 | hq1
      · have hq2 : q.1 = k := by simpa using hqk
        exact absurd (hq1 ▸ hq2) hp
      · exact List.any_eq_true.mpr ⟨q, hq1, hqk⟩

theorem mapGet_set_self (m : List (String × Nat)) (k : String) (v : Nat) :
    mapGet (mapSet m k v) k = some v := by
  rw [mapSet]
  split
  · next hany => exact mapGet_map_set_self k v m hany
  · next hany =>
    refine mapGet_append_one_self m k v ?_
    intro p hp hpk
    exact hany (List.any_eq_true.mpr ⟨p, hp, by simpa using hpk⟩)

theorem processEntryP1_pres_qrow (failWrite : Nat → Bool) (i : Nat)
    (e' e : SnapshotEntry) (st : P1State)
    (hfw : failWrite i = false) (hcode : e'.course_id ≠ e.course_id)
    (h : ∀ c' ∈ st.db.courses, c'.external_course_code = e.course_id →
      applyCourseData e c' = c') :
    ∀ c' ∈ (processEntryP1 failWrite i e' st).db.courses,
      c'.external_course_code = e.course_id → applyCourseData e c' = c' := by
  rw [processEntryP1_noFail_eq failWrite i e' st hfw]
  intro c' hc'
  rw [childSync_courses] at hc'
  rw [upsertCourse] at hc'
  revert hc'
  cases hf : st.db.courses.find? (fun x => x.external_course_code = e'.course_id) with
  | some cF =>
    intro hc' hK
    obtain ⟨y, hy, hyc'⟩ := List.mem_map.mp hc'
    by_cases hyi : y.id = cF.id
    · rw [if_pos hyi] at hyc'
      rw [← hyc'] at hK
      exact absurd hK hcode
    · rw [if_neg hyi] at hyc'
      rw [← hyc'] at hK ⊢
      exact h y hy hK
  | none =>
    intro hc' hK
    rcases List.mem_append.mp hc' with hc' | hc'
    · exact h c' hc' hK
    · have hfc : c' = freshCourse e' st.db.nextId := by simpa using hc'
      rw [hfc] at hK
      exact absurd hK hcode

theorem processEntryP1_pres_postE (failWrite : Nat → Bool) (i : Nat)
    (e' e : SnapshotEntry) (st : P1State)
    (hfw : failWrite i = false) (hinv : DBInv st.db)
    (hcode : e'.course_id ≠ e.course_id)
    (h : PostE e st.db st.map) :
    PostE e (processEntryP1 failWrite i e' st).db
      (processEntryP1 failWrite i e' st).map := by
  obtain ⟨cid, hq4, hmap, hrow, htags, helig⟩ := h
  have hne : (upsertCourse e' st.db st.stats).2.1 ≠ cid :=
    upsertCourse_other_id e' st.db st.stats cid e.course_id hcode hinv hq4
  refine ⟨cid, ?_, ?_, ?_, ?_, ?_⟩
  · exact (processEntryP1_pres_q4 failWrite i e' st cid e.course_id
      (st.db.course_tags.filter (fun r => r.course_id = cid)) hcode hinv hq4 rfl).1
  · rw [processEntryP1_noFail_eq failWrite i e' st hfw]
    show mapGet (mapSet st.map e'.course_id _) e.course_id = some cid
    rw [mapGet_set_ne st.map e'.course_id _ e.course_id (fun hk => hcode hk.symm)]
    exact hmap
  · exact processEntryP1_pres_qrow failWrite i e' e st hfw hcode hrow
  · intro hne'
    exact (processEntryP1_pres_q4 failWrite i e' st cid e.course_id
      (tagBlock cid e.tags) hcode hinv hq4 (htags hne')).2
  · intro gs hg
    rw [processEntryP1_noFail_eq failWrite i e' st hfw]
    show ((childSync (upsertCourse e' st.db st.stats).2.1 e'
        (upsertCourse e' st.db st.stats).1
        (upsertCourse e' st.db st.stats).2.2).1.course_eligibility.filter
      (fun r => r.course_id = cid)) = eligBlock cid gs
    rw [childSync_elig_filter_other _ e' _ _ cid hne, upsertCourse_elig]
    exact helig gs hg

theorem processEntryP1_postE_effect (failWrite : Nat → Bool) (i : Nat)
    (e : SnapshotEntry) (st : P1State)
    (hfw : failWrite i = false) (hinv : DBInv st.db) :
    PostE e (processEntryP1 failWrite i e st).db
      (processEntryP1 failWrite i e st).map := by
  refine ⟨(upsertCourse e st.db st.stats).2.1,
    (processEntryP1_q4_effect failWrite i e st _ hfw hinv rfl).1, ?_, ?_, ?_, ?_⟩
  · rw [processEntryP1_noFail_eq failWrite i e st hfw]
    show mapGet (mapSet st.map e.course_id _) e.course_id = some _
    exact mapGet_set_self st.map e.course_id _
  · rw [processEntryP1_noFail_eq failWrite i e st hfw]
    intro c' hc'
    rw [childSync_courses] at hc'
    rw [upsertCourse] at hc'
    revert hc'
    cases hf : st.db.courses.find? (fun x => x.external_course_code = e.course_id) with
    | some c0 =>
      intro hc' hK
      obtain ⟨hc0mem, hc0code⟩ := find?_code_eq st.db e.course_id c0 hf
      obtain ⟨y, hy, hyc'⟩ := List.mem_map.mp hc'
      by_cases hyi : y.id = c0.id
      · rw [if_pos hyi] at hyc'
        rw [← hyc']
        exact applyCourseData_idem e y
      · rw [if_neg hyi] at hyc'
        exfalso
        have hyX : y.external_course_code = e.course_id := by
          rw [← hyc'] at hK
          exact hK
        have hyc0 : y = c0 :=
          List.inj_on_of_nodup_map hinv.codesNodup hy hc0mem (hyX.trans hc0code.symm)
        exact hyi (by rw [hyc0])
    | none =>
      intro hc' hK
      rcases List.mem_append.mp hc' with hc' | hc'
      · exfalso
        have hn := List.find?_eq_none.mp hf c' hc'
        simp only [decide_eq_true_eq] at hn
        exact hn hK
      · have hfc : c' = freshCourse e st.db.nextId := by simpa using hc'
        rw [hfc]
        exact applyCourseData_freshCourse e st.db.nextId
  · exact (processEntryP1_q4_effect failWrite i e st _ hfw hinv rfl).2.1
  · intro gs hg
    rw [processEntryP1_noFail_eq failWrite i e st hfw]
    show ((childSync (upsertCourse e st.db st.stats).2.1 e
        (upsertCourse e st.db st.stats).1
        (upsertCourse e st.db st.stats).2.2).1.course_eligibility.filter
      (fun r => r.course_id = (upsertCourse e st.db st.stats).2.1)) = eligBlock _ gs
    exact childSync_elig_filter_self _ e _ _ gs hg

theorem processEntryP1_pres_offcodes (failWrite : Nat → Bool) (i : Nat)
    (e : SnapshotEntry) (st : P1State) (data : List SnapshotEntry)
    (hfw : failWrite i = false)
    (hec : (importedCourseCodes data).contains e.course_id = true)
    (h : ∀ c ∈ st.db.courses, c.is_offered = true →
      (importedCourseCodes data).contains c.external_course_code = true) :
    ∀ c ∈ (processEntryP1 failWrite i e st).db.courses, c.is_offered = true →
      (importedCourseCodes data).contains c.external_course_code = true := by
  rw [processEntryP1_noFail_eq failWrite i e st hfw]
  intro c' hc'
  rw [childSync_courses] at hc'
  rw [upsertCourse] at hc'
  revert hc'
  cases hf : st.db.courses.find? (fun x => x.external_course_code = e.course_id) with
  | some cF =>
    intro hc' hoff
    obtain ⟨y, hy, hyc'⟩ := List.mem_map.mp hc'
    by_cases hyi : y.id = cF.id
    · rw [if_pos hyi] at hyc'
      rw [← hyc']
      exact hec
    · rw [if_neg hyi] at hyc'
      rw [← hyc'] at hoff ⊢
      exact h y hy hoff
  | none =>
    intro hc' hoff
    rcases List.mem_append.mp hc' with hc' | hc'
    · exact h c' hc' hoff
    · have hfc : c' = freshCourse e st.db.nextId := by simpa using hc'
      rw [hfc]
      exact hec

/-- The cumulative Pass-1 state of a clean first run: store well-formedness,
offered rows carry snapshot codes, and every snapshot entry's per-entry
postcondition holds at the end of the pass. -/
theorem run1_invariants (db : DB) (snap : List SnapshotEntry)
    (hinv : DBInv db)
    (hsnap : (snap.map (fun e => e.course_id)).Nodup)
    (hnz : ∀ e ∈ snap, e.course_id ≠ "") :
    DBInv (pass1 noFail snap (pass0 snap db (initStats snap.length)).1
      (pass0 snap db (initStats snap.length)).2).db ∧
    (∀ c ∈ (pass1 noFail snap (pass0 snap db (initStats snap.length)).1
        (pass0 snap db (initStats snap.length)).2).db.courses,
      c.is_offered = true →
      (importedCourseCodes snap).contains c.external_course_code = true) ∧
    (∀ e ∈ snap, PostE e
      (pass1 noFail snap (pass0 snap db (initStats snap.length)).1
        (pass0 snap db (initStats snap.length)).2).db
      (pass1 noFail snap (pass0 snap db (initStats snap.length)).1
        (pass0 snap db (initStats snap.length)).2).map) := by
  have hmain := foldl_invariant (p1step noFail)
    (fun pre st =>
      (∃ rest, snap.enum = pre ++ rest) →
      (DBInv st.db ∧
       (∀ c ∈ st.db.courses, c.is_offered = true →
         (importedCourseCodes snap).contains c.external_course_code = true) ∧
       (∀ p ∈ pre, PostE p.2 st.db st.map)))
    { db := (pass0 snap db (initStats snap.length)).1, map := [],
      stats := (pass0 snap db (initStats snap.length)).2 }
    ?base ?step snap.enum
  · have hfin := hmain ⟨[], (List.append_nil _).symm⟩
    rw [pass1_eq_foldl]
    refine ⟨hfin.1, hfin.2.1, ?_⟩
    intro e he
    have he2 : e ∈ snap.enum.map Prod.snd := by
      rw [show snap.enum.map Prod.snd = snap from List.enumFrom_map_snd 0 snap]
      exact he
    obtain ⟨p, hp, hpe⟩ := List.mem_map.mp he2
    rw [← hpe]
    exact hfin.2.2 p hp
  case base =>
    intro _
    refine ⟨pass0_dbinv snap db (initStats snap.length) hinv,
      pass0_offered_codes snap db (initStats snap.length), ?_⟩
    intro p hp
    exact absurd hp (List.not_mem_nil p)
  case step =>
    intro pre st a hP hrest
    obtain ⟨rest, hsplitEq⟩ := hrest
    have hsplit' : snap.enum = pre ++ (a.1, a.2) :: rest := by
      rw [hsplitEq, List.append_assoc]
      rfl
    obtain ⟨hI1, hI2, hI4⟩ := hP ⟨(a.1, a.2) :: rest, hsplit'⟩
    have hsnapEq : snap = (pre.map Prod.snd) ++ a.2 :: (rest.map Prod.snd) := by
      rw [show snap = snap.enum.map Prod.snd from (List.enumFrom_map_snd 0 snap).symm,
        hsplit']
      simp
    have hamem : a.2 ∈ snap := by
      rw [hsnapEq]
      exact List.mem_append.mpr (Or.inr (List.mem_cons_self _ _))
    have hpredne := prefix_codes_ne snap hsnap hsplit'
    refine ⟨(processEntryP1_dbinv noFail a.1 a.2 st hI1).1,
      processEntryP1_pres_offcodes noFail a.1 a.2 st snap rfl
        (mem_importedCourseCodes snap a.2 hamem (hnz a.2 hamem)) hI2, ?_⟩
    intro p hp
    rcases List.mem_append.mp hp with hp1 | hp1
    · exact processEntryP1_pres_postE noFail a.1 a.2 p.2 st rfl hI1
        (hpredne p hp1).symm (hI4 p hp1)
    · have hpa : p = (a.1, a.2) := by simpa using hp1
      rw [hpa]
      exact processEntryP1_postE_effect noFail a.1 a.2 st rfl hI1

/-- Pass 2 leaves everything `PostE` talks about untouched. -/
theorem postE_pass2 (e : SnapshotEntry) (m m' : List (String × Nat))
    (data : List SnapshotEntry) (db : DB) (stats : Stats)
    (h : PostE e db m) : PostE e (pass2 m' data db stats).1 m := by
  obtain ⟨cid, ⟨hq1, hq2, hq3⟩, hmap, hrow, htags, helig⟩ := h
  refine ⟨cid, ⟨?_, ?_, ?_⟩, hmap, ?_, ?_, ?_⟩
  · rw [pass2_courses]
    exact hq1
  · rw [pass2_courses]
    exact hq2
  · rw [pass2_nextId]
    exact hq3
  · rw [pass2_courses]
    exact hrow
  · intro hne
    show (pass2 m' data db stats).1.course_tags.filter (fun r => r.course_id = cid) = _
    rw [pass2_tags]
    exact htags hne
  · intro gs hg
    rw [pass2_elig]
    exact helig gs hg

theorem processEntryP1_rels (failWrite : Nat → Bool) (i : Nat) (e : SnapshotEntry)
    (st : P1State) :
    (processEntryP1 failWrite i e st).db.course_relationships =
      st.db.course_relationships := by
  cases hfw : failWrite i with
  | true => rw [processEntryP1_fail_eq failWrite i e st hfw]
  | false =>
    rw [processEntryP1_noFail_eq failWrite i e st hfw]
    show (childSync _ e _ _).1.course_relationships = _
    rw [childSync_rels, upsertCourse_rels]

theorem p1fold_rels (failWrite : Nat → Bool) (l : List (Nat × SnapshotEntry))
    (st : P1State) :
    (l.foldl (p1step failWrite) st).db.course_relationships =
      st.db.course_relationships := by
  refine foldl_pres _ (fun st' : P1State =>
    st'.db.course_relationships = st.db.course_relationships) l st rfl ?_
  intro st' p _ hq
  show (processEntryP1 failWrite p.1 p.2 st').db.course_relationships = _
  rw [processEntryP1_rels, hq]

theorem mkRelRowsFrom_cid (m : List (String × Nat)) (cid : Nat)
    (ty gp : String) :
    ∀ (groups : List ReqGroup) (gi : Nat),
      ∀ r ∈ mkRelRowsFrom m cid ty gp gi groups, r.course_id = cid := by
  intro groups
  induction groups with
  | nil => intro gi r hr; exact absurd hr (List.not_mem_nil r)
  | cons grp rest ih =>
    intro gi r hr
    rw [mkRelRowsFrom] at hr
    rcases List.mem_append.mp hr with hr | hr
    · obtain ⟨alt, -, heq⟩ := List.mem_map.mp hr
      rw [← heq]
      rfl
    · exact ih (gi + 1) r hr

theorem relBlock_cid (m : List (String × Nat)) (cid : Nat) (c : SnapshotEntry) :
    ∀ r ∈ relBlock m cid c, r.course_id = cid := by
  intro r hr
  rcases List.mem_append.mp hr with hr | hr
  · exact mkRelRowsFrom_cid m cid _ _ c.prerequisites 0 r hr
  · exact mkRelRowsFrom_cid m cid _ _ c.corequisites 0 r hr

theorem mkRelRow_congr (m1 m2 : List (String × Nat))
    (h : ∀ k, mapGet m1 k = mapGet m2 k) (cid : Nat) (ty gp : String)
    (gi : Nat) (ra : Bool) (alt : Alt) :
    mkRelRow m1 cid ty gp gi ra alt = mkRelRow m2 cid ty gp gi ra alt := by
  have hbind : alt.course_code.bind (mapGet m1) = alt.course_code.bind (mapGet m2) := by
    cases alt.course_code with
    | none => rfl
    | some k =>
      show mapGet m1 k = mapGet m2 k
      exact h k
  rw [mkRelRow, mkRelRow, hbind]

theorem mkRelRowsFrom_congr (m1 m2 : List (String × Nat))
    (h : ∀ k, mapGet m1 k = mapGet m2 k) (cid : Nat) (ty gp : String) :
    ∀ (groups : List ReqGroup) (gi : Nat),
      mkRelRowsFrom m1 cid ty gp gi groups = mkRelRowsFrom m2 cid ty gp gi groups := by
  intro groups
  induction groups with
  | nil => intro gi; rfl
  | cons grp rest ih =>
    intro gi
    rw [mkRelRowsFrom, mkRelRowsFrom, ih (gi + 1)]
    rw [List.map_congr_left (fun alt _ => mkRelRow_congr m1 m2 h cid ty gp gi
      grp.requires_all alt)]

theorem relBlock_congr (m1 m2 : List (String × Nat))
    (h : ∀ k, mapGet m1 k = mapGet m2 k) (cid : Nat) (c : SnapshotEntry) :
    relBlock m1 cid c = relBlock m2 cid c := by
  rw [relBlock, relBlock, mkRelRows, mkRelRows, mkRelRows, mkRelRows,
    mkRelRowsFrom_congr m1 m2 h, mkRelRowsFrom_congr m1 m2 h]

theorem processEntryP2_some (m : List (String × Nat)) (c : SnapshotEntry)
    (acc : DB × Stats) (cid : Nat) (h : mapGet m c.course_id = some cid) :
    processEntryP2 m c acc =
      ({ acc.1 with course_relationships :=
          acc.1.course_relationships.filter (fun r => r.course_id ≠ cid) ++
            relBlock m cid c },
       { acc.2 with relationshipsCreated :=
          acc.2.relationshipsCreated + (relBlock m cid c).length }) := by
  rw [processEntryP2, h]
  rfl

/-- Per-course characterization of the relationship table after Pass 2. -/
theorem pass2_relfacts (m : List (String × Nat)) (snap : List SnapshotEntry)
    (db : DB) (stats : Stats)
    (hsnap : (snap.map (fun e => e.course_id)).Nodup)
    (hm : ∀ e ∈ snap, ∃ cid, mapGet m e.course_id = some cid)
    (hinj : ∀ e ∈ snap, ∀ e' ∈ snap, ∀ cid,
      mapGet m e.course_id = some cid → mapGet m e'.course_id = some cid →
      e.course_id = e'.course_id) :
    (∀ e ∈ snap, ∀ cid, mapGet m e.course_id = some cid →
      (pass2 m snap db stats).1.course_relationships.filter
        (fun r => r.course_id = cid) = relBlock m cid e) ∧
    (∀ k, (∀ e ∈ snap, ∀ cid, mapGet m e.course_id = some cid → k ≠ cid) →
      (pass2 m snap db stats).1.course_relationships.filter
        (fun r => r.course_id = k) =
        db.course_relationships.filter (fun r => r.course_id = k)) := by
  have hmain := foldl_invariant (fun acc c => processEntryP2 m c acc)
    (fun processed acc =>
      (∃ rest, snap = processed ++ rest) →
      ((∀ e ∈ processed, ∀ cid, mapGet m e.course_id = some cid →
        acc.1.course_relationships.filter (fun r => r.course_id = cid) =
          relBlock m cid e) ∧
       (∀ k, (∀ e ∈ snap, ∀ cid, mapGet m e.course_id = some cid → k ≠ cid) →
        acc.1.course_relationships.filter (fun r => r.course_id = k) =
          db.course_relationships.filter (fun r => r.course_id = k))))
    (db, stats) ?base ?step snap
  · have hfin := hmain ⟨[], (List.append_nil _).symm⟩
    exact ⟨fun e he => hfin.1 e he, hfin.2⟩
  case base =>
    intro _
    exact ⟨fun e he => absurd he (List.not_mem_nil e), fun k _ => rfl⟩
  case step =>
    intro processed acc c hP hrest
    obtain ⟨rest, hsplitEq⟩ := hrest
    have hsplit' : snap = processed ++ c :: rest := by
      rw [hsplitEq, List.append_assoc]
      rfl
    obtain ⟨hA, hB⟩ := hP ⟨c :: rest, hsplit'⟩
    have hcmem : c ∈ snap := by
      rw [hsplit']
      exact List.mem_append.mpr (Or.inr (List.mem_cons_self _ _))
    obtain ⟨cidc, hcidc⟩ := hm c hcmem
    have hstep_eq := processEntryP2_some m c acc cidc hcidc
    have hprocne : ∀ e ∈ processed, e.course_id ≠ c.course_id := by
      intro e he
      have h0 := hsnap
      rw [hsplit', List.map_append, List.map_cons, List.nodup_append] at h0
      obtain ⟨-, hcons, hdisj⟩ := h0
      intro heq
      exact hdisj (List.mem_map_of_mem _ he) (heq ▸ List.mem_cons_self _ _)
    constructor
    · intro e he cid hcid
      rcases List.mem_append.mp he with he1 | he1
      · have hne : cid ≠ cidc := by
          intro heq
          exact hprocne e he1 (hinj e (by
            rw [hsplit']
            exact List.mem_append.mpr (Or.inl he1)) c hcmem cidc (heq ▸ hcid) hcidc)
        show (processEntryP2 m c acc).1.course_relationships.filter
          (fun r => r.course_id = cid) = relBlock m cid e
        rw [hstep_eq]
        show ((acc.1.course_relationships.filter (fun r => r.course_id ≠ cidc) ++
          relBlock m cidc c).filter (fun r => r.course_id = cid)) = _
        rw [List.filter_append]
        rw [filter_filter_imp (fun r => r.course_id = cid)
          (fun r => r.course_id ≠ cidc) acc.1.course_relationships (fun a ha => by
            simp only [decide_eq_true_eq] at ha
            simp only [ne_eq, decide_eq_true_eq, decide_not, Bool.not_eq_true',
              decide_eq_false_iff_not]
            intro h0
            exact hne (ha.symm.trans h0))]
        have hblk : (relBlock m cidc c).filter (fun r => r.course_id = cid) = [] := by
          rw [List.filter_eq_nil_iff]
          intro r hr
          have hrc := relBlock_cid m cidc c r hr
          simp only [decide_eq_true_eq]
          rw [hrc]
          exact fun h0 => hne h0.symm
        rw [hblk, List.append_nil]
        exact hA e he1 cid hcid
      · have hec : e = c := by simpa using he1
        rw [hec] at hcid
        have hcc : cid = cidc := by
          rw [hcid] at hcidc
          exact Option.some.inj hcidc
        rw [hec, hcc]
        show (processEntryP2 m c acc).1.course_relationships.filter
          (fun r => r.course_id = cidc) = relBlock m cidc c
        rw [hstep_eq]
        show ((acc.1.course_relationships.filter (fun r => r.course_id ≠ cidc) ++
          relBlock m cidc c).filter (fun r => r.course_id = cidc)) = relBlock m cidc c
        rw [List.filter_append]
        rw [filter_filter_none (fun r => r.course_id = cidc)
          (fun r => r.course_id ≠ cidc) acc.1.course_relationships
          (fun a ha => by simp at ha ⊢; exact ha)]
        rw [List.nil_append]
        exact List.filter_eq_self.mpr (fun r hr => by
          simpa using relBlock_cid m cidc c r hr)
    · intro k hk
      have hkc : k ≠ cidc := hk c hcmem cidc hcidc
      show (processEntryP2 m c acc).1.course_relationships.filter
        (fun r => r.course_id = k) =
        db.course_relationships.filter (fun r => r.course_id = k)
      rw [hstep_eq]
      show ((acc.1.course_relationships.filter (fun r => r.course_id ≠ cidc) ++
        relBlock m cidc c).filter (fun r => r.course_id = k)) = _
      rw [List.filter_append]
      rw [filter_filter_imp (fun r => r.course_id = k)
        (fun r => r.course_id ≠ cidc) acc.1.course_relationships (fun a ha => by
          simp only [decide_eq_true_eq] at ha
          simp only [ne_eq, decide_eq_true_eq, decide_not, Bool.not_eq_true',
            decide_eq_false_iff_not]
          intro h0
          exact hkc (ha.symm.trans h0))]
      have hblk : (relBlock m cidc c).filter (fun r => r.course_id = k) = [] := by
        rw [List.filter_eq_nil_iff]
        intro r hr
        have hrc := relBlock_cid m cidc c r hr
        simp only [decide_eq_true_eq]
        rw [hrc]
        exact fun h0 => hkc h0.symm
      rw [hblk, List.append_nil]
      exact hB k hk

theorem import_run_eq (cfg : Config) (db : DB) (snap : List SnapshotEntry) :
    importCoursesFromJson (some cfg) noFail db snap = .ok (importRun db snap) := rfl

/-- The run map's keys are exactly the snapshot codes, in snapshot order. -/
theorem run1_map_keys (db : DB) (snap : List SnapshotEntry)
    (hsnap : (snap.map (fun e => e.course_id)).Nodup) :
    (p1run db snap).map.map Prod.fst = snap.map (fun e => e.course_id) := by
  have hmain := foldl_invariant (p1step noFail)
    (fun pre st =>
      (∃ rest, snap.enum = pre ++ rest) →
      st.map.map Prod.fst = pre.map (fun p => p.2.course_id))
    { db := (pass0 snap db (initStats snap.length)).1, map := [],
      stats := (pass0 snap db (initStats snap.length)).2 }
    ?base ?step snap.enum
  · have hfin := hmain ⟨[], (List.append_nil _).symm⟩
    show (pass1 noFail snap (pass0 snap db (initStats snap.length)).1
      (pass0 snap db (initStats snap.length)).2).map.map Prod.fst = _
    rw [pass1_eq_foldl, hfin]
    rw [show snap.enum.map (fun p => p.2.course_id) =
      (snap.enum.map Prod.snd).map (fun e => e.course_id) from (List.map_map _ _ _).symm]
    rw [show snap.enum.map Prod.snd = snap from List.enumFrom_map_snd 0 snap]
  case base =>
    intro _
    rfl
  case step =>
    intro pre st a hP hrest
    obtain ⟨rest, hsplitEq⟩ := hrest
    have hsplit' : snap.enum = pre ++ (a.1, a.2) :: rest := by
      rw [hsplitEq, List.append_assoc]
      rfl
    have hkeys := hP ⟨(a.1, a.2) :: rest, hsplit'⟩
    have hpredne := prefix_codes_ne snap hsnap hsplit'
    have hnew : ∀ p ∈ st.map, p.1 ≠ a.2.course_id := by
      intro p hp
      have hkmem : p.1 ∈ pre.map (fun q => q.2.course_id) := by
        rw [← hkeys]
        exact List.mem_map_of_mem _ hp
      obtain ⟨q, hq, hqe⟩ := List.mem_map.mp hkmem
      rw [← hqe]
      exact hpredne q hq
    show ((processEntryP1 noFail a.1 a.2 st).map.map Prod.fst) = _
    rw [processEntryP1_noFail_eq noFail a.1 a.2 st rfl]
    show ((mapSet st.map a.2.course_id _).map Prod.fst) = _
    rw [mapSet_append_of_new st.map a.2.course_id _ hnew, List.map_append, hkeys,
      List.map_append]
    rfl

/-- A sublist of a `Nodup` concatenation over `flatMap` is itself `Nodup`. -/
theorem nodup_of_flatMap_nodup {α β : Type _} (f : α → List β) (l : List α)
    (h : (l.flatMap f).Nodup) : ∀ x ∈ l, (f x).Nodup := by
  intro x hx
  obtain ⟨l1, l2, hsplit⟩ := List.append_of_mem hx
  rw [hsplit, List.flatMap_append, List.flatMap_cons] at h
  exact (List.Nodup.of_append_left (List.Nodup.of_append_right h))

/-- Lists with identical per-key filters are permutations of each other. -/
theorem perm_of_filter_key {α : Type _} [DecidableEq α] (key : α → Nat)
    (l1 l2 : List α)
    (h : ∀ k, l1.filter (fun x => key x = k) = l2.filter (fun x => key x = k)) :
    l1.Perm l2 := by
  rw [List.perm_iff_count]
  intro a
  have h2 := congrArg (List.count a) (h (key a))
  rw [List.count_filter (by simp), List.count_filter (by simp)] at h2
  exact h2

theorem childSync_elig_none (cid : Nat) (c : SnapshotEntry) (db : DB) (stats : Stats)
    (hg : c.grades_eligible = none) :
    (childSync cid c db stats).1.course_eligibility = db.course_eligibility := by
  rw [childSync, syncVariants_elig, hg]
  show (syncTags cid c.tags db stats).1.course_eligibility = _
  rw [syncTags_elig]

/-! ## The variant table under `23505` takeovers

The variant insert loop is not a pure append: a snapshot variant code that
collides with a persisted one (owned by another course) takes that row over
in place.  The per-code view `look`/`varScan` characterizes the row carrying
each globally unique variant code across a whole pass, and the scan is
idempotent over distinct course ids, which yields idempotence of the variant
table up to row order without any freshness assumption on variant codes. -/

theorem insertVariantRow_codes_nodup (V : List VariantRow) (r : VariantRow)
    (h : (V.map (fun v => v.variant_course_code)).Nodup) :
    ((insertVariantRow V r).1.map (fun v => v.variant_course_code)).Nodup := by
  rw [insertVariantRow]
  split
  · next hany =>
    show ((V.map (fun v =>
      if v.variant_course_code = r.variant_course_code then r else v)).map
        (fun v => v.variant_course_code)).Nodup
    have heq : ((V.map (fun v =>
        if v.variant_course_code = r.variant_course_code then r else v)).map
          (fun v => v.variant_course_code)) =
        V.map (fun v => v.variant_course_code) := by
      rw [List.map_map]
      refine List.map_congr_left ?_
      intro x _
      by_cases hx : x.variant_course_code = r.variant_course_code <;> simp [hx]
    rw [heq]
    exact h
  · next hnot =>
    show (((V ++ [r]).map (fun v => v.variant_course_code)).Nodup)
    rw [List.map_append, List.nodup_append]
    refine ⟨h, by simp, ?_⟩
    intro k hk hk'
    have hkc : k = r.variant_course_code := by simpa using hk'
    subst hkc
    obtain ⟨y, hy, hyk⟩ := List.mem_map.mp hk
    exact hnot (List.any_eq_true.mpr ⟨y, hy, by simp [hyk]⟩)

theorem insFold_codes_nodup (cid : Nat) :
    ∀ (vs : List VariantEntry) (W : List VariantRow),
      ((W.map (fun v => v.variant_course_code)).Nodup) →
      (((vs.foldl (insRow cid) W).map (fun v => v.variant_course_code)).Nodup) := by
  intro vs
  induction vs with
  | nil => intro W h; exact h
  | cons u rest ih =>
    intro W h
    rw [List.foldl_cons]
    exact ih _ (insertVariantRow_codes_nodup W (variantData cid u) h)

theorem varOp_codes_nodup (cid : Nat) (vs : List VariantEntry) (V : List VariantRow)
    (h : (V.map (fun v => v.variant_course_code)).Nodup) :
    ((varOp cid vs V).map (fun v => v.variant_course_code)).Nodup := by
  rw [varOp]
  split
  · exact insFold_codes_nodup cid vs _ (((List.filter_sublist _).map _).nodup h)
  · exact h

theorem varFold_codes_nodup :
    ∀ (jobs : List (Nat × List VariantEntry)) (V : List VariantRow),
      ((V.map (fun v => v.variant_course_code)).Nodup) →
      ((varFold jobs V).map (fun v => v.variant_course_code)).Nodup := by
  intro jobs
  induction jobs with
  | nil => intro V h; exact h
  | cons j rest ih =>
    intro V h
    rw [varFold, List.foldl_cons]
    exact ih _ (varOp_codes_nodup j.1 j.2 V h)

theorem find_replace_pos (c : String) (r : VariantRow)
    (hc : c = r.variant_course_code) :
    ∀ V : List VariantRow,
      V.any (fun v => v.variant_course_code = r.variant_course_code) = true →
      (V.map (fun v =>
        if v.variant_course_code = r.variant_course_code then r else v)).find?
          (fun v => v.variant_course_code = c) = some r := by
  intro V
  induction V with
  | nil => intro hany; exact absurd hany (by simp)
  | cons v rest ih =>
    intro hany
    rw [List.map_cons]
    by_cases hv : v.variant_course_code = r.variant_course_code
    · rw [if_pos hv]
      rw [List.find?_cons_of_pos _ (by simp [hc])]
    · rw [if_neg hv]
      rw [List.find?_cons_of_neg _ (by simpa [hc] using hv)]
      refine ih ?_
      rcases List.any_eq_true.mp hany with ⟨w, hw, hwc⟩
      rcases List.mem_cons.mp hw with hw1 | hw1
      · rw [hw1] at hwc
        simp only [decide_eq_true_eq] at hwc
        exact absurd hwc hv
      · exact List.any_eq_true.mpr ⟨w, hw1, hwc⟩

theorem find_replace_ne (c : String) (r : VariantRow)
    (hc : c ≠ r.variant_course_code) :
    ∀ V : List VariantRow,
      (V.map (fun v =>
        if v.variant_course_code = r.variant_course_code then r else v)).find?
          (fun v => v.variant_course_code = c) =
        V.find? (fun v => v.variant_course_code = c) := by
  intro V
  induction V with
  | nil => rfl
  | cons v rest ih =>
    rw [List.map_cons]
    by_cases hv : v.variant_course_code = r.variant_course_code
    · rw [if_pos hv]
      rw [List.find?_cons_of_neg _ (by simpa using fun h => hc h.symm),
        List.find?_cons_of_neg _ (by
          simp only [decide_eq_true_eq]
          intro h
          exact hc (h.symm.trans hv))]
      exact ih
    · rw [if_neg hv]
      cases hvc : (decide (v.variant_course_code = c) : Bool) with
      | true =>
        rw [List.find?_cons_of_pos _ (by exact hvc),
          List.find?_cons_of_pos _ (by exact hvc)]
      | false =>
        rw [List.find?_cons_of_neg _ (by rw [hvc]; exact Bool.false_ne_true),
          List.find?_cons_of_neg _ (by rw [hvc]; exact Bool.false_ne_true)]
        exact ih

theorem look_insert (c : String) (V : List VariantRow) (r : VariantRow) :
    look c (insertVariantRow V r).1 =
      if c = r.variant_course_code then some r else look c V := by
  rw [insertVariantRow]
  by_cases hany :
      V.any (fun v => v.variant_course_code = r.variant_course_code) = true
  · rw [if_pos hany]
    by_cases hc : c = r.variant_course_code
    · rw [if_pos hc]
      exact find_replace_pos c r hc V hany
    · rw [if_neg hc]
      exact find_replace_ne c r hc V
  · rw [if_neg hany]
    show look c (V ++ [r]) = _
    rw [look, List.find?_append]
    by_cases hc : c = r.variant_course_code
    · rw [if_pos hc]
      have hVn : V.find? (fun v => v.variant_course_code = c) = none := by
        refine List.find?_eq_none.mpr ?_
        intro v hv
        simp only [decide_eq_true_eq]
        intro hvc
        refine hany (List.any_eq_true.mpr ⟨v, hv, ?_⟩)
        simp [hvc, hc.symm]
      rw [hVn]
      show ([r].find? (fun v => v.variant_course_code = c)) = some r
      rw [List.find?_cons_of_pos _ (by simp [hc])]
    · rw [if_neg hc]
      have h1 : [r].find? (fun v => v.variant_course_code = c) = none := by
        rw [List.find?_cons_of_neg _ (by simpa using fun h => hc h.symm)]
        rfl
      rw [h1]
      show Option.or (V.find? fun v => v.variant_course_code = c) none = look c V
      rw [Option.or_none]
      rfl

theorem look_filter (c : String) (p : VariantRow → Bool) :
    ∀ V : List VariantRow, ((V.map (fun v => v.variant_course_code)).Nodup) →
      look c (V.filter p) =
        match look c V with
        | some r => if p r then some r else none
        | none => none := by
  intro V
  induction V with
  | nil => intro _; rfl
  | cons v rest ih =>
    intro hnd
    rw [List.map_cons, List.nodup_cons] at hnd
    by_cases hvc : (v.variant_course_code = c)
    · have hrestnone : look c rest = none := by
        refine List.find?_eq_none.mpr ?_
        intro w hw
        simp only [decide_eq_true_eq]
        intro hwc
        exact hnd.1 ((hwc.trans hvc.symm) ▸ List.mem_map_of_mem _ hw)
      have hlookcons : look c (v :: rest) = some v := by
        rw [look, List.find?_cons_of_pos _ (by simpa using hvc)]
      rw [hlookcons]
      by_cases hpv : p v = true
      · rw [List.filter_cons_of_pos (by exact hpv)]
        rw [look, List.find?_cons_of_pos _ (by simpa using hvc)]
        show some v = if p v = true then some v else none
        rw [if_pos hpv]
      · rw [List.filter_cons_of_neg (by simpa using hpv)]
        rw [ih hnd.2, hrestnone]
        show (none : Option VariantRow) = if p v = true then some v else none
        rw [if_neg hpv]
    · have hlookcons : look c (v :: rest) = look c rest := by
        rw [look, List.find?_cons_of_neg _ (by simpa using hvc)]
        rfl
      rw [hlookcons]
      by_cases hpv : p v = true
      · rw [List.filter_cons_of_pos (by exact hpv)]
        rw [look, List.find?_cons_of_neg _ (by simpa using hvc)]
        exact ih hnd.2
      · rw [List.filter_cons_of_neg (by simpa using hpv)]
        exact ih hnd.2

theorem rowForStep_zero (c : String) (z : Option VariantRow)
    (j : Nat × List VariantEntry) (hlen : ¬ j.2.length > 0) :
    rowForStep c z j = z := by
  rw [rowForStep.eq_def, if_neg hlen]

theorem rowForStep_lister (c : String) (z : Option VariantRow)
    (j : Nat × List VariantEntry) (u : VariantEntry)
    (hlen : j.2.length > 0) (hlp : lastPayload c j.2 = some u) :
    rowForStep c z j = some (variantData j.1 u) := by
  rw [rowForStep.eq_def, if_pos hlen, hlp]

theorem rowForStep_none_none (c : String) (j : Nat × List VariantEntry)
    (hlen : j.2.length > 0) (hlp : lastPayload c j.2 = none) :
    rowForStep c none j = none := by
  rw [rowForStep.eq_def, if_pos hlen, hlp]

theorem rowForStep_kill (c : String) (j : Nat × List VariantEntry) (r : VariantRow)
    (hlen : j.2.length > 0) (hlp : lastPayload c j.2 = none)
    (hr : r.course_id = j.1) :
    rowForStep c (some r) j = none := by
  rw [rowForStep.eq_def, if_pos hlen, hlp]
  show (if r.course_id = j.1 then none else some r : Option VariantRow) = none
  rw [if_pos hr]

theorem rowForStep_pass (c : String) (j : Nat × List VariantEntry) (r : VariantRow)
    (hlen : j.2.length > 0) (hlp : lastPayload c j.2 = none)
    (hr : ¬ r.course_id = j.1) :
    rowForStep c (some r) j = some r := by
  rw [rowForStep.eq_def, if_pos hlen, hlp]
  show (if r.course_id = j.1 then none else some r : Option VariantRow) = some r
  rw [if_neg hr]

theorem lastPayload_nil (c : String) : lastPayload c [] = none := rfl

theorem look_insFold (c : String) (cid : Nat) :
    ∀ (vs : List VariantEntry) (W : List VariantRow),
      look c (vs.foldl (insRow cid) W) =
        match lastPayload c vs with
        | some u => some (variantData cid u)
        | none => look c W := by
  intro vs
  induction vs with
  | nil => intro W; rfl
  | cons u rest ih =>
    intro W
    rw [List.foldl_cons, ih]
    cases hlp : lastPayload c rest with
    | some w =>
      rw [show lastPayload c (u :: rest) = some w from by rw [lastPayload, hlp]]
    | none =>
      rw [show lastPayload c (u :: rest) =
        (if u.variant_course_code = c then some u else none) from by
          rw [lastPayload, hlp]]
      show look c (insRow cid W u) = _
      rw [insRow, look_insert]
      by_cases huc : u.variant_course_code = c
      · rw [if_pos (show c = (variantData cid u).variant_course_code from huc.symm),
          if_pos huc]
      · rw [if_neg (show ¬(c = (variantData cid u).variant_course_code) from
          fun h => huc h.symm), if_neg huc]

theorem look_varOp (c : String) (cid : Nat) (vs : List VariantEntry)
    (V : List VariantRow)
    (hnd : (V.map (fun v => v.variant_course_code)).Nodup) :
    look c (varOp cid vs V) = rowForStep c (look c V) (cid, vs) := by
  by_cases hlen : vs.length > 0
  · rw [varOp, if_pos hlen, look_insFold]
    cases hlp : lastPayload c vs with
    | some u =>
      rw [rowForStep_lister c (look c V) (cid, vs) u (by exact hlen) (by exact hlp)]
    | none =>
      rw [look_filter c _ V hnd]
      cases hlv : look c V with
      | none =>
        rw [rowForStep_none_none c (cid, vs) (by exact hlen) (by exact hlp)]
      | some r =>
        by_cases hr : r.course_id = cid
        · rw [rowForStep_kill c (cid, vs) r (by exact hlen) (by exact hlp) (by exact hr)]
          simp [hr]
        · rw [rowForStep_pass c (cid, vs) r (by exact hlen) (by exact hlp) (by exact hr)]
          simp [hr]
  · rw [varOp, if_neg hlen, rowForStep_zero c _ (cid, vs) (by exact hlen)]

theorem look_varFold (c : String) :
    ∀ (jobs : List (Nat × List VariantEntry)) (V : List VariantRow),
      ((V.map (fun v => v.variant_course_code)).Nodup) →
      look c (varFold jobs V) = varScan c jobs (look c V) := by
  intro jobs
  induction jobs with
  | nil => intro V _; rfl
  | cons j rest ih =>
    intro V hnd
    rw [varFold, List.foldl_cons, varScan, List.foldl_cons]
    show look c (varFold rest (varOp j.1 j.2 V)) =
      varScan c rest (rowForStep c (look c V) j)
    rw [ih _ (varOp_codes_nodup j.1 j.2 V hnd), look_varOp c j.1 j.2 V hnd]

theorem varScan_append_one (c : String) (jobs : List (Nat × List VariantEntry))
    (j : Nat × List VariantEntry) (x : Option VariantRow) :
    varScan c (jobs ++ [j]) x = rowForStep c (varScan c jobs x) j := by
  rw [varScan, List.foldl_append]
  rfl

theorem varScan_no_lister (c : String) :
    ∀ (jobs : List (Nat × List VariantEntry)),
      (∀ j ∈ jobs, lastPayload c j.2 = none) →
      varScan c jobs none = none := by
  intro jobs
  induction jobs with
  | nil => intro _; rfl
  | cons j rest ih =>
    intro h
    rw [varScan, List.foldl_cons]
    have hstep : rowForStep c none j = none := by
      by_cases hlen : j.2.length > 0
      · exact rowForStep_none_none c j hlen (h j (List.mem_cons_self _ _))
      · exact rowForStep_zero c none j hlen
    rw [hstep]
    exact ih (fun j' hj' => h j' (List.mem_cons_of_mem _ hj'))

theorem varScan_trace (c : String) (jobs : List (Nat × List VariantEntry)) :
    ∀ (x : Option VariantRow) (r : VariantRow),
      varScan c jobs x = some r → r.course_id ∉ jobs.map Prod.fst →
      (∀ j ∈ jobs, lastPayload c j.2 = none) ∧ x = some r := by
  induction jobs using List.reverseRecOn with
  | nil =>
    intro x r h _
    exact ⟨fun j hj => absurd hj (List.not_mem_nil j), h⟩
  | append_singleton pre j ih =>
    intro x r h hnotin
    rw [varScan_append_one] at h
    have hnotpre : r.course_id ∉ pre.map Prod.fst := by
      intro hmem
      exact hnotin (by rw [List.map_append]; exact List.mem_append.mpr (Or.inl hmem))
    have hnotj : r.course_id ≠ j.1 := by
      intro heq
      refine hnotin ?_
      rw [List.map_append, heq]
      exact List.mem_append.mpr (Or.inr (List.mem_cons_self _ _))
    by_cases hlen : j.2.length > 0
    · cases hlp : lastPayload c j.2 with
      | some u =>
        rw [rowForStep_lister c _ j u hlen hlp] at h
        have hr : r = variantData j.1 u := (Option.some.inj h).symm
        exact absurd (by rw [hr]; rfl) hnotj
      | none =>
        cases hy : varScan c pre x with
        | none =>
          rw [hy, rowForStep_none_none c j hlen hlp] at h
          exact absurd h (by simp)
        | some r' =>
          rw [hy] at h
          by_cases hr' : r'.course_id = j.1
          · rw [rowForStep_kill c j r' hlen hlp hr'] at h
            exact absurd h (by simp)
          · rw [rowForStep_pass c j r' hlen hlp hr'] at h
            have hrr : r' = r := Option.some.inj h
            rw [hrr] at hy
            obtain ⟨hno, hx⟩ := ih x r hy hnotpre
            refine ⟨?_, hx⟩
            intro j' hj'
            rcases List.mem_append.mp hj' with hj1 | hj1
            · exact hno j' hj1
            · have hjj : j' = j := by simpa using hj1
              rw [hjj]
              exact hlp
    · rw [rowForStep_zero c _ j hlen] at h
      obtain ⟨hno, hx⟩ := ih x r h hnotpre
      refine ⟨?_, hx⟩
      intro j' hj'
      rcases List.mem_append.mp hj' with hj1 | hj1
      · exact hno j' hj1
      · have hjj : j' = j := by simpa using hj1
        rw [hjj]
        have hj2 : j.2 = [] := by
          cases hj2 : j.2 with
          | nil => rfl
          | cons a t => exact absurd (by rw [hj2]; simp) hlen
        rw [hj2]
        exact lastPayload_nil c

theorem varScan_const_of_lister (c : String) :
    ∀ (jobs : List (Nat × List VariantEntry)),
      (∃ j ∈ jobs, lastPayload c j.2 ≠ none) →
      ∀ x y, varScan c jobs x = varScan c jobs y := by
  intro jobs
  induction jobs using List.reverseRecOn with
  | nil =>
    intro h
    obtain ⟨j, hj, -⟩ := h
    exact absurd hj (List.not_mem_nil j)
  | append_singleton pre j ih =>
    intro h x y
    rw [varScan_append_one, varScan_append_one]
    cases hlp : lastPayload c j.2 with
    | none =>
      have hpre : ∃ j' ∈ pre, lastPayload c j'.2 ≠ none := by
        obtain ⟨j', hj', hne⟩ := h
        rcases List.mem_append.mp hj' with hj1 | hj1
        · exact ⟨j', hj1, hne⟩
        · have hjj : j' = j := by simpa using hj1
          rw [hjj] at hne
          exact absurd hlp hne
      rw [ih hpre x y]
    | some u =>
      have hlen : j.2.length > 0 := by
        cases hj2 : j.2 with
        | nil => rw [hj2] at hlp; exact absurd hlp (by simp [lastPayload_nil])
        | cons a t => simp
      rw [rowForStep_lister c _ j u hlen hlp, rowForStep_lister c _ j u hlen hlp]

theorem varScan_idem (c : String) :
    ∀ (jobs : List (Nat × List VariantEntry)),
      ((jobs.map Prod.fst).Nodup) →
      ∀ x, varScan c jobs (varScan c jobs x) = varScan c jobs x := by
  intro jobs
  induction jobs using List.reverseRecOn with
  | nil => intro _ x; rfl
  | append_singleton pre j ih =>
    intro hnd x
    rw [List.map_append, List.nodup_append] at hnd
    obtain ⟨hndpre, -, hdisj⟩ := hnd
    have hjnot : j.1 ∉ pre.map Prod.fst := fun hmem => hdisj hmem (by simp)
    rw [varScan_append_one, varScan_append_one]
    by_cases hlen : j.2.length > 0
    · cases hlp : lastPayload c j.2 with
      | some u =>
        rw [rowForStep_lister c _ j u hlen hlp, rowForStep_lister c _ j u hlen hlp]
      | none =>
        cases hy : varScan c pre x with
        | none =>
          rw [rowForStep_none_none c j hlen hlp]
          by_cases hpre : ∃ j' ∈ pre, lastPayload c j'.2 ≠ none
          · rw [varScan_const_of_lister c pre hpre none x, hy,
              rowForStep_none_none c j hlen hlp]
          · have hno : ∀ j' ∈ pre, lastPayload c j'.2 = none := by
              intro j' hj'
              by_cases hcase : lastPayload c j'.2 = none
              · exact hcase
              · exact absurd ⟨j', hj', hcase⟩ hpre
            rw [varScan_no_lister c pre hno, rowForStep_none_none c j hlen hlp]
        | some r =>
          by_cases hr : r.course_id = j.1
          · rw [rowForStep_kill c j r hlen hlp hr]
            obtain ⟨hno, -⟩ := varScan_trace c pre x r hy (by rw [hr]; exact hjnot)
            rw [varScan_no_lister c pre hno, rowForStep_none_none c j hlen hlp]
          · have h2 : varScan c pre (some r) = some r := by
              rw [← hy]
              exact ih hndpre x
            rw [rowForStep_pass c j r hlen hlp hr, h2,
              rowForStep_pass c j r hlen hlp hr]
    · rw [rowForStep_zero c _ j hlen, rowForStep_zero c _ j hlen, ih hndpre x]

theorem look_mem (V : List VariantRow)
    (hnd : (V.map (fun v => v.variant_course_code)).Nodup) (r : VariantRow) :
    r ∈ V ↔ look r.variant_course_code V = some r := by
  constructor
  · intro hr
    cases hf : look r.variant_course_code V with
    | none =>
      exfalso
      have hn := List.find?_eq_none.mp hf r hr
      simp at hn
    | some w =>
      have hw : w ∈ V := List.mem_of_find?_eq_some hf
      have hwc0 := List.find?_some hf
      simp only [decide_eq_true_eq] at hwc0
      have hwr : w = r := List.inj_on_of_nodup_map hnd hw hr hwc0
      rw [hwr]
  · intro hf
    exact List.mem_of_find?_eq_some hf

theorem perm_of_look (A B : List VariantRow)
    (hA : (A.map (fun v => v.variant_course_code)).Nodup)
    (hB : (B.map (fun v => v.variant_course_code)).Nodup)
    (h : ∀ c, look c A = look c B) : A.Perm B := by
  rw [List.perm_ext_iff_of_nodup (List.Nodup.of_map _ hA) (List.Nodup.of_map _ hB)]
  intro r
  rw [look_mem A hA r, look_mem B hB r, h]

/-- Replaying the snapshot over the store a clean cycle produced leaves the
courses, the id counter, and the per-course tag and eligibility rows
unchanged, re-registers every code at the same id, and counts every entry as
an update. -/
theorem run2_invariants (db : DB) (snap : List SnapshotEntry) (S1 : DB)
    (hS1 : S1 = (importRun db snap).1)
    (hinv : DBInv db)
    (hsnap : (snap.map (fun e => e.course_id)).Nodup)
    (hnz : ∀ e ∈ snap, e.course_id ≠ "") :
    (p1run S1 snap).db.courses = S1.courses ∧
    (p1run S1 snap).db.nextId = S1.nextId ∧
    (∀ k, (p1run S1 snap).db.course_tags.filter (fun r => r.course_id = k) =
      S1.course_tags.filter (fun r => r.course_id = k)) ∧
    (∀ k, (p1run S1 snap).db.course_eligibility.filter (fun r => r.course_id = k) =
      S1.course_eligibility.filter (fun r => r.course_id = k)) ∧
    ((p1run S1 snap).map.map Prod.fst = snap.map (fun e => e.course_id)) ∧
    (∀ e ∈ snap, mapGet (p1run S1 snap).map e.course_id =
      mapGet (p1run db snap).map e.course_id) ∧
    (p1run S1 snap).stats.coursesCreated = 0 ∧
    (p1run S1 snap).stats.coursesUpdated = snap.length := by
  obtain ⟨hdbinv1, hoff1p, hpostp⟩ := run1_invariants db snap hinv hsnap hnz
  have hbridge : ∀ e ∈ snap, PostE e S1 (p1run db snap).map := by
    intro e he
    rw [hS1]
    exact postE_pass2 e (p1run db snap).map (p1run db snap).map snap
      (p1run db snap).db (p1run db snap).stats (hpostp e he)
  have hoff1 : ∀ c ∈ S1.courses, c.is_offered = true →
      (importedCourseCodes snap).contains c.external_course_code = true := by
    intro c hc
    rw [hS1, importRun, pass2_courses] at hc
    exact hoff1p c hc
  have hcourseNodup : (S1.courses.map (fun c => c.id)).Nodup ∧
      (S1.courses.map (fun c => c.external_course_code)).Nodup := by
    rw [hS1, importRun, pass2_courses]
    exact ⟨hdbinv1.idsNodup, hdbinv1.codesNodup⟩
  have hpass0id : pass0 snap S1 (initStats snap.length) = (S1, initStats snap.length) :=
    pass0_id snap S1 (initStats snap.length) hoff1
  have hmain := foldl_invariant (p1step noFail)
    (fun pre st =>
      (∃ rest, snap.enum = pre ++ rest) →
      (st.db.courses = S1.courses ∧
       st.db.nextId = S1.nextId ∧
       (∀ k, st.db.course_tags.filter (fun r => r.course_id = k) =
         S1.course_tags.filter (fun r => r.course_id = k)) ∧
       (∀ k, st.db.course_eligibility.filter (fun r => r.course_id = k) =
         S1.course_eligibility.filter (fun r => r.course_id = k)) ∧
       st.map.map Prod.fst = pre.map (fun p => p.2.course_id) ∧
       (∀ p ∈ pre, mapGet st.map p.2.course_id =
         mapGet (p1run db snap).map p.2.course_id) ∧
       st.stats.coursesCreated = 0 ∧
       st.stats.coursesUpdated = pre.length))
    { db := (pass0 snap S1 (initStats snap.length)).1, map := [],
      stats := (pass0 snap S1 (initStats snap.length)).2 }
    ?base ?step snap.enum
  · have hfin := hmain ⟨[], (List.append_nil _).symm⟩
    obtain ⟨hc, hn, ht, hel, hk, hval, hs1, hs2⟩ := hfin
    refine ⟨hc, hn, ht, hel, ?_, ?_, hs1, ?_⟩
    · show (snap.enum.foldl (p1step noFail) _).map.map Prod.fst = _
      rw [hk]
      rw [show snap.enum.map (fun p => p.2.course_id) =
        (snap.enum.map Prod.snd).map (fun e => e.course_id) from (List.map_map _ _ _).symm]
      rw [show snap.enum.map Prod.snd = snap from List.enumFrom_map_snd 0 snap]
    · intro e he
      have he2 : e ∈ snap.enum.map Prod.snd := by
        rw [show snap.enum.map Prod.snd = snap from List.enumFrom_map_snd 0 snap]
        exact he
      obtain ⟨p, hp, hpe⟩ := List.mem_map.mp he2
      rw [← hpe]
      exact hval p hp
    · show (snap.enum.foldl (p1step noFail) _).stats.coursesUpdated = _
      rw [hs2, List.enum_length]
  case base =>
    intro _
    have h1 : (pass0 snap S1 (initStats snap.length)).1 = S1 :=
      congrArg Prod.fst hpass0id
    have h2 : (pass0 snap S1 (initStats snap.length)).2 = initStats snap.length :=
      congrArg Prod.snd hpass0id
    refine ⟨?_, ?_, ?_, ?_, rfl, ?_, ?_, ?_⟩
    · show (pass0 snap S1 (initStats snap.length)).1.courses = S1.courses
      rw [h1]
    · show (pass0 snap S1 (initStats snap.length)).1.nextId = S1.nextId
      rw [h1]
    · intro k
      show (pass0 snap S1 (initStats snap.length)).1.course_tags.filter _ = _
      rw [h1]
    · intro k
      show (pass0 snap S1 (initStats snap.length)).1.course_eligibility.filter _ = _
      rw [h1]
    · intro p hp
      exact absurd hp (List.not_mem_nil p)
    · show (pass0 snap S1 (initStats snap.length)).2.coursesCreated = 0
      rw [h2]
      rfl
    · show (pass0 snap S1 (initStats snap.length)).2.coursesUpdated = 0
      rw [h2]
      rfl
  case step =>
    intro pre st a hP hrest
    obtain ⟨rest, hsplitEq⟩ := hrest
    have hsplit' : snap.enum = pre ++ (a.1, a.2) :: rest := by
      rw [hsplitEq, List.append_assoc]
      rfl
    obtain ⟨hIc, hIn, hIt, hIe, hIk, hIval, hIs1, hIs2⟩ :=
      hP ⟨(a.1, a.2) :: rest, hsplit'⟩
    have hamem : a.2 ∈ snap := by
      rw [show snap = (pre.map Prod.snd) ++ a.2 :: (rest.map Prod.snd) from by
        rw [show snap = snap.enum.map Prod.snd from (List.enumFrom_map_snd 0 snap).symm,
          hsplit']
        simp]
      exact List.mem_append.mpr (Or.inr (List.mem_cons_self _ _))
    have hpredne := prefix_codes_ne snap hsnap hsplit'
    obtain ⟨cid, hq4S, hmapS, hrowS, htagsS, heligS⟩ := hbridge a.2 hamem
    obtain ⟨hq1, ⟨r0, hr0, hr0id, hr0code⟩, hq3⟩ := hq4S
    have hfindS1 : ∃ c0, S1.courses.find?
        (fun x => x.external_course_code = a.2.course_id) = some c0 := by
      cases hf : S1.courses.find? (fun x => x.external_course_code = a.2.course_id) with
      | some c0 => exact ⟨c0, rfl⟩
      | none =>
        exfalso
        have hn := List.find?_eq_none.mp hf r0 hr0
        simp only [decide_eq_true_eq] at hn
        exact hn hr0code
    obtain ⟨c0, hfindS1⟩ := hfindS1
    obtain ⟨hc0mem, hc0code⟩ := find?_code_eq S1 a.2.course_id c0 hfindS1
    have hc0cid : c0.id = cid := hq1 c0 hc0mem hc0code
    have hfind : st.db.courses.find?
        (fun x => x.external_course_code = a.2.course_id) = some c0 := by
      rw [hIc]
      exact hfindS1
    have hpt : ∀ x ∈ st.db.courses,
        (if x.id = c0.id then applyCourseData a.2 x else x) = x := by
      intro x hx
      rw [hIc] at hx
      by_cases hxi : x.id = c0.id
      · rw [if_pos hxi]
        have hxc0 : x = c0 :=
          List.inj_on_of_nodup_map hcourseNodup.1 hx hc0mem hxi
        rw [hxc0]
        exact hrowS c0 hc0mem hc0code
      · rw [if_neg hxi]
    have hmapid : st.db.courses.map
        (fun x => if x.id = c0.id then applyCourseData a.2 x else x) =
        st.db.courses :=
      (List.map_congr_left hpt).trans (List.map_id _)
    have hupd : upsertCourse a.2 st.db st.stats =
        ({ st.db with
            courses := st.db.courses.map
              (fun x => if x.id = c0.id then applyCourseData a.2 x else x) },
         c0.id,
         { st.stats with coursesUpdated := st.stats.coursesUpdated + 1 }) := by
      rw [upsertCourse, hfind]
    have hup1 : (upsertCourse a.2 st.db st.stats).1 = st.db := by
      rw [hupd]
      show { st.db with
        courses := st.db.courses.map
          (fun x => if x.id = c0.id then applyCourseData a.2 x else x) } = st.db
      rw [hmapid]
    have hupid : (upsertCourse a.2 st.db st.stats).2.1 = c0.id := by
      rw [hupd]
    have hupst : (upsertCourse a.2 st.db st.stats).2.2 =
        { st.stats with coursesUpdated := st.stats.coursesUpdated + 1 } := by
      rw [hupd]
    have hstep_eq : p1step noFail st a =
        { db := (childSync c0.id a.2 st.db
            { st.stats with coursesUpdated := st.stats.coursesUpdated + 1 }).1,
          map := mapSet st.map a.2.course_id c0.id,
          stats := (childSync c0.id a.2 st.db
            { st.stats with coursesUpdated := st.stats.coursesUpdated + 1 }).2 } := by
      show processEntryP1 noFail a.1 a.2 st = _
      rw [processEntryP1_noFail_eq noFail a.1 a.2 st rfl, hup1, hupid, hupst]
    rw [hstep_eq]
    refine ⟨?_, ?_, ?_, ?_, ?_, ?_, ?_, ?_⟩
    · show (childSync c0.id a.2 st.db _).1.courses = S1.courses
      rw [childSync_courses, hIc]
    · show (childSync c0.id a.2 st.db _).1.nextId = S1.nextId
      rw [childSync_nextId, hIn]
    · intro k
      show (childSync c0.id a.2 st.db _).1.course_tags.filter _ = _
      rw [childSync_tags_eq]
      cases htag : a.2.tags with
      | nil =>
        show (syncTags c0.id [] st.db _).1.course_tags.filter _ = _
        show (st.db.course_tags.filter _) = _
        exact hIt k
      | cons x xs =>
        rw [← htag]
        by_cases hk : k = c0.id
        · rw [hk]
          rw [syncTags_filter_self c0.id a.2.tags st.db _
            (by rw [htag]; exact List.cons_ne_nil x xs)]
          have hS1tags : S1.course_tags.filter (fun r => r.course_id = c0.id) =
              tagBlock c0.id a.2.tags := by
            have h0 := htagsS (by rw [htag]; exact List.cons_ne_nil x xs)
            rw [Q4tags] at h0
            rw [hc0cid]
            exact h0
          rw [hS1tags]
        · rw [syncTags_filter_other c0.id a.2.tags st.db _ k
            (fun h0 => hk h0.symm)]
          exact hIt k
    · intro k
      show (childSync c0.id a.2 st.db _).1.course_eligibility.filter _ = _
      cases hge : a.2.grades_eligible with
      | none =>
        rw [childSync_elig_none c0.id a.2 st.db _ hge]
        exact hIe k
      | some gs =>
        by_cases hk : k = c0.id
        · rw [hk]
          rw [childSync_elig_filter_self c0.id a.2 st.db _ gs hge]
          have hS1elig : S1.course_eligibility.filter
              (fun r => r.course_id = c0.id) = eligBlock c0.id gs := by
            rw [hc0cid]
            exact heligS gs hge
          rw [hS1elig]
        · rw [childSync_elig_filter_other c0.id a.2 st.db _ k
            (fun h0 => hk h0.symm)]
          exact hIe k
    · show (mapSet st.map a.2.course_id c0.id).map Prod.fst = _
      have hnew : ∀ p ∈ st.map, p.1 ≠ a.2.course_id := by
        intro p hp
        have hkmem : p.1 ∈ pre.map (fun q => q.2.course_id) := by
          rw [← hIk]
          exact List.mem_map_of_mem _ hp
        obtain ⟨q, hq, hqe⟩ := List.mem_map.mp hkmem
        rw [← hqe]
        exact hpredne q hq
      rw [mapSet_append_of_new st.map a.2.course_id _ hnew, List.map_append, hIk,
        List.map_append]
      rfl
    · intro p hp
      rcases List.mem_append.mp hp with hp1 | hp1
      · show mapGet (mapSet st.map a.2.course_id c0.id) p.2.course_id = _
        rw [mapGet_set_ne st.map a.2.course_id c0.id p.2.course_id (hpredne p hp1)]
        exact hIval p hp1
      · have hpa : p = (a.1, a.2) := by simpa using hp1
        rw [hpa]
        show mapGet (mapSet st.map a.2.course_id c0.id) a.2.course_id = _
        rw [mapGet_set_self st.map a.2.course_id c0.id, hmapS, hc0cid]
    · show (childSync c0.id a.2 st.db _).2.coursesCreated = 0
      rw [(childSync_stats_cu ..).1]
      exact hIs1
    · show (childSync c0.id a.2 st.db _).2.coursesUpdated = _
      rw [(childSync_stats_cu ..).2]
      show st.stats.coursesUpdated + 1 = (pre ++ [a]).length
      rw [hIs2, List.length_append]
      rfl

theorem jobsOf_append (m : List (String × Nat)) (l1 l2 : List SnapshotEntry) :
    jobsOf m (l1 ++ l2) = jobsOf m l1 ++ jobsOf m l2 := by
  rw [jobsOf, jobsOf, jobsOf, List.map_append]

theorem varFold_append_one (jobs : List (Nat × List VariantEntry))
    (j : Nat × List VariantEntry) (V : List VariantRow) :
    varFold (jobs ++ [j]) V = varOp j.1 j.2 (varFold jobs V) := by
  rw [varFold, varFold, List.foldl_append]
  rfl

theorem variantFold_fst (cid : Nat) :
    ∀ (vs : List VariantEntry) (W : List VariantRow) (n m : Nat),
      (vs.foldl (variantStep cid) (W, n, m)).1 = vs.foldl (insRow cid) W := by
  intro vs
  induction vs with
  | nil => intro W n m; rfl
  | cons u rest ih =>
    intro W n m
    rw [List.foldl_cons, List.foldl_cons]
    exact ih _ _ _

theorem syncVariants_varOp (cid : Nat) (vs : List VariantEntry) (db : DB)
    (stats : Stats) :
    (syncVariants cid vs db stats).1.course_variants =
      varOp cid vs db.course_variants := by
  rw [syncVariants, varOp]
  by_cases hlen : vs.length > 0
  · rw [if_pos hlen, if_pos hlen]
    show (vs.foldl (variantStep cid)
      (db.course_variants.filter (fun v => v.course_id ≠ cid), 0, 0)).1 = _
    exact variantFold_fst cid vs _ 0 0
  · rw [if_neg hlen, if_neg hlen]

theorem childSync_variants_varOp (cid : Nat) (c : SnapshotEntry) (db : DB)
    (stats : Stats) :
    (childSync cid c db stats).1.course_variants =
      varOp cid c.variants db.course_variants := by
  rw [childSync, syncVariants_varOp, syncElig_variants, syncTags_variants]

theorem pass0_variant_codes (data : List SnapshotEntry) (db : DB) (stats : Stats) :
    (pass0 data db stats).1.course_variants.map (fun v => v.variant_course_code) =
      db.course_variants.map (fun v => v.variant_course_code) := by
  rw [pass0]
  split
  · rw [List.map_map]
    refine List.map_congr_left ?_
    intro x _
    simp only [Function.comp]
    by_cases hm : (db.courses.filter (fun c =>
        c.is_offered && !(importedCourseCodes data).contains c.external_course_code)).map
          (fun c => c.id) |>.contains x.course_id
    · rw [if_pos hm]
    · rw [if_neg hm]
  · rfl

/-- A clean Pass 1's variant table is the per-entry jobs (course id from the
final run map, the entry's variant list) folded over the Pass-0 table. -/
theorem run_variants_varFold (db : DB) (snap : List SnapshotEntry)
    (hsnap : (snap.map (fun e => e.course_id)).Nodup) :
    (p1run db snap).db.course_variants =
      varFold (jobsOf (p1run db snap).map snap)
        (pass0 snap db (initStats snap.length)).1.course_variants := by
  have hmain := foldl_invariant (p1step noFail)
    (fun pre st =>
      (∃ rest, snap.enum = pre ++ rest) →
      (st.db.course_variants =
        varFold (jobsOf st.map (pre.map Prod.snd))
          (pass0 snap db (initStats snap.length)).1.course_variants ∧
       st.map.map Prod.fst = pre.map (fun p => p.2.course_id)))
    { db := (pass0 snap db (initStats snap.length)).1, map := [],
      stats := (pass0 snap db (initStats snap.length)).2 }
    ?base ?step snap.enum
  · have hfin := hmain ⟨[], (List.append_nil _).symm⟩
    have hvarsF := hfin.1
    rw [show snap.enum.map Prod.snd = snap from List.enumFrom_map_snd 0 snap]
      at hvarsF
    show (pass1 noFail snap (pass0 snap db (initStats snap.length)).1
      (pass0 snap db (initStats snap.length)).2).db.course_variants =
      varFold (jobsOf (pass1 noFail snap (pass0 snap db (initStats snap.length)).1
        (pass0 snap db (initStats snap.length)).2).map snap)
        (pass0 snap db (initStats snap.length)).1.course_variants
    rw [pass1_eq_foldl]
    exact hvarsF
  case base =>
    intro _
    exact ⟨rfl, rfl⟩
  case step =>
    intro pre st a hP hrest
    obtain ⟨rest, hsplitEq⟩ := hrest
    have hsplit' : snap.enum = pre ++ (a.1, a.2) :: rest := by
      rw [hsplitEq, List.append_assoc]
      rfl
    obtain ⟨hIv, hIk⟩ := hP ⟨(a.1, a.2) :: rest, hsplit'⟩
    have hpredne := prefix_codes_ne snap hsnap hsplit'
    have hmapeq : jobsOf (mapSet st.map a.2.course_id
        (upsertCourse a.2 st.db st.stats).2.1) (pre.map Prod.snd) =
        jobsOf st.map (pre.map Prod.snd) := by
      rw [jobsOf, jobsOf]
      refine List.map_congr_left ?_
      intro e' he'
      have hne : e'.course_id ≠ a.2.course_id := by
        obtain ⟨p, hp, hpe⟩ := List.mem_map.mp he'
        rw [← hpe]
        exact hpredne p hp
      rw [mapGet_set_ne st.map a.2.course_id _ e'.course_id hne]
    refine ⟨?_, ?_⟩
    · show (processEntryP1 noFail a.1 a.2 st).db.course_variants = _
      rw [processEntryP1_noFail_eq noFail a.1 a.2 st rfl]
      show (childSync (upsertCourse a.2 st.db st.stats).2.1 a.2
          (upsertCourse a.2 st.db st.stats).1
          (upsertCourse a.2 st.db st.stats).2.2).1.course_variants =
        varFold (jobsOf (mapSet st.map a.2.course_id
            (upsertCourse a.2 st.db st.stats).2.1)
          ((pre ++ [a]).map Prod.snd))
          (pass0 snap db (initStats snap.length)).1.course_variants
      rw [childSync_variants_varOp, upsertCourse_variants, hIv]
      rw [show ((pre ++ [a]).map Prod.snd) = pre.map Prod.snd ++ [a.2] from by
        rw [List.map_append]
        rfl]
      rw [jobsOf_append]
      rw [show jobsOf (mapSet st.map a.2.course_id
          (upsertCourse a.2 st.db st.stats).2.1) [a.2] =
          [((upsertCourse a.2 st.db st.stats).2.1, a.2.variants)] from by
        show [((mapGet (mapSet st.map a.2.course_id
            (upsertCourse a.2 st.db st.stats).2.1) a.2.course_id).getD 0,
          a.2.variants)] = _
        rw [mapGet_set_self]
        rfl]
      rw [varFold_append_one, hmapeq]
    · have hnew : ∀ p ∈ st.map, p.1 ≠ a.2.course_id := by
        intro p hp
        have hkmem : p.1 ∈ pre.map (fun q => q.2.course_id) := by
          rw [← hIk]
          exact List.mem_map_of_mem _ hp
        obtain ⟨q, hq, hqe⟩ := List.mem_map.mp hkmem
        rw [← hqe]
        exact hpredne q hq
      show ((processEntryP1 noFail a.1 a.2 st).map.map Prod.fst) = _
      rw [processEntryP1_noFail_eq noFail a.1 a.2 st rfl]
      show ((mapSet st.map a.2.course_id _).map Prod.fst) = _
      rw [mapSet_append_of_new st.map a.2.course_id _ hnew, List.map_append, hIk,
        List.map_append]
      rfl

/-- C9 (amended): reconciling the same snapshot twice (cleanly, with distinct
nonempty course codes) leaves the persisted state after the second run
identical to the state after the first run — the course rows and id counter
are unchanged and each course's tag, eligibility, variant and relationship
rows are exactly reproduced up to row order, including variant rows acquired
through `23505` code takeovers — and the second run reports `created = 0` and
`updated = total`. -/
theorem c9_idempotence (cfg : Config) (db : DB) (snap : List SnapshotEntry)
    (S1 : DB) (st1 : Stats) (S2 : DB) (st2 : Stats)
    (hinv : DBInv db)
    (hsnap : (snap.map (fun e => e.course_id)).Nodup)
    (hnz : ∀ e ∈ snap, e.course_id ≠ "")
    (hrun1 : importCoursesFromJson (some cfg) noFail db snap = .ok (S1, st1))
    (hrun2 : importCoursesFromJson (some cfg) noFail S1 snap = .ok (S2, st2)) :
    S2.courses = S1.courses ∧
    S2.nextId = S1.nextId ∧
    (∀ k, S2.course_tags.filter (fun r => r.course_id = k) =
      S1.course_tags.filter (fun r => r.course_id = k)) ∧
    S2.course_tags.Perm S1.course_tags ∧
    (∀ k, S2.course_eligibility.filter (fun r => r.course_id = k) =
      S1.course_eligibility.filter (fun r => r.course_id = k)) ∧
    S2.course_eligibility.Perm S1.course_eligibility ∧
    (∀ k, (S2.course_variants.filter (fun v => v.course_id = k)).Perm
      (S1.course_variants.filter (fun v => v.course_id = k))) ∧
    S2.course_variants.Perm S1.course_variants ∧
    (∀ k, S2.course_relationships.filter (fun r => r.course_id = k) =
      S1.course_relationships.filter (fun r => r.course_id = k)) ∧
    S2.course_relationships.Perm S1.course_relationships ∧
    st2.coursesCreated = 0 ∧
    st2.coursesUpdated = snap.length := by
  rw [import_run_eq] at hrun1 hrun2
  have hpair1 : importRun db snap = (S1, st1) := by injection hrun1
  have hpair2 : importRun S1 snap = (S2, st2) := by injection hrun2
  have hS1 : S1 = (importRun db snap).1 := by rw [hpair1]
  have hS2 : S2 = (importRun S1 snap).1 := by rw [hpair2]
  have hst2 : st2 = (importRun S1 snap).2 := by rw [hpair2]
  obtain ⟨hR1, hR2, hR3, hR4, hR6, hR7, hR8, hR9⟩ :=
    run2_invariants db snap S1 hS1 hinv hsnap hnz
  obtain ⟨hdbinv1, hoff1p, hpostp⟩ := run1_invariants db snap hinv hsnap hnz
  have hpostS1 : ∀ e ∈ snap, PostE e S1 (p1run db snap).map := by
    intro e he
    rw [hS1]
    exact postE_pass2 e (p1run db snap).map (p1run db snap).map snap
      (p1run db snap).db (p1run db snap).stats (hpostp e he)
  have hidsNodup : (S1.courses.map (fun c => c.id)).Nodup := by
    rw [hS1, importRun, pass2_courses]
    exact hdbinv1.idsNodup
  have hkeys1 := run1_map_keys db snap hsnap
  have hext : ∀ k, mapGet (p1run S1 snap).map k = mapGet (p1run db snap).map k := by
    intro k
    by_cases hk : k ∈ snap.map (fun e => e.course_id)
    · obtain ⟨e, he, hek⟩ := List.mem_map.mp hk
      rw [← hek]
      exact hR7 e he
    · have hn1 : mapGet (p1run db snap).map k = none := by
        refine mapGet_none_of_keys _ k ?_
        intro p hp hpk
        refine hk ?_
        rw [← hkeys1, ← hpk]
        exact List.mem_map_of_mem _ hp
      have hn2 : mapGet (p1run S1 snap).map k = none := by
        refine mapGet_none_of_keys _ k ?_
        intro p hp hpk
        refine hk ?_
        rw [← hR6, ← hpk]
        exact List.mem_map_of_mem _ hp
      rw [hn1, hn2]
  have hm2 : ∀ e ∈ snap, ∃ cid, mapGet (p1run S1 snap).map e.course_id = some cid := by
    intro e he
    obtain ⟨cid, -, hmap, -⟩ := hpostS1 e he
    exact ⟨cid, by rw [hext]; exact hmap⟩
  have hinj0 : ∀ e ∈ snap, ∀ e' ∈ snap, ∀ cid,
      mapGet (p1run db snap).map e.course_id = some cid →
      mapGet (p1run db snap).map e'.course_id = some cid →
      e.course_id = e'.course_id := by
    intro e he e' he' cid hg hg'
    obtain ⟨ce, hq4e, hmape, -⟩ := hpostS1 e he
    obtain ⟨ce', hq4e', hmape', -⟩ := hpostS1 e' he'
    have hce : ce = cid := by
      rw [hmape] at hg
      exact Option.some.inj hg
    have hce' : ce' = cid := by
      rw [hmape'] at hg'
      exact Option.some.inj hg'
    obtain ⟨-, ⟨re, hre, hreid, hrecode⟩, -⟩ := hq4e
    obtain ⟨-, ⟨re', hre', hreid', hrecode'⟩, -⟩ := hq4e'
    have hsameid : re.id = re'.id := by
      rw [hreid, hreid', hce, hce']
    have hsame : re = re' := List.inj_on_of_nodup_map hidsNodup hre hre' hsameid
    rw [← hrecode, ← hrecode', hsame]
  have hinj2 : ∀ e ∈ snap, ∀ e' ∈ snap, ∀ cid,
      mapGet (p1run S1 snap).map e.course_id = some cid →
      mapGet (p1run S1 snap).map e'.course_id = some cid →
      e.course_id = e'.course_id := by
    intro e he e' he' cid hg hg'
    rw [hext] at hg hg'
    exact hinj0 e he e' he' cid hg hg'
  have hrels2in : (p1run S1 snap).db.course_relationships =
      S1.course_relationships := by
    show (pass1 noFail snap (pass0 snap S1 (initStats snap.length)).1
      (pass0 snap S1 (initStats snap.length)).2).db.course_relationships = _
    rw [pass1_eq_foldl, p1fold_rels]
    show (pass0 snap S1 (initStats snap.length)).1.course_relationships = _
    rw [pass0_rels]
  obtain ⟨hA2, hB2⟩ := pass2_relfacts (p1run S1 snap).map snap
    (p1run S1 snap).db (p1run S1 snap).stats hsnap hm2 hinj2
  have hm1 : ∀ e ∈ snap, ∃ cid, mapGet (p1run db snap).map e.course_id = some cid := by
    intro e he
    obtain ⟨cid, -, hmap, -⟩ := hpostS1 e he
    exact ⟨cid, hmap⟩
  obtain ⟨hA1, hB1⟩ := pass2_relfacts (p1run db snap).map snap
    (p1run db snap).db (p1run db snap).stats hsnap hm1 hinj0
  have hS1rels : ∀ e ∈ snap, ∀ cid,
      mapGet (p1run db snap).map e.course_id = some cid →
      S1.course_relationships.filter (fun r => r.course_id = cid) =
        relBlock (p1run db snap).map cid e := by
    intro e he cid hg
    rw [hS1, importRun]
    exact hA1 e he cid hg
  have hrelper : ∀ k, S2.course_relationships.filter (fun r => r.course_id = k) =
      S1.course_relationships.filter (fun r => r.course_id = k) := by
    intro k
    rw [hS2, importRun]
    by_cases hk : ∃ e ∈ snap, mapGet (p1run S1 snap).map e.course_id = some k
    · obtain ⟨e, he, hg⟩ := hk
      rw [hA2 e he k hg]
      have hg1 : mapGet (p1run db snap).map e.course_id = some k := by
        rw [← hext]
        exact hg
      rw [hS1rels e he k hg1]
      exact relBlock_congr _ _ hext k e
    · rw [hB2 k ?_]
      · rw [hrels2in]
      · intro e he cid hg hkc
        exact hk ⟨e, he, by rw [hkc]; exact hg⟩
  have htagper : ∀ k, S2.course_tags.filter (fun r => r.course_id = k) =
      S1.course_tags.filter (fun r => r.course_id = k) := by
    intro k
    rw [hS2, importRun, pass2_tags]
    exact hR3 k
  have heligper : ∀ k, S2.course_eligibility.filter (fun r => r.course_id = k) =
      S1.course_eligibility.filter (fun r => r.course_id = k) := by
    intro k
    rw [hS2, importRun, pass2_elig]
    exact hR4 k
  have hV0nd : ((pass0 snap db (initStats snap.length)).1.course_variants.map
      (fun v => v.variant_course_code)).Nodup := by
    rw [pass0_variant_codes]
    exact hinv.variantCodesNodup
  have hoff1 : ∀ c ∈ S1.courses, c.is_offered = true →
      (importedCourseCodes snap).contains c.external_course_code = true := by
    intro c hc
    rw [hS1, importRun, pass2_courses] at hc
    exact hoff1p c hc
  have hpass0S1 : pass0 snap S1 (initStats snap.length) = (S1, initStats snap.length) :=
    pass0_id snap S1 (initStats snap.length) hoff1
  have hS1v : S1.course_variants =
      varFold (jobsOf (p1run db snap).map snap)
        (pass0 snap db (initStats snap.length)).1.course_variants := by
    rw [hS1, importRun, pass2_variants]
    exact run_variants_varFold db snap hsnap
  have hS2v : S2.course_variants =
      varFold (jobsOf (p1run db snap).map snap) S1.course_variants := by
    rw [hS2, importRun, pass2_variants]
    have h0 := run_variants_varFold S1 snap hsnap
    rw [show (pass0 snap S1 (initStats snap.length)).1 = S1 from
      congrArg Prod.fst hpass0S1] at h0
    rw [h0]
    have hjobs : jobsOf (p1run S1 snap).map snap =
        jobsOf (p1run db snap).map snap := by
      rw [jobsOf, jobsOf]
      refine List.map_congr_left ?_
      intro e _
      rw [hext e.course_id]
    rw [hjobs]
  have hfstnd : ((jobsOf (p1run db snap).map snap).map Prod.fst).Nodup := by
    rw [jobsOf, List.map_map]
    refine List.Nodup.map_on ?_ (List.Nodup.of_map _ hsnap)
    intro e he e' he' hfeq
    simp only [Function.comp] at hfeq
    obtain ⟨ce, -, hmape, -⟩ := hpostS1 e he
    obtain ⟨ce', -, hmape', -⟩ := hpostS1 e' he'
    have h1 : (mapGet (p1run db snap).map e.course_id).getD 0 = ce := by
      rw [hmape]
      rfl
    have h2 : (mapGet (p1run db snap).map e'.course_id).getD 0 = ce' := by
      rw [hmape']
      rfl
    have hcc : ce = ce' := by
      rw [← h1, ← h2]
      exact hfeq
    rw [← hcc] at hmape'
    have hcode : e.course_id = e'.course_id :=
      hinj0 e he e' he' ce hmape hmape'
    exact List.inj_on_of_nodup_map hsnap he he' hcode
  have hA_nd : (S1.course_variants.map (fun v => v.variant_course_code)).Nodup := by
    rw [hS1v]
    exact varFold_codes_nodup _ _ hV0nd
  have hB_nd : (S2.course_variants.map (fun v => v.variant_course_code)).Nodup := by
    rw [hS2v]
    exact varFold_codes_nodup _ _ hA_nd
  have hlookeq : ∀ c, look c S2.course_variants = look c S1.course_variants := by
    intro c
    rw [hS2v, hS1v]
    rw [look_varFold c (jobsOf (p1run db snap).map snap) _
      (varFold_codes_nodup _ _ hV0nd)]
    rw [look_varFold c (jobsOf (p1run db snap).map snap) _ hV0nd]
    exact varScan_idem c _ hfstnd _
  have hvarperm : S2.course_variants.Perm S1.course_variants :=
    perm_of_look S2.course_variants S1.course_variants hB_nd hA_nd hlookeq
  have hvarperk : ∀ k, (S2.course_variants.filter (fun v => v.course_id = k)).Perm
      (S1.course_variants.filter (fun v => v.course_id = k)) :=
    fun k => hvarperm.filter _
  refine ⟨?_, ?_, htagper, ?_, heligper, ?_, hvarperk, hvarperm, hrelper, ?_, ?_, ?_⟩
  · rw [hS2, importRun, pass2_courses]
    exact hR1
  · rw [hS2, importRun, pass2_nextId]
    exact hR2
  · exact perm_of_filter_key (fun r => r.course_id) _ _ htagper
  · exact perm_of_filter_key (fun r => r.course_id) _ _ heligper
  · exact perm_of_filter_key (fun r => r.course_id) _ _ hrelper
  · rw [hst2, importRun, (pass2_stats_cu ..).1]
    exact hR8
  · rw [hst2, importRun, (pass2_stats_cu ..).2]
    exact hR9

/-- C9 counterexample: a snapshot entry with the empty-string course code is
dropped from `importedCourseCodes` (`filter(Boolean)`), so the second run's
Pass 0 deactivates the course's variant rows and nothing reactivates them:
the persisted state after the second clean run differs from the state after
the first, refuting unconditional idempotence. -/
theorem c9_counterexample :
    importCoursesFromJson (some cfg0) noFail c9db0 [mkEntry ""] = .ok c9S1 ∧
    importCoursesFromJson (some cfg0) noFail (c9S1).1 [mkEntry ""] = .ok c9S2 ∧
    (c9S2).2.coursesCreated = 0 ∧
    (c9S2).2.coursesUpdated = 1 ∧
    (∃ v ∈ (c9S1).1.course_variants, v.course_id = 1 ∧ v.is_offered = true) ∧
    (∃ v ∈ (c9S2).1.course_variants, v.course_id = 1 ∧ v.is_offered = false) ∧
    (c9S2).1.course_variants ≠ (c9S1).1.course_variants := by
  refine ⟨rfl, rfl, ?_, ?_, ?_, ?_, ?_⟩ <;> decide

/-- Witness for `c9_idempotence` on a one-entry snapshot with a tag, an
eligibility group and a variant whose code is taken over (`23505`) from a
previously persisted course. -/
theorem c9_idempotence_witness :
    (c9w2).1.courses = (c9w1).1.courses ∧
    (c9w2).1.nextId = (c9w1).1.nextId ∧
    (∀ k, (c9w2).1.course_tags.filter (fun r => r.course_id = k) =
      (c9w1).1.course_tags.filter (fun r => r.course_id = k)) ∧
    (c9w2).1.course_tags.Perm (c9w1).1.course_tags ∧
    (∀ k, (c9w2).1.course_eligibility.filter (fun r => r.course_id = k) =
      (c9w1).1.course_eligibility.filter (fun r => r.course_id = k)) ∧
    (c9w2).1.course_eligibility.Perm (c9w1).1.course_eligibility ∧
    (∀ k, ((c9w2).1.course_variants.filter (fun v => v.course_id = k)).Perm
      ((c9w1).1.course_variants.filter (fun v => v.course_id = k))) ∧
    (c9w2).1.course_variants.Perm (c9w1).1.course_variants ∧
    (∀ k, (c9w2).1.course_relationships.filter (fun r => r.course_id = k) =
      (c9w1).1.course_relationships.filter (fun r => r.course_id = k)) ∧
    (c9w2).1.course_relationships.Perm (c9w1).1.course_relationships ∧
    (c9w2).2.coursesCreated = 0 ∧
    (c9w2).2.coursesUpdated = ([c9wEntry] : List SnapshotEntry).length :=
  c9_idempotence cfg0 c9wdb0 [c9wEntry] (c9w1).1 (c9w1).2 (c9w2).1 (c9w2).2
    (by refine ⟨?_, ?_, ?_, ?_, ?_, ?_, ?_, ?_⟩ <;> decide)
    (by decide) (by decide) rfl rfl

end Planna

